import Mathlib

/-!
# MilkMan storefront: cart, checkout, search table and routing

A shallow embedding of the client-side logic of the MilkMan frontend
(`frontend/src/pages/UserDashboard.js`, `frontend/src/pages/LandingPage.js`,
the management pages and the user pages under `frontend/src/pages`,
`frontend/src/components/DataTable.js`, `frontend/src/App.js`) together with
the properties proved about it.

Modelling conventions.

* React state is an explicit record (`Dash`); every handler is a function from
  the state before the call to the state after all its `set…` calls.
* A request to the backend is a function argument (`backend`), so a handler is
  defined for every possible answer of the server.
* JavaScript numbers are modelled as integers (`Int`): quantities, ids and prices
  (a price is the value `parsePrice` returns).  `NaN` is the `none` of an
  `Option Int` wherever the code converts with `Number(…)`.  The code computes
  on doubles; its sums agree with the sums of `Int` as long as the values are
  integers of magnitude at most 2^53, and the statement about the total quantity
  after a merge of stored quantities carries that bound.
* Strings are Lean strings.  The lower-casing of the search table is a function
  argument (`lowerCase`), since `String.prototype.toLowerCase` lowers every
  cased letter of Unicode; `toLowerCase`, which `normalizeName` uses to compare
  names, lowers the ASCII letters.  The white space of `\s` and `trim` is the
  ECMAScript white-space set.
* `localStorage` is the optional text stored under `mm_pending_checkout_cart`;
  `JSON.parse` is a function argument returning `none` when it throws.
* A `Map` is the list of its entries in insertion order; a plain object used as
  a dictionary is the list of its own properties in creation order, next to the
  names it inherits from `Object.prototype`.  `Array.prototype.sort` is a stable
  sort by the comparator; `localeCompare` is a function argument.
* A date text is the instant it denotes; a missing or empty date is `none`.
* A handler that can throw or reject returns an `Option` or an `Outcome`.
-/

namespace MilkMan

/-! ## JavaScript helpers -/

/-- Truthiness of an optional boolean field (`undefined` is falsy). -/
def truthy : Option Bool → Bool
  | some b => b
  | none => false

/-- The expression `a || b` for an optional string `a`: `undefined` and the
empty string are falsy. -/
def orStr (a : Option String) (b : String) : String :=
  match a with
  | some s => if s = "" then b else s
  | none => b

/-- The expression `Number(x) || d`: `NaN` (here `none`) and `0` are falsy. -/
def numOr (x : Option Int) (d : Int) : Int :=
  match x with
  | some n => if n = 0 then d else n
  | none => d

/-- White space as matched by `\s` and stripped by `trim`. -/
def isJsSpace (c : Char) : Bool :=
  let n := c.toNat
  n = 9 || n = 10 || n = 11 || n = 12 || n = 13 || n = 32 || n = 160 || n = 5760
    || (8192 ≤ n && n ≤ 8202) || n = 8232 || n = 8233 || n = 8239 || n = 8287
    || n = 12288 || n = 65279

/-- `String.prototype.toLowerCase` as `normalizeName` applies it to a name, on
ASCII letters. -/
def toLowerCase (s : String) : String :=
  String.mk (s.data.map Char.toLower)

/-- Worker of the replacement of `\s+` by one blank: `inRun` tells that the previous character
was white space, so that a whole run yields one blank. -/
def collapseSpaces : Bool → List Char → List Char
  | _, [] => []
  | inRun, c :: cs =>
    if isJsSpace c then
      (if inRun then collapseSpaces true cs else Char.ofNat 32 :: collapseSpaces true cs)
    else c :: collapseSpaces false cs

/-- `String.prototype.trim` on a list of characters. -/
def trimChars (cs : List Char) : List Char :=
  ((cs.dropWhile isJsSpace).reverse.dropWhile isJsSpace).reverse

/-- `normalizeName`: lower-case, collapse white-space runs to one blank, trim. -/
def normalizeName (value : String) : String :=
  String.mk (trimChars (collapseSpaces false (toLowerCase value).data))

/-- `String.prototype.includes`. -/
def includes (hay needle : String) : Bool :=
  decide (needle.data <:+: hay.data)

/-- `new Map(entries.map(e => [key(e), e])).get(k)`: a later entry with the same
key overwrites an earlier one. -/
def mapGet {α κ : Type} [DecidableEq κ] (key : α → κ) (entries : List α) (k : κ) : Option α :=
  entries.foldl (fun acc e => if key e = k then some e else acc) none

/-! ## Data model -/

/-- A `product_id` as stored on a cart line: the numeric id of the catalog, or the
text `missing-…` given to an unresolved intent item. -/
inductive Pid where
  | num (n : Int)
  | str (s : String)
  deriving DecidableEq, Repr

/-- A catalog product of `dashboardData.products`; `price` is
`parsePrice(product.price)`. -/
structure Product where
  product_id : Int
  name : String
  price : Int
  subscription_only : Bool
  category_name : Option String
  deriving DecidableEq, Repr

/-- A cart line.  `requires_subscription` is absent (`none`) on the lines that
`handleAddToCart` creates. -/
structure CartLine where
  product_id : Pid
  name : String
  price : Int
  quantity : Int
  unavailable : Bool
  requires_subscription : Option Bool
  deriving DecidableEq, Repr

/-- One element of the stored intent list, read with `item?.field`:
`product_id` is `Number(item?.product_id)`, `qty` is `Number(item?.qty)`,
`priceValue` the parsed `item?.priceValue`; `none` stands for a missing field
(or `NaN`). -/
structure IntentItem where
  product_id : Option Int
  name : Option String
  qty : Option Int
  priceValue : Option Int
  deriving DecidableEq, Repr

/-! ## Cart operations (`UserDashboard.js`) -/

/-- The line `handleAddToCart` appends for a product that is not yet in the cart. -/
def newCartLine (product : Product) : CartLine :=
  { product_id := Pid.num product.product_id
    name := product.name
    price := product.price
    quantity := 1
    unavailable := false
    requires_subscription := none }

/-- The state updater of `handleAddToCart`. -/
def addToCartLines (previous : List CartLine) (product : Product) : List CartLine :=
  match previous.find? (fun item => item.product_id = Pid.num product.product_id) with
  | some _ =>
    previous.map (fun item =>
      if item.product_id = Pid.num product.product_id
      then { item with quantity := item.quantity + 1 }
      else item)
  | none => previous ++ [newCartLine product]

/-- The state updater of `handleRemoveFromCart`. -/
def removeFromCartLines (previous : List CartLine) (productId : Pid) : List CartLine :=
  previous.filter (fun item => item.product_id ≠ productId)

/-- The product an intent item resolves to:
`productsById.get(requestedProductId) || productsByName.get(normalizeName(requestedName))`. -/
def matchProduct (products : List Product) (item : IntentItem) : Option Product :=
  let byId : Option Product :=
    match item.product_id with
    | some n => mapGet (fun p => p.product_id) products n
    | none => none
  match byId with
  | some p => some p
  | none => mapGet (fun p => normalizeName p.name) products (normalizeName (orStr item.name ""))

/-- The body of `intentItems.map((item, index) => …)`. -/
def hydrateItem (products : List Product) (index : Nat) (item : IntentItem) : CartLine :=
  let requestedName := orStr item.name ""
  let qty := max 1 (numOr item.qty 1)
  match matchProduct products item with
  | some matchedProduct =>
    { product_id := Pid.num matchedProduct.product_id
      name := matchedProduct.name
      price := matchedProduct.price
      quantity := qty
      unavailable := false
      requires_subscription := some matchedProduct.subscription_only }
  | none =>
    { product_id := Pid.str ("missing-" ++ normalizeName requestedName ++ "-" ++ toString index)
      name := orStr (some requestedName) "Unknown Product"
      price := item.priceValue.getD 0
      quantity := qty
      unavailable := true
      requires_subscription := some false }

/-- The list `hydratedItems` of the pending-intent effect. -/
def hydratedItems (products : List Product) (intentItems : List IntentItem) : List CartLine :=
  intentItems.mapIdx (hydrateItem products)

/-- `Array.prototype.findIndex`, with `none` for the result `-1`. -/
def findIndex {α : Type} (p : α → Bool) : List α → Option Nat
  | [] => none
  | a :: as => if p a then some 0 else (findIndex p as).map (fun i => i + 1)

/-- One round of `hydratedItems.forEach` inside the `setCartItems` updater.  The
sum of the two quantities is a sum of doubles in the code; on the integers of
the model it is the same number as long as it does not exceed 2^53. -/
def mergeOne (merged : List CartLine) (incoming : CartLine) : List CartLine :=
  match findIndex (fun item => item.product_id = incoming.product_id) merged with
  | some existingIndex =>
    List.modify
      (fun existing =>
        { existing with
          quantity := existing.quantity + incoming.quantity
          unavailable := existing.unavailable || incoming.unavailable })
      existingIndex merged
  | none => merged ++ [incoming]

/-- The `setCartItems` updater of the pending-intent effect. -/
def mergeIntent (previous hydrated : List CartLine) : List CartLine :=
  hydrated.foldl mergeOne previous

/-- The figure `cartStats.items`: the total quantity in the cart. -/
def cartQuantity (cartItems : List CartLine) : Int :=
  cartItems.foldl (fun sum item => sum + item.quantity) 0

/-- The filter `availableCartItems` of `handleCartCheckoutPayment`: the lines
that are sent to checkout. -/
def availableCartItems (cartItems : List CartLine) : List CartLine :=
  cartItems.filter (fun item => !item.unavailable && !truthy item.requires_subscription)

/-- The figure `cartStats.total`: the amount shown on the pay button. -/
def cartTotal (cartItems : List CartLine) : Int :=
  (cartItems.filter (fun item => !item.unavailable)).foldl
    (fun sum item => sum + item.price * item.quantity) 0

/-! ## Checkout payment -/

/-- The form state `cartPaymentData`. -/
structure CartPaymentData where
  payment_method : String
  card_number : String
  expiry : String
  cvv : String
  upi_id : String
  bank_name : String
  deriving DecidableEq, Repr

/-- The constant `cartPaymentTemplate`. -/
def cartPaymentTemplate : CartPaymentData :=
  { payment_method := "card", card_number := "", expiry := "", cvv := "", upi_id := "",
    bank_name := "" }

/-- The session user passed to the pages as `authUser`. -/
structure AuthUser where
  id : Nat
  first_name : Option String
  username : Option String
  role : String
  deriving DecidableEq, Repr

/-- One entry of `payload.items`. -/
structure PayloadItem where
  product_id : Pid
  quantity : Int
  deriving DecidableEq, Repr

/-- The body posted to the cart-checkout endpoint; a field that the handler does
not set is `none`. -/
structure Payload where
  customer_id : Nat
  items : List PayloadItem
  payment_method : String
  card_number : Option String
  expiry : Option String
  cvv : Option String
  upi_id : Option String
  bank_name : Option String
  deriving DecidableEq, Repr

/-- What the handler reads of a successful checkout response. -/
structure CheckoutResponse where
  order_id : Option Nat
  order_reference : Option String
  paid_at : Option String
  payment_reference : Option String
  deriving DecidableEq, Repr

/-- What the handler reads of `apiError?.response?.data`; all fields are `none`
when the error carries no response. -/
structure CheckoutError where
  subscription_only_items : Option (List String)
  reason : Option String
  error : Option String
  deriving DecidableEq, Repr

/-- The two clock readings of the handler: `Date.now()` and
`new Date().toISOString()`. -/
structure Clock where
  now : Nat
  iso : String
  deriving DecidableEq, Repr

/-- One line of the receipt view-model. -/
structure ReceiptItem where
  name : String
  quantity : Int
  unitPrice : Int
  lineTotal : Int
  deriving DecidableEq, Repr

/-- The receipt view-model stored in `successReceipt`. -/
structure Receipt where
  type : String
  title : String
  subtitle : String
  customerName : String
  receiptNo : String
  transactionReference : String
  paidAt : String
  paymentMethod : String
  paymentDetail : String
  items : List ReceiptItem
  subtotal : Int
  tax : Int
  total : Int
  deriving DecidableEq, Repr

/-- The function `formatPaymentDetail`, applied to the payment form. -/
def formatPaymentDetail (method : String) (source : CartPaymentData) : String :=
  if method = "card" then
    let digits := source.card_number.data.filter Char.isDigit
    let tail := digits.drop (digits.length - 4)
    if tail.isEmpty then "Card payment" else "Card ending " ++ String.mk tail
  else if method = "upi" then
    (if source.upi_id = "" then "UPI payment" else "UPI " ++ source.upi_id)
  else if method = "netbanking" then
    (if source.bank_name = "" then "Net banking payment"
     else "Net Banking (" ++ source.bank_name ++ ")")
  else "Online payment"

/-- The memo `cartPaymentMethodLabel`. -/
def cartPaymentMethodLabel (d : CartPaymentData) : String :=
  if d.payment_method = "upi" then "UPI"
  else if d.payment_method = "netbanking" then "Net Banking"
  else if d.payment_method = "cod" then "COD"
  else "Card"

/-- The method-specific checks at the head of `handleCartCheckoutPayment`: the
message passed to `setError` when a check fails. -/
def validateCartPayment (d : CartPaymentData) : Option String :=
  if d.payment_method = "cod" then none
  else if d.payment_method = "card" then
    (if d.card_number = "" || d.expiry = "" || d.cvv = "" then some "Enter complete card details"
     else none)
  else if d.payment_method = "upi" then
    (if includes d.upi_id "@" then none else some "Enter a valid UPI ID")
  else if d.bank_name = "" then some "Bank name is required for net banking"
  else none

/-- The request body built by `handleCartCheckoutPayment`. -/
def checkoutPayload (user : AuthUser) (d : CartPaymentData) (lines : List CartLine) : Payload :=
  { customer_id := user.id
    items := lines.map (fun item => { product_id := item.product_id, quantity := item.quantity })
    payment_method := d.payment_method
    card_number := if d.payment_method = "card" then some d.card_number else none
    expiry := if d.payment_method = "card" then some d.expiry else none
    cvv := if d.payment_method = "card" then some d.cvv else none
    upi_id :=
      if d.payment_method = "card" then none
      else if d.payment_method = "upi" then some d.upi_id else none
    bank_name :=
      if d.payment_method = "card" then none
      else if d.payment_method = "upi" then none
      else if d.payment_method = "netbanking" then some d.bank_name else none }

/-- The `orderId` of a response, when it is truthy. -/
def truthyOrderId (response : CheckoutResponse) : Option Nat :=
  match response.order_id with
  | some n => if n = 0 then none else some n
  | none => none

/-- The receipt that `handleCartCheckoutPayment` passes to `setSuccessReceipt`. -/
def cartReceipt (user : AuthUser) (clock : Clock) (snapshot : CartPaymentData)
    (checkoutItems : List CartLine) (response : CheckoutResponse) : Receipt :=
  let orderId := truthyOrderId response
  let subtotal := checkoutItems.foldl (fun sum item => sum + item.price * item.quantity) 0
  { type := "order"
    title :=
      if snapshot.payment_method = "cod" then "Order Placed (COD)"
      else "Order Payment Successful"
    subtitle :=
      match orderId with
      | some n => "Order #" ++ toString n ++ " confirmed and ready for processing."
      | none => "Order confirmed and ready for processing."
    customerName := orStr user.first_name (orStr user.username "MilkMan User")
    receiptNo :=
      match orderId with
      | some n => "MM-BILL-" ++ toString n
      | none => "MM-BILL-" ++ toString clock.now
    transactionReference :=
      orStr response.payment_reference
        (orStr response.order_reference
          (match orderId with
           | some n => "MM-ORD-" ++ toString n
           | none => "MM-ORD-" ++ toString clock.now))
    paidAt := orStr response.paid_at clock.iso
    paymentMethod :=
      if snapshot.payment_method = "upi" then "UPI"
      else if snapshot.payment_method = "netbanking" then "Net Banking"
      else if snapshot.payment_method = "cod" then "Cash On Delivery"
      else "Card"
    paymentDetail := formatPaymentDetail snapshot.payment_method snapshot
    items := checkoutItems.map (fun item =>
      { name := item.name, quantity := item.quantity, unitPrice := item.price,
        lineTotal := item.price * item.quantity })
    subtotal := subtotal
    tax := 0
    total := subtotal }

/-- The message passed to `setSuccess` after a successful checkout. -/
def orderConfirmedMessage (response : CheckoutResponse) (label : String) : String :=
  match truthyOrderId response with
  | some n => "Order #" ++ toString n ++ " confirmed via " ++ label
  | none => "Order confirmed"

/-! ## Dashboard state -/

/-- The part of the state of `UserDashboard` that the cart and checkout flow
reads or writes, with the stored intent (`storage`) and the number of
`getItem` calls on that key made so far (`storageReads`). -/
structure Dash where
  loading : Bool
  error : String
  success : String
  cartItems : List CartLine
  cartOpen : Bool
  cartCheckoutOpen : Bool
  cartCheckoutSubmitting : Bool
  cartPaymentData : CartPaymentData
  cartWarning : String
  intentHandled : Bool
  activePanel : String
  successReceipt : Option Receipt
  storage : Option String
  storageReads : Nat
  deriving DecidableEq, Repr

/-- The state at mount: the `useState` initial values, over any stored intent. -/
def Dash.init (storage : Option String) : Dash :=
  { loading := true, error := "", success := "", cartItems := [], cartOpen := false,
    cartCheckoutOpen := false, cartCheckoutSubmitting := false,
    cartPaymentData := cartPaymentTemplate, cartWarning := "", intentHandled := false,
    activePanel := "", successReceipt := none, storage := storage, storageReads := 0 }

/-- The handler `handleAddToCart` (its log and toast are display only). -/
def handleAddToCart (s : Dash) (product : Product) : Dash :=
  { s with
    cartItems := addToCartLines s.cartItems product
    success := product.name ++ " added to cart" }

/-- The handler `handleRemoveFromCart`. -/
def handleRemoveFromCart (s : Dash) (productId : Pid) : Dash :=
  { s with cartItems := removeFromCartLines s.cartItems productId }

/-- The handler `handleProductSubscribe`. -/
def handleProductSubscribe (s : Dash) : Dash :=
  { s with cartOpen := false, cartCheckoutOpen := false, activePanel := "subscription" }

/-- The handler `closeCartBoxes`. -/
def closeCartBoxes (s : Dash) : Dash :=
  { s with cartOpen := false, cartCheckoutOpen := false }

/-- The handler `handleOpenCartCheckout`; the warning it sets is cleared later by
a timer (`Action.clearCartWarning`). -/
def handleOpenCartCheckout (s : Dash) : Dash :=
  if s.cartItems.length = 0 then
    { s with error := "Add products to cart before checkout" }
  else
    let subscriptionOnlyLines := s.cartItems.filter (fun item => truthy item.requires_subscription)
    if subscriptionOnlyLines.length > 0 then
      { s with
        cartWarning :=
          "Some items require subscription delivery. Add them to your plan basket to continue."
        cartCheckoutOpen := false
        activePanel := "subscription" }
    else
      let unavailableItems := s.cartItems.filter (fun item => item.unavailable)
      if unavailableItems.length > 0 then
        { s with cartWarning := "Remove unavailable items before checkout." }
      else
        { s with error := "", cartCheckoutOpen := true }

/-- The handler `handleCartCheckoutPayment`, run to completion: the state after
it, and the request body if a request was sent.  `backend` is the answer of
`userService.cartCheckout`; a missing `authUser` makes `authUser.id` throw inside
the `try`, which the `catch` turns into the generic error. -/
def handleCartCheckoutPayment (authUser : Option AuthUser) (clock : Clock)
    (backend : Payload → Except CheckoutError CheckoutResponse) (s : Dash) :
    Dash × Option Payload :=
  let s1 := { s with error := "", success := "" }
  match validateCartPayment s.cartPaymentData with
  | some message => ({ s1 with error := message }, none)
  | none =>
    let available := availableCartItems s.cartItems
    let cartPaymentSnapshot := s.cartPaymentData
    if available.length = 0 then
      ({ s1 with
          cartWarning := "No available products in cart for checkout."
          cartCheckoutSubmitting := false }, none)
    else
      match authUser with
      | none =>
        ({ s1 with error := "Cart checkout payment failed", cartCheckoutSubmitting := false },
          none)
      | some user =>
        let payload := checkoutPayload user s.cartPaymentData available
        match backend payload with
        | Except.ok response =>
          ({ s1 with
              successReceipt := some (cartReceipt user clock cartPaymentSnapshot available response)
              cartItems := []
              cartPaymentData := cartPaymentTemplate
              cartCheckoutOpen := false
              cartOpen := false
              success := orderConfirmedMessage response (cartPaymentMethodLabel s.cartPaymentData)
              cartCheckoutSubmitting := false }, some payload)
        | Except.error data =>
          match data.subscription_only_items with
          | some (_ :: _) =>
            ({ s1 with
                cartWarning :=
                  "Some items require subscription delivery. Remove them from cart and add to your plan basket."
                cartCheckoutOpen := false
                cartCheckoutSubmitting := false }, some payload)
          | _ =>
            ({ s1 with
                error := orStr data.reason (orStr data.error "Cart checkout payment failed")
                cartCheckoutSubmitting := false }, some payload)

/-! ## Pending checkout intent -/

/-- The result of `JSON.parse` on the stored intent, as far as the effect looks
at it: an array of items, or any other value. -/
inductive IntentJson where
  | array (items : List IntentItem)
  | other
  deriving DecidableEq, Repr

/-- The pending-intent effect of `UserDashboard`, one run.  `jsonParse` is
`JSON.parse` (`none` when it throws); `products` is `dashboardData.products`. -/
def pendingIntentEffect (jsonParse : String → Option IntentJson) (authUser : Option AuthUser)
    (products : List Product) (s : Dash) : Dash :=
  let hasId : Bool :=
    match authUser with
    | some user => decide (user.id ≠ 0)
    | none => false
  if s.intentHandled || !hasId then s
  else
    let s0 := { s with storageReads := s.storageReads + 1 }
    match s.storage with
    | none => { s0 with intentHandled := true }
    | some rawIntent =>
      if rawIntent = "" then { s0 with intentHandled := true }
      else
        match jsonParse rawIntent with
        | none => { s0 with storage := none, intentHandled := true }
        | some IntentJson.other => { s0 with storage := none, intentHandled := true }
        | some (IntentJson.array intentItems) =>
          if intentItems.length = 0 then { s0 with storage := none, intentHandled := true }
          else if s.loading then s0
          else
            let hydrated := hydratedItems products intentItems
            { s0 with
              cartItems := mergeIntent s.cartItems hydrated
              cartOpen := true
              cartCheckoutOpen := false
              cartWarning :=
                if hydrated.any (fun item => item.unavailable) then
                  "Some selected products are unavailable. Remove them to continue checkout."
                else s.cartWarning
              storage := none
              intentHandled := true }

/-! ## Events of the dashboard -/

/-- The events that change the cart and checkout state. -/
inductive Action where
  | fetchStarted
  | dataLoaded
  | runIntentEffect
  | addToCart (product : Product)
  | removeFromCart (productId : Pid)
  | openCart
  | closeCartBoxes
  | backToCart
  | productSubscribe
  | setActivePanel (panel : String)
  | editCartPayment (data : CartPaymentData)
  | openCartCheckout
  | cartCheckoutPayment (clock : Clock)
      (backend : Payload → Except CheckoutError CheckoutResponse)
  | clearCartWarning
  | closeReceipt

/-- The state after one event. -/
def step (jsonParse : String → Option IntentJson) (authUser : Option AuthUser)
    (products : List Product) (s : Dash) : Action → Dash
  | Action.fetchStarted => { s with loading := true, error := "" }
  | Action.dataLoaded => { s with loading := false }
  | Action.runIntentEffect => pendingIntentEffect jsonParse authUser products s
  | Action.addToCart product => handleAddToCart s product
  | Action.removeFromCart productId => handleRemoveFromCart s productId
  | Action.openCart => { s with cartOpen := true }
  | Action.closeCartBoxes => closeCartBoxes s
  | Action.backToCart => { s with cartCheckoutOpen := false }
  | Action.productSubscribe => handleProductSubscribe s
  | Action.setActivePanel panel => { s with activePanel := panel }
  | Action.editCartPayment data => { s with cartPaymentData := data }
  | Action.openCartCheckout => handleOpenCartCheckout s
  | Action.cartCheckoutPayment clock backend =>
    (handleCartCheckoutPayment authUser clock backend s).1
  | Action.clearCartWarning => { s with cartWarning := "" }
  | Action.closeReceipt => { s with successReceipt := none }

/-- The events the page offers over a catalog: the "Add To Cart" button exists
only on products of the catalog that are not subscription-only; every other
event is unrestricted. -/
def Offered (products : List Product) : Action → Prop
  | Action.addToCart product => product ∈ products ∧ product.subscription_only = false
  | _ => True

/-- The dashboard states that can be reached from the mounted page, over a fixed
catalog. -/
inductive Reachable (jsonParse : String → Option IntentJson) (authUser : Option AuthUser)
    (products : List Product) : Dash → Prop
  | init (storage : Option String) : Reachable jsonParse authUser products (Dash.init storage)
  | step {s : Dash} (a : Action) :
      Reachable jsonParse authUser products s → Offered products a →
      Reachable jsonParse authUser products (step jsonParse authUser products s a)

/-! ## Basket capacity (`UserDashboard.js`) -/

/-- A numeric field of a server record as the client reads it: missing
(`undefined`), `null`, a number, or a value that is not numeric (one that
`Number` turns into `NaN`, such as a text that is not a number). -/
inductive NumField where
  | undefined
  | null
  | num (n : Int)
  | nonNumeric
  deriving DecidableEq, Repr

/-- The conversion `Number(x)` on such a field; `none` is `NaN`. -/
def NumField.toNumber : NumField → Option Int
  | NumField.undefined => none
  | NumField.null => some 0
  | NumField.num n => some n
  | NumField.nonNumeric => none

/-- A subscription plan of `dashboardData.subscriptions`. -/
structure Plan where
  subscription_id : Int
  name : String
  price : Int
  max_products : NumField
  deriving DecidableEq, Repr

/-- The snapshot `customer.current_subscription`; a date text is modelled by the
instant it denotes (in milliseconds), `none` is a missing date. -/
structure ActiveSubscription where
  subscription_id : Int
  name : String
  subscription_start_date : Option Int
  deriving DecidableEq, Repr

/-- An item of `dashboardData.subscription_basket`; `is_active` is `none` when
the field is missing. -/
structure BasketItem where
  basket_item_id : Int
  product : Int
  quantity : Int
  is_active : Option Bool
  deriving DecidableEq, Repr

/-- The memo `activePlan`. -/
def activePlan (activeSubscription : Option ActiveSubscription) (subscriptions : List Plan) :
    Option Plan :=
  match activeSubscription with
  | none => none
  | some sub => subscriptions.find? (fun plan => plan.subscription_id = sub.subscription_id)

/-- The memo `subscriptionProductLimit`: `Number(activePlan?.max_products)` when
it is finite and positive, else `null`. -/
def subscriptionProductLimit (plan : Option Plan) : Option Int :=
  let limit : Option Int :=
    match plan with
    | some p => p.max_products.toNumber
    | none => NumField.undefined.toNumber
  match limit with
  | some n => if n > 0 then some n else none
  | none => none

/-- The memo `subscriptionBasketCount`. -/
def subscriptionBasketCount (basket : List BasketItem) : Nat :=
  (basket.filter (fun item => item.is_active ≠ some false)).length

/-- The width of the capacity bar in percent:
`Math.min(100, (count / limit) * 100)`. -/
def capacityFill (count : Nat) (limit : Int) : ℚ :=
  min 100 ((count : ℚ) / (limit : ℚ) * 100)

/-- What the capacity block shows: its text, and the fill width when the bar is
rendered. -/
structure CapacityView where
  label : String
  fill : Option ℚ

/-- The capacity block of the subscription panel; it is rendered only when a
subscription is active. -/
def capacityView (activeSubscription : Option ActiveSubscription) (subscriptions : List Plan)
    (basket : List BasketItem) : Option CapacityView :=
  match activeSubscription with
  | none => none
  | some _ =>
    match subscriptionProductLimit (activePlan activeSubscription subscriptions) with
    | some limit =>
      some
        { label :=
            toString (subscriptionBasketCount basket) ++ " / " ++ toString limit
              ++ " products in plan basket"
          fill := some (capacityFill (subscriptionBasketCount basket) limit) }
    | none => some { label := "No limit found for this plan", fill := none }

/-! ## Search table (`DataTable.js`) -/

/-- A field value of a table record. -/
inductive JVal where
  | null
  | undefined
  | bool (b : Bool)
  | num (n : Int)
  | str (s : String)
  deriving DecidableEq, Repr

/-- The conversion `String(val)`. -/
def JVal.toStr : JVal → String
  | JVal.null => "null"
  | JVal.undefined => "undefined"
  | JVal.bool true => "true"
  | JVal.bool false => "false"
  | JVal.num n => toString n
  | JVal.str s => s

/-- A record of the table: its fields in order, each a key with its value. -/
abbrev Record := List (String × JVal)

/-- The values `Object.values(item)`. -/
def objectValues (item : Record) : List JVal :=
  item.map Prod.snd

/-- The test a record passes to stay in `filteredData`; `lowerCase` is
`String.prototype.toLowerCase`, which lowers every cased letter of Unicode and
is sensitive to the context of a letter. -/
def matchesSearch (lowerCase : String → String) (searchTerm : String) (item : Record) : Bool :=
  (objectValues item).any (fun val => includes (lowerCase val.toStr) (lowerCase searchTerm))

/-- The list `filteredData` of `DataTable`; `lowerCase` is
`String.prototype.toLowerCase`. -/
def filteredData (lowerCase : String → String) (data : List Record) (searchTerm : String) :
    List Record :=
  data.filter (matchesSearch lowerCase searchTerm)

/-! ## Routing (`App.js`) -/

/-- The pages of the route table. -/
inductive Page where
  | landing
  | auth
  | adminDashboard
  | admins
  | categories
  | subscriptions
  | customers
  | products
  | userDashboard
  | userDelivery
  | userOrders
  | userNotifications
  | userSupport
  | userProfile
  | userOffers
  deriving DecidableEq, Repr

/-- What a route renders: a redirect (`<Navigate to=… replace />`) or a page. -/
inductive Element where
  | navigate (target : String)
  | page (p : Page)
  deriving DecidableEq, Repr

/-- The function `getDashboardPath`. -/
def getDashboardPath (role : String) : String :=
  if role = "admin" then "/admin/dashboard" else "/user/dashboard"

/-- The component `ProtectedRoute`; `outlet` is the matched child route. -/
def ProtectedRoute (authUser : Option AuthUser) (outlet : Element) : Element :=
  match authUser with
  | none => Element.navigate "/"
  | some _ => outlet

/-- The component `RoleRoute`. -/
def RoleRoute (authUser : Option AuthUser) (allowedRole : String) (children : Element) :
    Element :=
  match authUser with
  | none => Element.navigate "/"
  | some user =>
    if user.role ≠ allowedRole then Element.navigate (getDashboardPath user.role)
    else children

/-- The role-guarded routes under `ProtectedRoute`: path, allowed role, page. -/
def guardedRoutes : List (String × String × Page) :=
  [ ("/admin/dashboard", "admin", Page.adminDashboard),
    ("/admins", "admin", Page.admins),
    ("/categories", "admin", Page.categories),
    ("/subscriptions", "admin", Page.subscriptions),
    ("/customers", "admin", Page.customers),
    ("/products", "admin", Page.products),
    ("/user/dashboard", "user", Page.userDashboard),
    ("/user/delivery", "user", Page.userDelivery),
    ("/user/orders", "user", Page.userOrders),
    ("/user/notifications", "user", Page.userNotifications),
    ("/user/support", "user", Page.userSupport),
    ("/user/profile", "user", Page.userProfile),
    ("/user/offers", "user", Page.userOffers) ]

/-- The element the route table of `App` renders at a path. -/
def routeElement (authUser : Option AuthUser) (path : String) : Element :=
  if path = "/" then
    (match authUser with
     | some user => Element.navigate (getDashboardPath user.role)
     | none => Element.page Page.landing)
  else if path = "/auth" then
    (match authUser with
     | some user => Element.navigate (getDashboardPath user.role)
     | none => Element.page Page.auth)
  else if path = "/user/reorder" then
    ProtectedRoute authUser (Element.navigate "/user/orders")
  else
    match guardedRoutes.find? (fun r => r.1 = path) with
    | some (_, allowedRole, page) =>
      ProtectedRoute authUser (RoleRoute authUser allowedRole (Element.page page))
    | none =>
      (match authUser with
       | some user => Element.navigate (getDashboardPath user.role)
       | none => Element.navigate "/")

/-- The page finally shown when the browser opens `path`, following at most
`fuel` redirects; `none` when the redirects have not ended by then. -/
def shownPage (authUser : Option AuthUser) : Nat → String → Option Page
  | 0, _ => none
  | fuel + 1, path =>
    match routeElement authUser path with
    | Element.page p => some p
    | Element.navigate target => shownPage authUser fuel target

/-- The paths of the admin area. -/
def adminPaths : List String :=
  ["/admin/dashboard", "/admins", "/categories", "/subscriptions", "/customers", "/products"]

/-- The paths of the user area. -/
def userPaths : List String :=
  ["/user/dashboard", "/user/delivery", "/user/orders", "/user/notifications", "/user/support",
    "/user/profile", "/user/offers"]

/-- The pages of the admin area. -/
def adminPages : List Page :=
  [Page.adminDashboard, Page.admins, Page.categories, Page.subscriptions, Page.customers,
    Page.products]

/-! ## Requests of the dashboard -/

/-- The checkout request an event sends: `userService.cartCheckout` is called by
the submit handler of the checkout form and by no other handler. -/
def requestSent (authUser : Option AuthUser) (s : Dash) : Action → Option Payload
  | Action.cartCheckoutPayment clock backend =>
    (handleCartCheckoutPayment authUser clock backend s).2
  | _ => none

/-! ## Session (`App.js`) -/

/-- The state of `App`. -/
structure AppState where
  authUser : Option AuthUser
  authLoading : Bool
  deriving DecidableEq, Repr

/-- How an `async` handler ends: its promise resolves, with the state it leaves,
or rejects with a reason that the caller receives. -/
inductive Outcome where
  | resolved (s : AppState)
  | rejected (reason : String)
  deriving DecidableEq, Repr

/-- The handler `handleLogin`; `response` is the answer of `authService.login`
(its `data.user`, or the reason of the rejection). -/
def handleLogin (response : Except String AuthUser) (s : AppState) : Outcome :=
  match response with
  | Except.ok user => Outcome.resolved { s with authUser := some user }
  | Except.error reason => Outcome.rejected reason

/-- The handler `handleLogout`; `response` is the answer of
`authService.logout`.  The `catch` swallows a rejection and the `finally` clears
the user. -/
def handleLogout (response : Except String Unit) (s : AppState) : Outcome :=
  match response with
  | Except.ok _ => Outcome.resolved { s with authUser := none }
  | Except.error _ => Outcome.resolved { s with authUser := none }

/-! ## Pagination (`DataTable.js`) -/

/-- The state of `DataTable`. -/
structure TableState where
  searchTerm : String
  currentPage : Int
  deriving DecidableEq, Repr

/-- The state at mount. -/
def TableState.init : TableState := { searchTerm := "", currentPage := 1 }

/-- The `onChange` handler of the search input; `value` is `e.target.value`. -/
def onSearchChange (_ : TableState) (value : String) : TableState :=
  { searchTerm := value, currentPage := 1 }

/-- The constant `itemsPerPage`. -/
def itemsPerPage : Nat := 10

/-- The figure `totalPages`: `Math.ceil(filteredData.length / itemsPerPage)`. -/
def totalPages {α : Type} (filtered : List α) : Nat :=
  Nat.ceil ((filtered.length : ℚ) / (itemsPerPage : ℚ))

/-- `Array.prototype.slice(start, end)`: a negative index counts from the end,
and both indices are clamped to the array. -/
def slice {α : Type} (xs : List α) (start stop : Int) : List α :=
  let n : Int := xs.length
  let first := if start < 0 then max (n + start) 0 else min start n
  let last := if stop < 0 then max (n + stop) 0 else min stop n
  (xs.drop first.toNat).take (last - first).toNat

/-- The list `displayedData`. -/
def displayedData {α : Type} (filtered : List α) (currentPage : Int) : List α :=
  let startIdx := (currentPage - 1) * (itemsPerPage : Int)
  slice filtered startIdx (startIdx + (itemsPerPage : Int))

/-- The "Previous" button: disabled on page 1. -/
def onPreviousPage (s : TableState) : TableState :=
  if s.currentPage = 1 then s else { s with currentPage := s.currentPage - 1 }

/-- The "Next" button: disabled on the last page. -/
def onNextPage {α : Type} (filtered : List α) (s : TableState) : TableState :=
  if s.currentPage = (totalPages filtered : Int) then s
  else { s with currentPage := s.currentPage + 1 }

/-! ## Sorting and maps of JavaScript -/

/-- `Array.prototype.sort(compare)`: the stable sort, which puts `a` before `b`
when `compare(a, b)` is negative and keeps the order of the two when it is 0. -/
def jsSort {α : Type} (compare : α → α → Int) (xs : List α) : List α :=
  xs.insertionSort (fun a b => compare a b ≤ 0)

/-- `Map.prototype.get` on a map held as its entries in insertion order. -/
def assocGet {β : Type} (entries : List (Int × β)) (k : Int) : Option β :=
  match entries with
  | [] => none
  | (k', v) :: rest => if k' = k then some v else assocGet rest k

/-- `Map.prototype.set`: the value of an existing key is replaced in place, a
new key is added at the end. -/
def assocSet {β : Type} (entries : List (Int × β)) (k : Int) (v : β) : List (Int × β) :=
  match entries with
  | [] => [(k, v)]
  | (k', v') :: rest => if k' = k then (k, v) :: rest else (k', v') :: assocSet rest k v

/-! ## Subscribed-plan history (`UserDashboard.js`) -/

/-- A record of `dashboardData.recent_payments`; a date text is modelled by the
instant it denotes (in milliseconds), `none` is a missing or empty date. -/
structure Payment where
  payment_id : Int
  subscription : NumField
  subscription_name : Option String
  amount : Int
  status : String
  paid_at : Option Int
  created_at : Option Int
  deriving DecidableEq, Repr

/-- An entry of `subscribedPlans`. -/
structure PlanEntry where
  subscription_id : Int
  name : String
  amount : Option Int
  status : String
  activity_at : Option Int
  availablePlan : Option Plan
  deriving DecidableEq, Repr

/-- The expression `payment.paid_at || payment.created_at`. -/
def paymentTime (payment : Payment) : Option Int :=
  match payment.paid_at with
  | some t => some t
  | none => payment.created_at

/-- The comparison `new Date(a) > new Date(b)`: it is false as soon as one of
the two dates is invalid. -/
def laterThan (a b : Option Int) : Bool :=
  match a, b with
  | some x, some y => decide (y < x)
  | _, _ => false

/-- The `payload` built for a payment in the fold of `subscribedPlans`. -/
def paymentEntry (subscriptions : List Plan) (subscriptionId : Int) (payment : Payment) :
    PlanEntry :=
  { subscription_id := subscriptionId
    name := orStr payment.subscription_name ("Plan #" ++ toString subscriptionId)
    amount := some payment.amount
    status := payment.status
    activity_at := paymentTime payment
    availablePlan := mapGet (fun plan => plan.subscription_id) subscriptions subscriptionId }

/-- The body of `recent_payments.forEach` in `subscribedPlans`. -/
def foldPayment (subscriptions : List Plan) (grouped : List (Int × PlanEntry))
    (payment : Payment) : List (Int × PlanEntry) :=
  match payment.subscription.toNumber with
  | none => grouped
  | some subscriptionId =>
    if subscriptionId = 0 then grouped
    else
      match assocGet grouped subscriptionId with
      | none => assocSet grouped subscriptionId (paymentEntry subscriptions subscriptionId payment)
      | some existing =>
        if laterThan (paymentTime payment) existing.activity_at then
          assocSet grouped subscriptionId (paymentEntry subscriptions subscriptionId payment)
        else grouped

/-- The entry that overlays the active subscription; its `amount` is
`plansById.get(activeId)?.price || null`. -/
def activeEntry (subscriptions : List Plan) (sub : ActiveSubscription) : PlanEntry :=
  { subscription_id := sub.subscription_id
    name := sub.name
    amount :=
      match mapGet (fun plan => plan.subscription_id) subscriptions sub.subscription_id with
      | some plan => if plan.price = 0 then none else some plan.price
      | none => none
    status := "active"
    activity_at := sub.subscription_start_date
    availablePlan := mapGet (fun plan => plan.subscription_id) subscriptions sub.subscription_id }

/-- The map `grouped` of `subscribedPlans` after the fold and the overlay. -/
def groupedPlans (subscriptions : List Plan) (recent_payments : List Payment)
    (activeSubscription : Option ActiveSubscription) : List (Int × PlanEntry) :=
  let grouped := recent_payments.foldl (foldPayment subscriptions) []
  match activeSubscription with
  | some sub => assocSet grouped sub.subscription_id (activeEntry subscriptions sub)
  | none => grouped

/-- The sort key `new Date(entry.activity_at || 0).getTime()`. -/
def activityTime (entry : PlanEntry) : Int :=
  entry.activity_at.getD 0

/-- The memo `subscribedPlans`. -/
def subscribedPlans (subscriptions : List Plan) (recent_payments : List Payment)
    (activeSubscription : Option ActiveSubscription) : List PlanEntry :=
  jsSort (fun first second => activityTime second - activityTime first)
    ((groupedPlans subscriptions recent_payments activeSubscription).map Prod.snd)

/-! ## Category grouping (`UserDashboard.js`) -/

/-- A group of `productsByCategory`. -/
structure CategoryGroup where
  category : String
  products : List Product
  deriving DecidableEq, Repr

/-- The property names that every plain object inherits from
`Object.prototype`; the value read under each of them is truthy. -/
def inheritedKeys : List String :=
  ["constructor", "__defineGetter__", "__defineSetter__", "hasOwnProperty",
    "__lookupGetter__", "__lookupSetter__", "isPrototypeOf", "propertyIsEnumerable",
    "toString", "valueOf", "__proto__", "toLocaleString"]

/-- The group name of a product:
`(product.category_name || 'General').trim() || 'General'`. -/
def categoryOf (product : Product) : String :=
  let trimmed := String.mk (trimChars (orStr product.category_name "General").data)
  if trimmed = "" then "General" else trimmed

/-- The reducer of `productsByCategory` on the plain object `accumulator`, held
as its own properties in creation order; `none` when the reducer throws.  An
own property gets the product pushed; under a name that is not an own property
the object yields an inherited value for the names of `inheritedKeys`, which is
truthy and has no `push`, so that the call throws a `TypeError`; any other name
gets a new array. -/
def groupStep (accumulator : Option (List (String × List Product))) (product : Product) :
    Option (List (String × List Product)) :=
  match accumulator with
  | none => none
  | some own =>
    let category := categoryOf product
    if own.any (fun entry => entry.1 = category) then
      some (own.map (fun entry =>
        if entry.1 = category then (entry.1, entry.2 ++ [product]) else entry))
    else if category ∈ inheritedKeys then none
    else some (own ++ [(category, [product])])

/-- The number a property name denotes when it is written with digits only. -/
def digitsValue (key : String) : Nat :=
  key.data.foldl (fun n ch => 10 * n + (ch.toNat - 48)) 0

/-- Whether a property name is an array index: the canonical decimal text of a
number below `2^32 - 1`. -/
def isArrayIndex (key : String) : Bool :=
  key.data.all Char.isDigit && key ≠ "" && (key = "0" || key.data.head? ≠ some (Char.ofNat 48))
    && decide (digitsValue key ≤ 4294967294)

/-- `Object.entries`: the array indices in ascending order, then the other
names in creation order. -/
def objectEntries {β : Type} (own : List (String × β)) : List (String × β) :=
  (own.filter (fun entry => isArrayIndex entry.1)).insertionSort
      (fun a b => digitsValue a.1 ≤ digitsValue b.1)
    ++ own.filter (fun entry => !isArrayIndex entry.1)

/-- The memo `productsByCategory`; `localeCompare` is
`String.prototype.localeCompare`, and the result is `none` when the memo
throws. -/
def productsByCategory (localeCompare : String → String → Int) (products : List Product) :
    Option (List CategoryGroup) :=
  match products.foldl groupStep (some []) with
  | none => none
  | some grouped =>
    some
      ((jsSort (fun first second => localeCompare first.1 second.1) (objectEntries grouped)).map
        (fun entry =>
          { category := entry.1
            products :=
              jsSort (fun first second => localeCompare first.name second.name) entry.2 }))

/-! ## Landing page mini-cart (`LandingPage.js`) -/

/-- A featured product of the landing page, as far as the mini-cart reads it. -/
structure FeaturedProduct where
  id : Int
  title : String
  priceValue : Int
  deriving DecidableEq, Repr

/-- The constant `fallbackFeaturedProducts`. -/
def fallbackFeaturedProducts : List FeaturedProduct :=
  [ { id := 1, title := "Farm Fresh Milk", priceValue := 52 },
    { id := 2, title := "Buffalo Milk", priceValue := 68 },
    { id := 3, title := "Curd & Dairy Packs", priceValue := 35 } ]

/-- The statement `delete object[k]` on an object held as its entries. -/
def assocErase {β : Type} (entries : List (Int × β)) (k : Int) : List (Int × β) :=
  entries.filter (fun entry => entry.1 ≠ k)

/-- The state updater of `changeCartQty`.  The object `miniCart` is held as its
entries (product id, quantity); the page reads it only through
`miniCart[item.id]`, so the order of the entries plays no role. -/
def changeCartQty (prev : List (Int × Int)) (productId delta : Int) : List (Int × Int) :=
  let nextQty := max (numOr (assocGet prev productId) 0 + delta) 0
  if nextQty = 0 then assocErase prev productId else assocSet prev productId nextQty

/-- An element of `cartEntries`: a featured product with its quantity. -/
structure CartEntry where
  id : Int
  title : String
  priceValue : Int
  qty : Int
  deriving DecidableEq, Repr

/-- The list `cartEntries`. -/
def cartEntries (featuredProducts : List FeaturedProduct) (miniCart : List (Int × Int)) :
    List CartEntry :=
  (featuredProducts.map (fun item =>
      ({ id := item.id, title := item.title, priceValue := item.priceValue,
         qty := numOr (assocGet miniCart item.id) 0 } : CartEntry))).filter
    (fun item => item.qty > 0)

/-- The figure `cartItemsCount`. -/
def cartItemsCount (featuredProducts : List FeaturedProduct) (miniCart : List (Int × Int)) :
    Int :=
  (cartEntries featuredProducts miniCart).foldl (fun sum item => sum + item.qty) 0

/-- An element of the list `checkoutItems` that `handleMiniCartCheckout` stores. -/
structure CheckoutItem where
  product_id : Int
  name : String
  qty : Int
  priceValue : Int
  deriving DecidableEq, Repr

/-- The list `checkoutItems` of `handleMiniCartCheckout`. -/
def checkoutItems (entries : List CartEntry) : List CheckoutItem :=
  entries.map (fun item =>
    { product_id := item.id, name := item.title, qty := item.qty, priceValue := item.priceValue })

/-- A stored checkout item as the dashboard reads it back (`item?.field`). -/
def readIntentItem (item : CheckoutItem) : IntentItem :=
  { product_id := some item.product_id, name := some item.name, qty := some item.qty,
    priceValue := some item.priceValue }

/-- The part of the state of `LandingPage` that the mini-cart checkout writes,
with the text stored under `mm_pending_checkout_cart`. -/
structure Landing where
  miniCart : List (Int × Int)
  authNotice : String
  showLoginModal : Bool
  modalTab : String
  storage : Option String
  deriving DecidableEq, Repr

/-- The handler `handleMiniCartCheckout`; `jsonStringify` is `JSON.stringify` on
the list of checkout items. -/
def handleMiniCartCheckout (jsonStringify : List CheckoutItem → String)
    (featuredProducts : List FeaturedProduct) (s : Landing) : Landing :=
  if (cartEntries featuredProducts s.miniCart).length = 0 then
    { s with
      authNotice := "Add at least one product to proceed with checkout."
      modalTab := "login"
      showLoginModal := true }
  else
    { s with
      storage := some (jsonStringify (checkoutItems (cartEntries featuredProducts s.miniCart)))
      authNotice :=
        "Please login or sign up to continue checkout. After authentication, you will be redirected to your dashboard."
      modalTab := "login"
      showLoginModal := true }

/-! ## Stored page values (`UserProfilePage.js`, `UserSupportPage.js`, `UserReorderPage.js`) -/

/-- A JSON value. -/
inductive Json where
  | null
  | bool (b : Bool)
  | num (n : Int)
  | str (s : String)
  | arr (items : List Json)
  | obj (fields : List (String × Json))
  deriving Repr

/-- The body `raw ? JSON.parse(raw) : fallback` of a `useState` initializer that
reads a stored text; `raw` is the answer of `localStorage.getItem` and
`jsonParse` is `JSON.parse`.  The result is `none` when `JSON.parse` throws:
the initializer has no `try`, so the exception leaves the component. -/
def parseStored (jsonParse : String → Option Json) (raw : Option String) (fallback : Json) :
    Option Json :=
  match raw with
  | none => some fallback
  | some text => if text = "" then some fallback else jsonParse text

/-- The initializer of `prefs` in `UserProfilePage` (key `mm_user_prefs`). -/
def initialPrefs (jsonParse : String → Option Json) (raw : Option String) : Option Json :=
  parseStored jsonParse raw
    (Json.obj [("email_updates", Json.bool true), ("sms_alerts", Json.bool true),
      ("language", Json.str "en")])

/-- The initializer of `tickets` in `UserSupportPage` (key `mm_support_tickets`). -/
def initialTickets (jsonParse : String → Option Json) (raw : Option String) : Option Json :=
  parseStored jsonParse raw (Json.arr [])

/-- The initializer of `favorites` in `UserReorderPage` (key `mm_favorites`). -/
def initialFavorites (jsonParse : String → Option Json) (raw : Option String) : Option Json :=
  parseStored jsonParse raw (Json.arr [])

/-! ## Admin pages (`AdminsPage.js`, `CategoriesPage.js`, `SubscriptionsPage.js`,
`CustomersPage.js`, `ProductsPage.js`, `Dashboard.js`) -/

/-- Truthiness of a field value. -/
def jsTruthy : JVal → Bool
  | JVal.null => false
  | JVal.undefined => false
  | JVal.bool b => b
  | JVal.num n => decide (n ≠ 0)
  | JVal.str s => decide (s ≠ "")

/-- The property read `item[key]` on a record. -/
def field (item : Record) (key : String) : JVal :=
  (List.lookup key item).getD JVal.undefined

/-- The body `response.data` of a collection response, in the two shapes the
server uses: an object with `results` (and, when paginated, `count`), or a bare
array. -/
inductive CollectionData where
  | envelope (count : Option Nat) (results : List Record)
  | bare (records : List Record)
  deriving DecidableEq, Repr

/-- The rows a management page keeps: `response.data.results || response.data || []`
(an array is truthy, also when it is empty). -/
def collectionRows : CollectionData → List Record
  | CollectionData.envelope _ results => results
  | CollectionData.bare records => records

/-- The figure the admin dashboard shows for a collection:
`data?.count || data?.results?.length || 0`.  An array has neither `count` nor
`results`. -/
def statCount : CollectionData → Nat
  | CollectionData.envelope (some count) results => if count = 0 then results.length else count
  | CollectionData.envelope none results => results.length
  | CollectionData.bare _ => 0

/-- The state `stats` of the admin dashboard. -/
structure Stats where
  admins : Nat
  categories : Nat
  subscriptions : Nat
  customers : Nat
  products : Nat
  deriving DecidableEq, Repr

/-- The state of the admin `Dashboard`. -/
structure AdminDashboard where
  stats : Stats
  loading : Bool
  error : Option String
  deriving DecidableEq, Repr

/-- The state of the admin `Dashboard` at mount. -/
def AdminDashboard.init : AdminDashboard :=
  { stats := { admins := 0, categories := 0, subscriptions := 0, customers := 0, products := 0 }
    loading := true
    error := none }

/-- The function `fetchStats`, run to completion; the arguments are the answers
of the five `getAll` requests joined by `Promise.all`. -/
def fetchStats (admins categories subscriptions customers products : Except String CollectionData)
    (s : AdminDashboard) : AdminDashboard :=
  match admins, categories, subscriptions, customers, products with
  | Except.ok a, Except.ok c, Except.ok sub, Except.ok cust, Except.ok p =>
    { s with
      stats := { admins := statCount a, categories := statCount c,
                 subscriptions := statCount sub, customers := statCount cust,
                 products := statCount p }
      loading := false }
  | _, _, _, _, _ => { s with error := some "Failed to load dashboard data", loading := false }

/-- The five management pages. -/
inductive CrudPage where
  | admins
  | categories
  | subscriptions
  | customers
  | products
  deriving DecidableEq, Repr

/-- The key of the record id on a page. -/
def CrudPage.idKey : CrudPage → String
  | CrudPage.admins => "admin_id"
  | CrudPage.categories => "category_id"
  | CrudPage.subscriptions => "subscription_id"
  | CrudPage.customers => "customer_id"
  | CrudPage.products => "product_id"

/-- The alert of a page when its collection cannot be loaded. -/
def CrudPage.loadFailed : CrudPage → String
  | CrudPage.admins => "Failed to load admins"
  | CrudPage.categories => "Failed to load categories"
  | CrudPage.subscriptions => "Failed to load subscriptions"
  | CrudPage.customers => "Failed to load customers"
  | CrudPage.products => "Failed to load products"

/-- The alert of a page after a delete. -/
def CrudPage.deleted : CrudPage → String
  | CrudPage.admins => "Admin deleted successfully"
  | CrudPage.categories => "Category deleted successfully"
  | CrudPage.subscriptions => "Subscription deleted successfully"
  | CrudPage.customers => "Customer deleted successfully"
  | CrudPage.products => "Product deleted successfully"

/-- The alert of a page when a delete fails. -/
def CrudPage.deleteFailed : CrudPage → String
  | CrudPage.admins => "Failed to delete admin"
  | CrudPage.categories => "Failed to delete category"
  | CrudPage.subscriptions => "Failed to delete subscription"
  | CrudPage.customers => "Failed to delete customer"
  | CrudPage.products => "Failed to delete product"

/-- The alert of a page after an update. -/
def CrudPage.updated : CrudPage → String
  | CrudPage.admins => "Admin updated successfully"
  | CrudPage.categories => "Category updated successfully"
  | CrudPage.subscriptions => "Subscription updated successfully"
  | CrudPage.customers => "Customer updated successfully"
  | CrudPage.products => "✅ Product updated successfully"

/-- The alert of a page after a create. -/
def CrudPage.created : CrudPage → String
  | CrudPage.admins => "Admin created successfully"
  | CrudPage.categories => "Category created successfully"
  | CrudPage.subscriptions => "Subscription created successfully"
  | CrudPage.customers => "Customer created successfully"
  | CrudPage.products => "✅ Product created successfully"

/-- The fixed text of a page for a save that failed. -/
def CrudPage.saveFailed : CrudPage → String
  | CrudPage.admins => "Failed to save admin"
  | CrudPage.categories => "Failed to save category"
  | CrudPage.subscriptions => "Failed to save subscription"
  | CrudPage.customers => "Failed to save customer"
  | CrudPage.products => "Failed to save product"

/-- A value in the body of an error response: a text or a list of texts. -/
inductive ErrVal where
  | text (s : String)
  | list (items : List String)
  deriving DecidableEq, Repr

/-- The body `error.response?.data` of a failed request: its keys in order,
each with its value. -/
abbrev ErrorData := List (String × ErrVal)

/-- Truthiness of an error value (an array is truthy). -/
def ErrVal.truthy : ErrVal → Bool
  | ErrVal.text s => decide (s ≠ "")
  | ErrVal.list _ => true

/-- The text an error value becomes in `'Error: ' + value`. -/
def ErrVal.render : ErrVal → String
  | ErrVal.text s => s
  | ErrVal.list items => ",".intercalate items

/-- The read `value?.[0]`: the first element of a list, the first character of
a text. -/
def ErrVal.first : ErrVal → Option String
  | ErrVal.text s => s.data.head?.map (fun ch => String.mk [ch])
  | ErrVal.list items => items.head?

/-- The array `Object.values(data).flat()`. -/
def flatValues (data : ErrorData) : List String :=
  data.flatMap (fun entry =>
    match entry.2 with
    | ErrVal.text s => [s]
    | ErrVal.list items => items)

/-- The first of the optional texts that is truthy. -/
def firstTruthy : List (Option String) → Option String
  | [] => none
  | some s :: rest => if s = "" then firstTruthy rest else some s
  | none :: rest => firstTruthy rest

/-- The text that the `catch` of `handleSubmit` passes to `alert`; `data` is
`error.response?.data`, `none` when the error carries no response.

* `ProductsPage`: `'Error: '` followed by `detail || non_field_errors?.[0] ||
  Object.values(data).flat()?.[0] || 'Failed to save product'`;
* `AdminsPage`: `'Error: '` followed by
  `detail || non_field_errors?.[0] || 'Failed to save admin'`;
* the other pages: their fixed text. -/
def saveErrorAlert (page : CrudPage) (data : Option ErrorData) : String :=
  let body : ErrorData := data.getD []
  let detail : Option String :=
    match List.lookup "detail" body with
    | some value => if value.truthy then some value.render else none
    | none => none
  let nonField : Option String := (List.lookup "non_field_errors" body).bind ErrVal.first
  match page with
  | CrudPage.products =>
    "Error: " ++
      (firstTruthy [detail, nonField, (flatValues body).head?]).getD page.saveFailed
  | CrudPage.admins =>
    "Error: " ++ (firstTruthy [detail, nonField]).getD page.saveFailed
  | _ => page.saveFailed

/-- The state of a management page: the displayed rows, the form, the texts
passed to `alert` so far (in order) and the number of `getAll` requests made so
far. -/
structure CrudState where
  rows : List Record
  loading : Bool
  showModal : Bool
  formData : Record
  editingId : JVal
  alerts : List String
  fetches : Nat
  deriving DecidableEq, Repr

/-- The function `fetchAdmins` (`fetchCategories`, …) of a page, run to
completion; `getAll` is the answer of the request. -/
def fetchRows (page : CrudPage) (getAll : Except String CollectionData) (s : CrudState) :
    CrudState :=
  match getAll with
  | Except.ok data =>
    { s with rows := collectionRows data, loading := false, fetches := s.fetches + 1 }
  | Except.error _ =>
    { s with alerts := s.alerts ++ [page.loadFailed], loading := false,
             fetches := s.fetches + 1 }

/-- The handler `handleDelete` of a page; `answer` is the answer of the delete
request. -/
def handleDelete (page : CrudPage) (answer : Except String Unit) (item : Record)
    (s : CrudState) : CrudState :=
  match answer with
  | Except.ok _ =>
    { s with
      rows := s.rows.filter (fun row => field row page.idKey ≠ field item page.idKey)
      alerts := s.alerts ++ [page.deleted] }
  | Except.error _ => { s with alerts := s.alerts ++ [page.deleteFailed] }

/-- The request a save sends. -/
inductive SaveKind where
  | create
  | update (id : JVal)
  deriving DecidableEq, Repr

/-- The checks of `handleSubmit` that end the handler with an alert before any
request: the required fields of `ProductsPage` and of `AdminsPage`. -/
def requiredFieldsAlert (page : CrudPage) (s : CrudState) : Option String :=
  match page with
  | CrudPage.products =>
    if !jsTruthy (field s.formData "name") || !jsTruthy (field s.formData "sku")
        || !jsTruthy (field s.formData "price") || !jsTruthy (field s.formData "category") then
      some "Please fill in all required fields (Name, SKU, Price, Category)"
    else none
  | CrudPage.admins =>
    if !jsTruthy (field s.formData "first_name") || !jsTruthy (field s.formData "last_name")
        || !jsTruthy (field s.formData "email") || !jsTruthy (field s.formData "phone")
        || !jsTruthy (field s.formData "username") then
      some "Please fill in all required fields"
    else if !jsTruthy s.editingId && !jsTruthy (field s.formData "password") then
      some "Password is required for new admin"
    else none
  | _ => none

/-- Whether building the request body throws: on `SubscriptionsPage` the body
holds `formData.features ? JSON.parse(formData.features) : []`. -/
def bodyThrows (page : CrudPage) (jsonParse : String → Option Json) (s : CrudState) : Bool :=
  match page with
  | CrudPage.subscriptions =>
    jsTruthy (field s.formData "features")
      && (jsonParse (field s.formData "features").toStr).isNone
  | _ => false

/-- How `handleSubmit` ends: its promise resolves, with the state the page is
left in and the request that was sent, or it rejects. -/
inductive SubmitOutcome where
  | resolved (s : CrudState) (sent : Option SaveKind)
  | rejected (reason : String)
  deriving DecidableEq, Repr

/-- The handler `handleSubmit` of a page, run to completion together with the
`fetch…` call it starts after a save.  `save` is the answer of the create or
update request, `getAll` the answer of the collection request.  The whole body
of the handler is inside `try`, and the `catch` alerts, so that the promise
always resolves.  The request body is not modelled. -/
def handleSubmit (page : CrudPage) (jsonParse : String → Option Json)
    (save : SaveKind → Except (Option ErrorData) Unit) (getAll : Except String CollectionData)
    (s : CrudState) : SubmitOutcome :=
  match requiredFieldsAlert page s with
  | some message => SubmitOutcome.resolved { s with alerts := s.alerts ++ [message] } none
  | none =>
    if bodyThrows page jsonParse s then
      SubmitOutcome.resolved { s with alerts := s.alerts ++ [saveErrorAlert page none] } none
    else
      let kind := if jsTruthy s.editingId then SaveKind.update s.editingId else SaveKind.create
      match save kind with
      | Except.ok _ =>
        SubmitOutcome.resolved
          (fetchRows page getAll
            { s with
              alerts := s.alerts ++ [if jsTruthy s.editingId then page.updated else page.created]
              showModal := false })
          (some kind)
      | Except.error data =>
        SubmitOutcome.resolved { s with alerts := s.alerts ++ [saveErrorAlert page data] }
          (some kind)

/-! ## Sample data -/

/-- A catalog product sold by the unit, named as in the replay example. -/
def productX : Product :=
  { product_id := 1, name := "X", price := 52, subscription_only := false,
    category_name := some "Milk" }

/-- A second product sold by the unit. -/
def curd : Product :=
  { product_id := 2, name := "Curd", price := 68, subscription_only := false,
    category_name := some "Dairy" }

/-- A product that is delivered by subscription only. -/
def dailyMilk : Product :=
  { product_id := 3, name := "Daily Milk", price := 35, subscription_only := true,
    category_name := none }

/-- A catalog of three products. -/
def sampleCatalog : List Product := [productX, curd, dailyMilk]

/-- A signed-in customer. -/
def sampleUser : AuthUser :=
  { id := 7, first_name := some "Asha", username := some "asha", role := "user" }

/-- A signed-in administrator. -/
def sampleAdmin : AuthUser :=
  { id := 1, first_name := some "Ravi", username := some "ravi", role := "admin" }

/-- The text of a stored intent: product "X" twice, and product 3 once. -/
def sampleIntentText : String :=
  "[\x7b\"name\":\"X\",\"qty\":2\x7d,\x7b\"product_id\":3,\"qty\":1\x7d]"

/-- The items of `sampleIntentText`. -/
def sampleIntent : List IntentItem :=
  [ { product_id := none, name := some "X", qty := some 2, priceValue := none },
    { product_id := some 3, name := none, qty := some 1, priceValue := none } ]

/-- A reading of `JSON.parse` on four texts: the sample intent, an empty array,
an object, and anything else taken as malformed. -/
def sampleParse (raw : String) : Option IntentJson :=
  if raw = sampleIntentText then some (IntentJson.array sampleIntent)
  else if raw = "[]" then some (IntentJson.array [])
  else if raw = "\x7b\x7d" then some IntentJson.other
  else none

/-- A clock reading. -/
def sampleClock : Clock := { now := 1700000000000, iso := "2023-11-14T22:13:20.000Z" }

/-- A backend that confirms every order as order 41. -/
def sampleBackend (_ : Payload) : Except CheckoutError CheckoutResponse :=
  Except.ok { order_id := some 41, order_reference := none, paid_at := none,
              payment_reference := none }

/-- The payment form with cash on delivery chosen. -/
def codPayment : CartPaymentData := { cartPaymentTemplate with payment_method := "cod" }

/-- The dashboard after its data has loaded, with the sample intent stored. -/
def sampleLoaded : Dash :=
  step sampleParse (some sampleUser) sampleCatalog (Dash.init (some sampleIntentText))
    Action.dataLoaded

/-- The dashboard after the stored intent has been replayed. -/
def sampleReplayed : Dash :=
  step sampleParse (some sampleUser) sampleCatalog sampleLoaded Action.runIntentEffect

/-- The dashboard after curd has been added to the replayed cart and cash on
delivery chosen; the cart holds "X" twice, the subscription-only line, and curd. -/
def sampleReady : Dash :=
  step sampleParse (some sampleUser) sampleCatalog
    (step sampleParse (some sampleUser) sampleCatalog sampleReplayed (Action.addToCart curd))
    (Action.editCartPayment codPayment)

/-- A plan that allows four products in the basket. -/
def samplePlan : Plan :=
  { subscription_id := 5, name := "Family", price := 900, max_products := NumField.num 4 }

/-- An active subscription to `samplePlan`. -/
def sampleSubscription : ActiveSubscription :=
  { subscription_id := 5, name := "Family", subscription_start_date := some 1000 }

/-- A basket of six items, one of them switched off. -/
def sampleBasket : List BasketItem :=
  [ { basket_item_id := 1, product := 3, quantity := 1, is_active := some true },
    { basket_item_id := 2, product := 4, quantity := 1, is_active := none },
    { basket_item_id := 3, product := 5, quantity := 2, is_active := some false },
    { basket_item_id := 4, product := 6, quantity := 1, is_active := some true },
    { basket_item_id := 5, product := 7, quantity := 1, is_active := some true },
    { basket_item_id := 6, product := 8, quantity := 1, is_active := some true } ]

/-- The dashboard after "X" twice and curd once have been put in the cart and the
checkout form has been opened. -/
def sampleOpen : Dash :=
  step sampleParse (some sampleUser) sampleCatalog
    (step sampleParse (some sampleUser) sampleCatalog
      (step sampleParse (some sampleUser) sampleCatalog
        (step sampleParse (some sampleUser) sampleCatalog
          (step sampleParse (some sampleUser) sampleCatalog (Dash.init none) Action.dataLoaded)
          (Action.addToCart productX))
        (Action.addToCart productX))
      (Action.addToCart curd))
    Action.openCartCheckout

/-- The text of a stored intent that names one product the catalog lacks. -/
def unknownIntentText : String := "[\x7b\"name\":\"Paneer\",\"qty\":1\x7d]"

/-- A reading of `JSON.parse` on `unknownIntentText`. -/
def unknownParse (raw : String) : Option IntentJson :=
  if raw = unknownIntentText then
    some (IntentJson.array
      [{ product_id := none, name := some "Paneer", qty := some 1, priceValue := none }])
  else none

/-- The dashboard after the replay of `unknownIntentText`: the cart holds one
line, flagged unavailable. -/
def sampleUnavailable : Dash :=
  step unknownParse (some sampleUser) sampleCatalog
    (step unknownParse (some sampleUser) sampleCatalog (Dash.init (some unknownIntentText))
      Action.dataLoaded)
    Action.runIntentEffect

/-- A backend that rejects every order because of a subscription-only item. -/
def blockingBackend (_ : Payload) : Except CheckoutError CheckoutResponse :=
  Except.error { subscription_only_items := some ["Daily Milk"], reason := none,
                 error := some "Subscription-only items in cart" }

/-- A backend that rejects every order with a reason. -/
def decliningBackend (_ : Payload) : Except CheckoutError CheckoutResponse :=
  Except.error { subscription_only_items := none, reason := some "Card declined",
                 error := some "Payment failed" }

/-- A backend that rejects every order with an empty reason and an error text. -/
def emptyReasonBackend (_ : Payload) : Except CheckoutError CheckoutResponse :=
  Except.error { subscription_only_items := none, reason := some "",
                 error := some "Payment failed" }

/-- The payment form with a card chosen and no expiry date typed. -/
def incompleteCard : CartPaymentData :=
  { cartPaymentTemplate with card_number := "4111111111111111", cvv := "123" }

/-- Two payments of plan 7 that carry the same instant: the first one through
`paid_at`, the second one through `created_at`. -/
def tiedPayments : List Payment :=
  [ { payment_id := 1, subscription := NumField.num 7, subscription_name := some "Gold",
      amount := 10, status := "paid", paid_at := some 100, created_at := some 90 },
    { payment_id := 2, subscription := NumField.num 7, subscription_name := some "Gold",
      amount := 20, status := "refunded", paid_at := none, created_at := some 100 } ]

/-- A payment history over the plans 7 and 9, with one payment that names no
plan. -/
def recentPayments : List Payment :=
  [ { payment_id := 1, subscription := NumField.num 7, subscription_name := some "Gold",
      amount := 10, status := "paid", paid_at := some 100, created_at := some 90 },
    { payment_id := 2, subscription := NumField.num 9, subscription_name := none,
      amount := 30, status := "paid", paid_at := none, created_at := some 200 },
    { payment_id := 3, subscription := NumField.null, subscription_name := none,
      amount := 5, status := "paid", paid_at := some 250, created_at := some 250 },
    { payment_id := 4, subscription := NumField.num 7, subscription_name := some "Gold",
      amount := 20, status := "failed", paid_at := some 300, created_at := some 280 } ]

/-- A product filed under a category that is named like a member of
`Object.prototype`. -/
def reservedCategory : Product :=
  { product_id := 9, name := "Ghee", price := 540, subscription_only := false,
    category_name := some "constructor" }

/-- A mini-cart: two units of product 1 and one unit of product 3. -/
def sampleMiniCart : List (Int × Int) := [(1, 2), (3, 1)]

/-- The text `JSON.stringify` gives for the checkout items of `sampleMiniCart`
over the fallback featured products. -/
def snapshotText : String :=
  "[\x7b\"product_id\":1,\"name\":\"Farm Fresh Milk\",\"qty\":2,\"priceValue\":52\x7d,"
    ++ "\x7b\"product_id\":3,\"name\":\"Curd & Dairy Packs\",\"qty\":1,\"priceValue\":35\x7d]"

/-- The checkout items of `sampleMiniCart`. -/
def snapshotItems : List CheckoutItem :=
  [ { product_id := 1, name := "Farm Fresh Milk", qty := 2, priceValue := 52 },
    { product_id := 3, name := "Curd & Dairy Packs", qty := 1, priceValue := 35 } ]

/-- A reading of `JSON.stringify` on two lists: the items of the sample
mini-cart, and anything else taken as the empty list. -/
def sampleStringify (items : List CheckoutItem) : String :=
  if items = snapshotItems then snapshotText else "[]"

/-- A reading of `JSON.parse` on `snapshotText`. -/
def snapshotParse (raw : String) : Option IntentJson :=
  if raw = snapshotText then some (IntentJson.array (snapshotItems.map readIntentItem))
  else none

/-- A stored intent that names product "X" twice and an unknown product twice. -/
def repeatedIntent : List IntentItem :=
  [ { product_id := some 1, name := some "X", qty := some 2, priceValue := none },
    { product_id := none, name := some "Paneer", qty := some 1, priceValue := none },
    { product_id := none, name := some "x", qty := some 3, priceValue := none },
    { product_id := none, name := some "Paneer", qty := some 1, priceValue := none } ]

/-- A card form with a sixteen-digit number typed in groups. -/
def groupedCard : CartPaymentData :=
  { cartPaymentTemplate with card_number := "4111 1111 1111 1234", expiry := "12/30",
                             cvv := "123" }

/-- A reading of `JSON.parse` on two texts: an empty array and a list of one
feature; anything else is taken as malformed. -/
def storedParse (raw : String) : Option Json :=
  if raw = "[]" then some (Json.arr [])
  else if raw = "[\"daily\"]" then some (Json.arr [Json.str "daily"])
  else none

/-- A category record. -/
def categoryMilk : Record := [("category_id", JVal.num 1), ("name", JVal.str "Milk")]

/-- A second category record. -/
def categoryCurd : Record := [("category_id", JVal.num 2), ("name", JVal.str "Curd")]

/-- A third category record. -/
def categoryGhee : Record := [("category_id", JVal.num 3), ("name", JVal.str "Ghee")]

/-- A management page that shows two categories, with the form open on a new
record. -/
def categoryPage : CrudState :=
  { rows := [categoryMilk, categoryCurd], loading := false, showModal := true,
    formData := [("name", JVal.str "Ghee"), ("description", JVal.str ""),
                 ("is_active", JVal.bool true)],
    editingId := JVal.null, alerts := [], fetches := 1 }

/-- The plan form with a features text that is not JSON. -/
def planPage : CrudState :=
  { rows := [], loading := false, showModal := true,
    formData := [("name", JVal.str "Family"), ("price", JVal.str "900"),
                 ("features", JVal.str "daily, premium")],
    editingId := JVal.null, alerts := [], fetches := 1 }

/-- A server that accepts every save. -/
def acceptingSave (_ : SaveKind) : Except (Option ErrorData) Unit := Except.ok ()

/-- A server that rejects every save with a `detail`. -/
def rejectingSave (_ : SaveKind) : Except (Option ErrorData) Unit :=
  Except.error (some [("detail", ErrVal.text "Not found.")])

/-- The collection the server holds: three categories, sent as a bare array. -/
def serverCategories : Except String CollectionData :=
  Except.ok (CollectionData.bare [categoryMilk, categoryCurd, categoryGhee])

/-- A reading of `String.prototype.toLowerCase` on the two texts "ΑΣ" and "Σ":
a capital sigma that ends a word becomes the final sigma "ς", a capital sigma
on its own becomes "σ"; any other text is lowered on its ASCII letters. -/
def sigmaLower (s : String) : String :=
  if s = "ΑΣ" then "ας" else if s = "Σ" then "σ" else toLowerCase s

/-! # Lemmas -/

/-! ### The intent merge -/

theorem mergeOne_nil (x : CartLine) : mergeOne [] x = [x] := rfl

theorem mergeOne_cons (l : CartLine) (ls : List CartLine) (x : CartLine) :
    mergeOne (l :: ls) x =
      if l.product_id = x.product_id then
        { l with quantity := l.quantity + x.quantity, unavailable := l.unavailable || x.unavailable }
          :: ls
      else l :: mergeOne ls x := by
  unfold mergeOne
  simp only [findIndex]
  by_cases h : l.product_id = x.product_id
  · simp [h, List.modify]
  · simp only [h, decide_False, if_false]
    cases hfi : findIndex (fun item => decide (item.product_id = x.product_id)) ls with
    | none => simp
    | some i => simp [List.modify]

theorem mergeOne_of_not_mem (c : List CartLine) (x : CartLine)
    (h : ∀ l ∈ c, l.product_id ≠ x.product_id) : mergeOne c x = c ++ [x] := by
  induction c with
  | nil => rfl
  | cons l ls ih =>
    rw [mergeOne_cons, if_neg (h l (List.mem_cons_self _ _)),
      ih (fun m hm => h m (List.mem_cons_of_mem _ hm))]
    rfl

theorem mergeOne_of_mem (c : List CartLine) (x : CartLine)
    (h : ∃ l ∈ c, l.product_id = x.product_id) :
    ∃ pre l post, c = pre ++ l :: post ∧ (∀ m ∈ pre, m.product_id ≠ x.product_id) ∧
      l.product_id = x.product_id ∧
      mergeOne c x =
        pre ++ { l with quantity := l.quantity + x.quantity,
                        unavailable := l.unavailable || x.unavailable } :: post := by
  induction c with
  | nil => obtain ⟨l, hl, _⟩ := h; cases hl
  | cons l ls ih =>
    by_cases hl : l.product_id = x.product_id
    · exact ⟨[], l, ls, rfl, by simp, hl, by rw [mergeOne_cons, if_pos hl]; rfl⟩
    · have h' : ∃ m ∈ ls, m.product_id = x.product_id := by
        obtain ⟨m, hm, hmx⟩ := h
        rcases List.mem_cons.1 hm with rfl | hm'
        · exact absurd hmx hl
        · exact ⟨m, hm', hmx⟩
      obtain ⟨pre, m, post, hc, hpre, hm, hres⟩ := ih h'
      refine ⟨l :: pre, m, post, by rw [hc]; rfl, ?_, hm, ?_⟩
      · intro k hk
        rcases List.mem_cons.1 hk with rfl | hk'
        · exact hl
        · exact hpre k hk'
      · rw [mergeOne_cons, if_neg hl, hres]; rfl

theorem cartQuantity_eq_sum (c : List CartLine) :
    cartQuantity c = (c.map (fun l => l.quantity)).sum := by
  unfold cartQuantity
  have : ∀ (acc : Int), c.foldl (fun sum item => sum + item.quantity) acc
      = acc + (c.map (fun l => l.quantity)).sum := by
    induction c with
    | nil => intro acc; simp
    | cons l ls ih => intro acc; simp [ih, add_assoc]
  simpa using this 0

theorem cartQuantity_mergeOne (c : List CartLine) (x : CartLine) :
    cartQuantity (mergeOne c x) = cartQuantity c + x.quantity := by
  simp only [cartQuantity_eq_sum]
  induction c with
  | nil => simp [mergeOne_nil]
  | cons l ls ih =>
    rw [mergeOne_cons]
    by_cases hl : l.product_id = x.product_id
    · simp [hl]; ring
    · simp [hl, ih]; ring

theorem cartQuantity_mergeIntent (c hs : List CartLine) :
    cartQuantity (mergeIntent c hs) = cartQuantity c + (hs.map (fun l => l.quantity)).sum := by
  unfold mergeIntent
  induction hs generalizing c with
  | nil => simp
  | cons h hs ih => simp [ih, cartQuantity_mergeOne, add_assoc]

theorem hydrateItem_quantity_pos (products : List Product) (i : Nat) (item : IntentItem) :
    1 ≤ (hydrateItem products i item).quantity := by
  unfold hydrateItem
  cases matchProduct products item <;> simp

theorem hydratedItems_quantity_pos (products : List Product) (items : List IntentItem) :
    ∀ x ∈ hydratedItems products items, 1 ≤ x.quantity := by
  intro x hx
  unfold hydratedItems at hx
  obtain ⟨i, _, _, rfl⟩ := List.exists_of_mem_mapIdx hx
  exact hydrateItem_quantity_pos _ _ _

/-- A line kept by the merge: same product, name, price, at least the quantity. -/
theorem mergeOne_keeps (cart : List CartLine) (x : CartLine) (hx : 0 ≤ x.quantity) :
    ∀ (i : Nat) (l : CartLine), cart[i]? = some l →
      ∃ l', (mergeOne cart x)[i]? = some l' ∧ l'.product_id = l.product_id ∧ l'.name = l.name
        ∧ l'.price = l.price ∧ l.quantity ≤ l'.quantity := by
  induction cart with
  | nil => intro i l h; simp at h
  | cons a as ih =>
    intro i l h
    rw [mergeOne_cons]
    by_cases ha : a.product_id = x.product_id
    · rw [if_pos ha]
      cases i with
      | zero =>
        simp at h; subst h
        exact ⟨{ a with quantity := a.quantity + x.quantity,
                        unavailable := a.unavailable || x.unavailable },
          by simp, rfl, rfl, rfl, by simpa using hx⟩
      | succ j =>
        simp at h
        exact ⟨l, by simpa using h, rfl, rfl, rfl, le_refl _⟩
    · rw [if_neg ha]
      cases i with
      | zero =>
        simp at h; subst h
        exact ⟨a, by simp, rfl, rfl, rfl, le_refl _⟩
      | succ j =>
        simp at h
        obtain ⟨l', h1, h2⟩ := ih j l h
        exact ⟨l', by simpa using h1, h2⟩

theorem mergeIntent_keeps (cart hs : List CartLine) (hpos : ∀ x ∈ hs, 0 ≤ x.quantity) :
    ∀ (i : Nat) (l : CartLine), cart[i]? = some l →
      ∃ l', (mergeIntent cart hs)[i]? = some l' ∧ l'.product_id = l.product_id ∧ l'.name = l.name
        ∧ l'.price = l.price ∧ l.quantity ≤ l'.quantity := by
  unfold mergeIntent
  induction hs generalizing cart with
  | nil => intro i l h; exact ⟨l, h, rfl, rfl, rfl, le_refl _⟩
  | cons x xs ih =>
    intro i l h
    obtain ⟨l1, h1, e1, e2, e3, e4⟩ :=
      mergeOne_keeps cart x (hpos x (List.mem_cons_self _ _)) i l h
    obtain ⟨l2, h2, f1, f2, f3, f4⟩ :=
      ih (mergeOne cart x) (fun y hy => hpos y (List.mem_cons_of_mem _ hy)) i l1 h1
    exact ⟨l2, h2, f1.trans e1, f2.trans e2, f3.trans e3, le_trans e4 f4⟩

theorem mergeIntent_take_succ (cart hs : List CartLine) (j : Nat) (x : CartLine)
    (hj : hs[j]? = some x) :
    mergeIntent cart (hs.take (j + 1)) = mergeOne (mergeIntent cart (hs.take j)) x := by
  unfold mergeIntent
  have : hs.take (j + 1) = hs.take j ++ [x] := by
    rw [List.take_succ, hj]; rfl
  rw [this, List.foldl_append]; rfl

/-! ### Adding to the cart -/

theorem addToCartLines_of_mem (c : List CartLine) (P : Product)
    (h : ∃ l ∈ c, l.product_id = Pid.num P.product_id) :
    addToCartLines c P =
      c.map (fun item =>
        if item.product_id = Pid.num P.product_id
        then { item with quantity := item.quantity + 1 } else item) := by
  unfold addToCartLines
  cases hf : c.find? (fun item => decide (item.product_id = Pid.num P.product_id)) with
  | some _ => rfl
  | none =>
    obtain ⟨l, hl, hlp⟩ := h
    have := List.find?_eq_none.1 hf l hl
    simp [hlp] at this

theorem addToCartLines_of_not_mem (c : List CartLine) (P : Product)
    (h : ¬ ∃ l ∈ c, l.product_id = Pid.num P.product_id) :
    addToCartLines c P = c ++ [newCartLine P] := by
  unfold addToCartLines
  cases hf : c.find? (fun item => decide (item.product_id = Pid.num P.product_id)) with
  | none => rfl
  | some l =>
    exact absurd ⟨l, List.mem_of_find?_eq_some hf, by simpa using List.find?_some hf⟩ h

theorem filter_id_length_of_nodup (c : List CartLine) (k : Pid)
    (hc : (c.map (fun l => l.product_id)).Nodup) (h : ∃ l ∈ c, l.product_id = k) :
    (c.filter (fun l => decide (l.product_id = k))).length = 1 := by
  induction c with
  | nil => obtain ⟨l, hl, _⟩ := h; cases hl
  | cons l ls ih =>
    rw [List.map_cons, List.nodup_cons] at hc
    by_cases hl : l.product_id = k
    · have hnone : ls.filter (fun m => decide (m.product_id = k)) = [] := by
        rw [List.filter_eq_nil_iff]
        intro m hm hmk
        apply hc.1
        have : m.product_id = l.product_id := by rw [hl]; simpa using hmk
        rw [← this]
        exact List.mem_map_of_mem _ hm
      simp [List.filter_cons, hl, hnone]
    · have h' : ∃ m ∈ ls, m.product_id = k := by
        obtain ⟨m, hm, hmk⟩ := h
        rcases List.mem_cons.1 hm with rfl | hm'
        · exact absurd hmk hl
        · exact ⟨m, hm', hmk⟩
      simp [List.filter_cons, hl, ih hc.2 h']

theorem filter_id_map_incr (c : List CartLine) (k : Pid) :
    ((c.map (fun item =>
        if item.product_id = k then { item with quantity := item.quantity + 1 } else item)).filter
      (fun l => decide (l.product_id = k))).length
      = (c.filter (fun l => decide (l.product_id = k))).length := by
  induction c with
  | nil => rfl
  | cons l ls ih =>
    by_cases hl : l.product_id = k
    · simp [List.filter_cons, hl] at ih ⊢; exact ih
    · simp [List.filter_cons, hl] at ih ⊢; exact ih

/-! ### Resolving intent items -/

theorem mapGet_eq_find (α κ : Type) [DecidableEq κ] (key : α → κ) (es : List α) (k : κ) :
    mapGet key es k = es.reverse.find? (fun e => decide (key e = k)) := by
  unfold mapGet
  have : ∀ (acc : Option α),
      es.foldl (fun acc e => if key e = k then some e else acc) acc
        = (es.reverse.find? (fun e => decide (key e = k))).or acc := by
    induction es with
    | nil => intro acc; simp
    | cons e es ih =>
      intro acc
      rw [List.foldl_cons, ih, List.reverse_cons, List.find?_append]
      by_cases he : key e = k
      · cases h : List.find? (fun e => decide (key e = k)) es.reverse <;> simp [he, List.find?]
      · cases h : List.find? (fun e => decide (key e = k)) es.reverse <;> simp [he, List.find?]
  simpa using this none

theorem mapGet_some {α κ : Type} [DecidableEq κ] {key : α → κ} {es : List α} {k : κ} {p : α}
    (h : mapGet key es k = some p) : p ∈ es ∧ key p = k := by
  rw [mapGet_eq_find] at h
  exact ⟨List.mem_reverse.1 (List.mem_of_find?_eq_some h), by simpa using List.find?_some h⟩

theorem mapGet_none {α κ : Type} [DecidableEq κ] {key : α → κ} {es : List α} {k : κ}
    (h : mapGet key es k = none) : ∀ e ∈ es, key e ≠ k := by
  rw [mapGet_eq_find] at h
  intro e he
  have := List.find?_eq_none.1 h e (List.mem_reverse.2 he)
  simpa using this

theorem matchProduct_some {products : List Product} {item : IntentItem} {p : Product}
    (h : matchProduct products item = some p) :
    p ∈ products ∧ (item.product_id = some p.product_id ∨
      normalizeName p.name = normalizeName (orStr item.name "")) := by
  unfold matchProduct at h
  cases hid : item.product_id with
  | none =>
    simp only [hid] at h
    obtain ⟨h1, h2⟩ := mapGet_some h
    exact ⟨h1, Or.inr h2⟩
  | some n =>
    simp only [hid] at h
    cases hg : mapGet (fun p => p.product_id) products n with
    | some q =>
      simp only [hg] at h
      obtain ⟨h1, h2⟩ := mapGet_some hg
      cases h
      exact ⟨h1, Or.inl (by rw [← h2])⟩
    | none =>
      simp only [hg] at h
      obtain ⟨h1, h2⟩ := mapGet_some h
      exact ⟨h1, Or.inr h2⟩

theorem matchProduct_none {products : List Product} {item : IntentItem}
    (h : matchProduct products item = none) :
    ∀ p ∈ products, ¬ (item.product_id = some p.product_id ∨
      normalizeName p.name = normalizeName (orStr item.name "")) := by
  unfold matchProduct at h
  intro p hp hor
  cases hid : item.product_id with
  | none =>
    simp only [hid] at h
    rcases hor with h1 | h2
    · rw [hid] at h1; cases h1
    · exact mapGet_none h p hp h2
  | some n =>
    simp only [hid] at h
    cases hg : mapGet (fun p => p.product_id) products n with
    | some q => simp [hg] at h
    | none =>
      simp only [hg] at h
      rcases hor with h1 | h2
      · rw [hid] at h1
        exact mapGet_none hg p hp (by cases h1; rfl)
      · exact mapGet_none h p hp h2

theorem max_one_numOr (q : Int) : max 1 (numOr (some q) 1) = max 1 q := by
  unfold numOr
  by_cases h : q = 0
  · simp [h]
  · simp [h]

/-! ### Outcomes of `handleCartCheckoutPayment` -/

theorem checkout_invalid (authUser : Option AuthUser) (clock : Clock)
    (backend : Payload → Except CheckoutError CheckoutResponse) (s : Dash) (message : String)
    (hv : validateCartPayment s.cartPaymentData = some message) :
    handleCartCheckoutPayment authUser clock backend s
      = ({ s with error := message, success := "" }, none) := by
  simp [handleCartCheckoutPayment, hv]

theorem checkout_nothing_available (authUser : Option AuthUser) (clock : Clock)
    (backend : Payload → Except CheckoutError CheckoutResponse) (s : Dash)
    (hv : validateCartPayment s.cartPaymentData = none)
    (hav : availableCartItems s.cartItems = []) :
    handleCartCheckoutPayment authUser clock backend s
      = ({ s with error := "", success := "",
                  cartWarning := "No available products in cart for checkout.",
                  cartCheckoutSubmitting := false }, none) := by
  simp [handleCartCheckoutPayment, hv, hav]

theorem checkout_no_user (clock : Clock)
    (backend : Payload → Except CheckoutError CheckoutResponse) (s : Dash)
    (hv : validateCartPayment s.cartPaymentData = none)
    (hav : availableCartItems s.cartItems ≠ []) :
    handleCartCheckoutPayment none clock backend s
      = ({ s with error := "Cart checkout payment failed", success := "",
                  cartCheckoutSubmitting := false }, none) := by
  simp [handleCartCheckoutPayment, hv, hav]

theorem checkout_success (user : AuthUser) (clock : Clock)
    (backend : Payload → Except CheckoutError CheckoutResponse) (s : Dash)
    (response : CheckoutResponse)
    (hv : validateCartPayment s.cartPaymentData = none)
    (hav : availableCartItems s.cartItems ≠ [])
    (hb : backend (checkoutPayload user s.cartPaymentData (availableCartItems s.cartItems))
      = Except.ok response) :
    handleCartCheckoutPayment (some user) clock backend s
      = ({ s with
            error := ""
            successReceipt :=
              some (cartReceipt user clock s.cartPaymentData (availableCartItems s.cartItems)
                response)
            cartItems := []
            cartPaymentData := cartPaymentTemplate
            cartCheckoutOpen := false
            cartOpen := false
            success := orderConfirmedMessage response (cartPaymentMethodLabel s.cartPaymentData)
            cartCheckoutSubmitting := false },
          some (checkoutPayload user s.cartPaymentData (availableCartItems s.cartItems))) := by
  simp [handleCartCheckoutPayment, hv, hav, hb]

theorem checkout_blocked (user : AuthUser) (clock : Clock)
    (backend : Payload → Except CheckoutError CheckoutResponse) (s : Dash)
    (data : CheckoutError) (first : String) (rest : List String)
    (hv : validateCartPayment s.cartPaymentData = none)
    (hav : availableCartItems s.cartItems ≠ [])
    (hb : backend (checkoutPayload user s.cartPaymentData (availableCartItems s.cartItems))
      = Except.error data)
    (hitems : data.subscription_only_items = some (first :: rest)) :
    handleCartCheckoutPayment (some user) clock backend s
      = ({ s with
            error := "", success := ""
            cartWarning :=
              "Some items require subscription delivery. Remove them from cart and add to your plan basket."
            cartCheckoutOpen := false
            cartCheckoutSubmitting := false },
          some (checkoutPayload user s.cartPaymentData (availableCartItems s.cartItems))) := by
  simp [handleCartCheckoutPayment, hv, hav, hb, hitems]

theorem checkout_failed (user : AuthUser) (clock : Clock)
    (backend : Payload → Except CheckoutError CheckoutResponse) (s : Dash)
    (data : CheckoutError)
    (hv : validateCartPayment s.cartPaymentData = none)
    (hav : availableCartItems s.cartItems ≠ [])
    (hb : backend (checkoutPayload user s.cartPaymentData (availableCartItems s.cartItems))
      = Except.error data)
    (hitems : data.subscription_only_items = none ∨ data.subscription_only_items = some []) :
    handleCartCheckoutPayment (some user) clock backend s
      = ({ s with
            error := orStr data.reason (orStr data.error "Cart checkout payment failed")
            success := ""
            cartCheckoutSubmitting := false },
          some (checkoutPayload user s.cartPaymentData (availableCartItems s.cartItems))) := by
  rcases hitems with h | h <;> simp [handleCartCheckoutPayment, hv, hav, hb, h]

/-- The frame of a checkout: the cart is emptied or untouched, the form is closed or
untouched, and a request carries exactly the available lines. -/
theorem checkout_frame (authUser : Option AuthUser) (clock : Clock)
    (backend : Payload → Except CheckoutError CheckoutResponse) (s : Dash) :
    let r := handleCartCheckoutPayment authUser clock backend s
    (r.1.cartItems = [] ∨ r.1.cartItems = s.cartItems)
    ∧ (r.1.cartCheckoutOpen = false ∨ r.1.cartCheckoutOpen = s.cartCheckoutOpen)
    ∧ r.1.intentHandled = s.intentHandled ∧ r.1.storage = s.storage
    ∧ r.1.storageReads = s.storageReads ∧ r.1.loading = s.loading
    ∧ (∀ pl, r.2 = some pl → ∃ user, authUser = some user ∧
        validateCartPayment s.cartPaymentData = none ∧
        pl = checkoutPayload user s.cartPaymentData (availableCartItems s.cartItems)) := by
  intro r
  cases hv : validateCartPayment s.cartPaymentData with
  | some message =>
    have hr : r = _ := checkout_invalid authUser clock backend s message hv
    simp [hr]
  | none =>
    by_cases hav : availableCartItems s.cartItems = []
    · have hr : r = _ := checkout_nothing_available authUser clock backend s hv hav
      simp [hr]
    · cases authUser with
      | none =>
        have hr : r = _ := checkout_no_user clock backend s hv hav
        simp [hr]
      | some user =>
        cases hb : backend (checkoutPayload user s.cartPaymentData (availableCartItems s.cartItems)) with
        | ok response =>
          have hr : r = _ := checkout_success user clock backend s response hv hav hb
          simp [hr]
        | error data =>
          cases hitems : data.subscription_only_items with
          | none =>
            have hr : r = _ := checkout_failed user clock backend s data hv hav hb (Or.inl hitems)
            simp [hr]
          | some items =>
            cases items with
            | nil =>
              have hr : r = _ := checkout_failed user clock backend s data hv hav hb (Or.inr hitems)
              simp [hr]
            | cons first rest =>
              have hr : r = _ := checkout_blocked user clock backend s data first rest hv hav hb hitems
              simp [hr]

/-! ### Outcomes of `handleOpenCartCheckout` -/

theorem openCheckout_empty (s : Dash) (h : s.cartItems = []) :
    handleOpenCartCheckout s = { s with error := "Add products to cart before checkout" } := by
  simp [handleOpenCartCheckout, h]

theorem openCheckout_subscription (s : Dash)
    (h : ∃ l ∈ s.cartItems, truthy l.requires_subscription = true) :
    handleOpenCartCheckout s =
      { s with
        cartWarning :=
          "Some items require subscription delivery. Add them to your plan basket to continue."
        cartCheckoutOpen := false
        activePanel := "subscription" } := by
  obtain ⟨l, hl, hrs⟩ := h
  have hne : s.cartItems ≠ [] := List.ne_nil_of_mem hl
  have hpos : 0 < (s.cartItems.filter (fun item => truthy item.requires_subscription)).length :=
    List.length_pos_of_mem (List.mem_filter.2 ⟨hl, hrs⟩)
  simp [handleOpenCartCheckout, hne, hpos]

theorem openCheckout_unavailable (s : Dash)
    (hsub : ∀ l ∈ s.cartItems, truthy l.requires_subscription = false)
    (h : ∃ l ∈ s.cartItems, l.unavailable = true) :
    handleOpenCartCheckout s =
      { s with cartWarning := "Remove unavailable items before checkout." } := by
  obtain ⟨l, hl, hun⟩ := h
  have hne : s.cartItems ≠ [] := List.ne_nil_of_mem hl
  have h0 : s.cartItems.filter (fun item => truthy item.requires_subscription) = [] := by
    rw [List.filter_eq_nil_iff]; intro m hm; simp [hsub m hm]
  have hpos : 0 < (s.cartItems.filter (fun item => item.unavailable)).length :=
    List.length_pos_of_mem (List.mem_filter.2 ⟨hl, hun⟩)
  simp [handleOpenCartCheckout, hne, h0, hpos]

theorem openCheckout_opens (s : Dash) (hne : s.cartItems ≠ [])
    (hsub : ∀ l ∈ s.cartItems, truthy l.requires_subscription = false)
    (hun : ∀ l ∈ s.cartItems, l.unavailable = false) :
    handleOpenCartCheckout s = { s with error := "", cartCheckoutOpen := true } := by
  have h0 : s.cartItems.filter (fun item => truthy item.requires_subscription) = [] := by
    rw [List.filter_eq_nil_iff]; intro m hm; simp [hsub m hm]
  have h1 : s.cartItems.filter (fun item => item.unavailable) = [] := by
    rw [List.filter_eq_nil_iff]; intro m hm; simp [hun m hm]
  simp [handleOpenCartCheckout, hne, h0, h1]

/-- The cart is never changed by `handleOpenCartCheckout`, and the form is open
afterwards only if it was open or no line is flagged. -/
theorem openCheckout_frame (s : Dash) :
    (handleOpenCartCheckout s).cartItems = s.cartItems
    ∧ (handleOpenCartCheckout s).intentHandled = s.intentHandled
    ∧ (handleOpenCartCheckout s).storage = s.storage
    ∧ ((handleOpenCartCheckout s).cartCheckoutOpen = true →
        s.cartCheckoutOpen = true ∨
          ∀ l ∈ s.cartItems, l.unavailable = false ∧ truthy l.requires_subscription = false) := by
  by_cases hne : s.cartItems = []
  · rw [openCheckout_empty s hne]; exact ⟨rfl, rfl, rfl, fun h => Or.inl h⟩
  · by_cases hsub : ∃ l ∈ s.cartItems, truthy l.requires_subscription = true
    · rw [openCheckout_subscription s hsub]; exact ⟨rfl, rfl, rfl, fun h => by cases h⟩
    · have hsub' : ∀ l ∈ s.cartItems, truthy l.requires_subscription = false := by
        intro l hl
        cases hrs : truthy l.requires_subscription
        · rfl
        · exact absurd ⟨l, hl, hrs⟩ hsub
      by_cases hun : ∃ l ∈ s.cartItems, l.unavailable = true
      · rw [openCheckout_unavailable s hsub' hun]; exact ⟨rfl, rfl, rfl, fun h => Or.inl h⟩
      · have hun' : ∀ l ∈ s.cartItems, l.unavailable = false := by
          intro l hl
          cases hu : l.unavailable
          · rfl
          · exact absurd ⟨l, hl, hu⟩ hun
        rw [openCheckout_opens s hne hsub' hun']
        exact ⟨rfl, rfl, rfl, fun _ => Or.inr (fun l hl => ⟨hun' l hl, hsub' l hl⟩)⟩

/-! ### Where the lines of a cart come from -/

theorem addToCartLines_origin (cart : List CartLine) (P : Product) :
    ∀ l' ∈ addToCartLines cart P,
      (∃ l ∈ cart, l'.product_id = l.product_id ∧ l'.unavailable = l.unavailable
        ∧ l'.requires_subscription = l.requires_subscription) ∨ l' = newCartLine P := by
  intro l' hl'
  unfold addToCartLines at hl'
  cases hf : cart.find? (fun item => decide (item.product_id = Pid.num P.product_id)) with
  | some _ =>
    simp only [hf] at hl'
    obtain ⟨l, hl, rfl⟩ := List.mem_map.1 hl'
    refine Or.inl ⟨l, hl, ?_⟩
    by_cases h : l.product_id = Pid.num P.product_id <;> simp [h]
  | none =>
    simp only [hf] at hl'
    rcases List.mem_append.1 hl' with h | h
    · exact Or.inl ⟨l', h, rfl, rfl, rfl⟩
    · exact Or.inr (by simpa using h)

theorem mergeOne_origin (cart : List CartLine) (x : CartLine) :
    ∀ l' ∈ mergeOne cart x, ∃ l ∈ cart ++ [x], l'.product_id = l.product_id
      ∧ l'.requires_subscription = l.requires_subscription := by
  induction cart with
  | nil => intro l' hl'; exact ⟨l', by simpa [mergeOne_nil] using hl', rfl, rfl⟩
  | cons a as ih =>
    intro l' hl'
    rw [mergeOne_cons] at hl'
    by_cases ha : a.product_id = x.product_id
    · rw [if_pos ha] at hl'
      rcases List.mem_cons.1 hl' with rfl | h
      · exact ⟨a, by simp, rfl, rfl⟩
      · exact ⟨l', by simp [h], rfl, rfl⟩
    · rw [if_neg ha] at hl'
      rcases List.mem_cons.1 hl' with rfl | h
      · exact ⟨l', by simp, rfl, rfl⟩
      · obtain ⟨l, hl, h1, h2⟩ := ih l' h
        exact ⟨l, by simp at hl ⊢; tauto, h1, h2⟩

theorem mergeIntent_origin (cart hs : List CartLine) :
    ∀ l' ∈ mergeIntent cart hs, ∃ l ∈ cart ++ hs, l'.product_id = l.product_id
      ∧ l'.requires_subscription = l.requires_subscription := by
  unfold mergeIntent
  induction hs generalizing cart with
  | nil => intro l' hl'; exact ⟨l', by simpa using hl', rfl, rfl⟩
  | cons x xs ih =>
    intro l' hl'
    obtain ⟨l1, hl1, e1, e2⟩ := ih (mergeOne cart x) l' hl'
    rcases List.mem_append.1 hl1 with h | h
    · obtain ⟨l, hl, f1, f2⟩ := mergeOne_origin cart x l1 h
      refine ⟨l, ?_, e1.trans f1, e2.trans f2⟩
      simp at hl ⊢; tauto
    · exact ⟨l1, by simp [h], e1, e2⟩

/-! ### Outcomes of the pending-intent effect -/

theorem intentEffect_handled (jsonParse : String → Option IntentJson)
    (authUser : Option AuthUser) (products : List Product) (s : Dash)
    (h : s.intentHandled = true) : pendingIntentEffect jsonParse authUser products s = s := by
  simp [pendingIntentEffect, h]

theorem intentEffect_absent (jsonParse : String → Option IntentJson) (user : AuthUser)
    (products : List Product) (s : Dash) (hid : user.id ≠ 0) (hnot : s.intentHandled = false)
    (hst : s.storage = none ∨ s.storage = some "") :
    pendingIntentEffect jsonParse (some user) products s
      = { s with storageReads := s.storageReads + 1, intentHandled := true } := by
  rcases hst with h | h <;> simp [pendingIntentEffect, hnot, hid, h]

theorem intentEffect_discard (jsonParse : String → Option IntentJson) (user : AuthUser)
    (products : List Product) (s : Dash) (raw : String) (hid : user.id ≠ 0)
    (hnot : s.intentHandled = false) (hst : s.storage = some raw) (hne : raw ≠ "")
    (hp : jsonParse raw = none ∨ jsonParse raw = some IntentJson.other
      ∨ jsonParse raw = some (IntentJson.array [])) :
    pendingIntentEffect jsonParse (some user) products s
      = { s with storageReads := s.storageReads + 1, storage := none, intentHandled := true } := by
  rcases hp with h | h | h <;> simp [pendingIntentEffect, hnot, hid, hst, hne, h]

theorem intentEffect_wait (jsonParse : String → Option IntentJson) (user : AuthUser)
    (products : List Product) (s : Dash) (raw : String) (items : List IntentItem)
    (hid : user.id ≠ 0) (hnot : s.intentHandled = false) (hst : s.storage = some raw)
    (hne : raw ≠ "") (hp : jsonParse raw = some (IntentJson.array items)) (hitems : items ≠ [])
    (hload : s.loading = true) :
    pendingIntentEffect jsonParse (some user) products s
      = { s with storageReads := s.storageReads + 1 } := by
  simp [pendingIntentEffect, hnot, hid, hst, hne, hp, hitems, hload]

theorem intentEffect_merge (jsonParse : String → Option IntentJson) (user : AuthUser)
    (products : List Product) (s : Dash) (raw : String) (items : List IntentItem)
    (hid : user.id ≠ 0) (hnot : s.intentHandled = false) (hst : s.storage = some raw)
    (hne : raw ≠ "") (hp : jsonParse raw = some (IntentJson.array items)) (hitems : items ≠ [])
    (hload : s.loading = false) :
    pendingIntentEffect jsonParse (some user) products s
      = { s with
          storageReads := s.storageReads + 1
          cartItems := mergeIntent s.cartItems (hydratedItems products items)
          cartOpen := true
          cartCheckoutOpen := false
          cartWarning :=
            if (hydratedItems products items).any (fun item => item.unavailable) then
              "Some selected products are unavailable. Remove them to continue checkout."
            else s.cartWarning
          storage := none
          intentHandled := true } := by
  simp [pendingIntentEffect, hnot, hid, hst, hne, hp, hitems, hload]

theorem intentEffect_signed_out (jsonParse : String → Option IntentJson)
    (authUser : Option AuthUser) (products : List Product) (s : Dash)
    (h : ∀ user, authUser = some user → user.id = 0) :
    pendingIntentEffect jsonParse authUser products s = s := by
  cases authUser with
  | none => simp [pendingIntentEffect]
  | some user => simp [pendingIntentEffect, h user rfl]

/-- One run of the effect either leaves cart and form alone, or merges a
hydrated list and closes the form; it marks the intent handled with a
stored value left in place only when that value is the empty text. -/
theorem intentEffect_frame (jsonParse : String → Option IntentJson)
    (authUser : Option AuthUser) (products : List Product) (s : Dash) :
    ((pendingIntentEffect jsonParse authUser products s).cartItems = s.cartItems
        ∧ (pendingIntentEffect jsonParse authUser products s).cartCheckoutOpen
            = s.cartCheckoutOpen
      ∨ (∃ items,
          (pendingIntentEffect jsonParse authUser products s).cartItems
            = mergeIntent s.cartItems (hydratedItems products items))
        ∧ (pendingIntentEffect jsonParse authUser products s).cartCheckoutOpen = false)
    ∧ (s.intentHandled = false →
        (pendingIntentEffect jsonParse authUser products s).intentHandled = true →
        ∀ raw, s.storage = some raw → raw ≠ "" →
          (pendingIntentEffect jsonParse authUser products s).storage = none) := by
  by_cases hh : s.intentHandled = true
  · rw [intentEffect_handled _ _ _ _ hh]
    exact ⟨Or.inl ⟨rfl, rfl⟩, fun h => by rw [hh] at h; cases h⟩
  · have hnot : s.intentHandled = false := by simpa using hh
    by_cases hu : ∀ user, authUser = some user → user.id = 0
    · rw [intentEffect_signed_out _ _ _ _ hu]
      exact ⟨Or.inl ⟨rfl, rfl⟩, fun _ h => by rw [hnot] at h; cases h⟩
    · push_neg at hu
      obtain ⟨user, rfl, hid⟩ := hu
      cases hst : s.storage with
      | none =>
        rw [intentEffect_absent _ _ _ _ hid hnot (Or.inl hst)]
        exact ⟨Or.inl ⟨rfl, rfl⟩, fun _ _ raw h => by cases h⟩
      | some raw =>
        by_cases hne : raw = ""
        · subst hne
          rw [intentEffect_absent _ _ _ _ hid hnot (Or.inr hst)]
          exact ⟨Or.inl ⟨rfl, rfl⟩, fun _ _ raw h hr => by cases h; exact absurd rfl hr⟩
        · cases hp : jsonParse raw with
          | none =>
            rw [intentEffect_discard _ _ _ _ raw hid hnot hst hne (Or.inl hp)]
            exact ⟨Or.inl ⟨rfl, rfl⟩, fun _ _ _ _ _ => rfl⟩
          | some v =>
            cases v with
            | other =>
              rw [intentEffect_discard _ _ _ _ raw hid hnot hst hne (Or.inr (Or.inl hp))]
              exact ⟨Or.inl ⟨rfl, rfl⟩, fun _ _ _ _ _ => rfl⟩
            | array items =>
              by_cases hitems : items = []
              · subst hitems
                rw [intentEffect_discard _ _ _ _ raw hid hnot hst hne (Or.inr (Or.inr hp))]
                exact ⟨Or.inl ⟨rfl, rfl⟩, fun _ _ _ _ _ => rfl⟩
              · cases hload : s.loading with
                | true =>
                  rw [intentEffect_wait _ _ _ _ raw items hid hnot hst hne hp hitems hload]
                  exact ⟨Or.inl ⟨rfl, rfl⟩, fun _ h => by simp [hnot] at h⟩
                | false =>
                  rw [intentEffect_merge _ _ _ _ raw items hid hnot hst hne hp hitems hload]
                  exact ⟨Or.inr ⟨⟨items, rfl⟩, rfl⟩, fun _ _ _ _ _ => rfl⟩

/-! ### Invariants of the reachable states -/

theorem hydrateItem_matched (products : List Product) (i : Nat) (item : IntentItem) (n : Int)
    (h : (hydrateItem products i item).product_id = Pid.num n) :
    ∃ M ∈ products, M.product_id = n
      ∧ (hydrateItem products i item).requires_subscription = some M.subscription_only := by
  unfold hydrateItem at h ⊢
  cases hm : matchProduct products item with
  | none => simp [hm] at h
  | some M =>
    simp only [hm] at h ⊢
    exact ⟨M, (matchProduct_some hm).1, by simpa using h, rfl⟩

theorem reachable_form_safe {jsonParse : String → Option IntentJson}
    {authUser : Option AuthUser} {products : List Product} {s : Dash}
    (hs : Reachable jsonParse authUser products s) :
    s.cartCheckoutOpen = true →
      ∀ l ∈ s.cartItems, l.unavailable = false ∧ truthy l.requires_subscription = false := by
  induction hs with
  | init storage => intro h; simp [Dash.init] at h
  | @step s0 a _ hoff ih =>
    cases a with
    | fetchStarted => exact ih
    | dataLoaded => exact ih
    | openCart => exact ih
    | setActivePanel panel => exact ih
    | editCartPayment data => exact ih
    | clearCartWarning => exact ih
    | closeReceipt => exact ih
    | closeCartBoxes => intro h; simp [step, closeCartBoxes] at h
    | backToCart => intro h; simp [step] at h
    | productSubscribe => intro h; simp [step, handleProductSubscribe] at h
    | runIntentEffect =>
      intro h
      simp only [step] at h ⊢
      rcases (intentEffect_frame jsonParse authUser products s0).1 with ⟨h1, h2⟩ | ⟨_, h2⟩
      · rw [h1]; rw [h2] at h; exact ih h
      · rw [h2] at h; cases h
    | addToCart product =>
      intro h l' hl'
      have h0 : s0.cartCheckoutOpen = true := h
      rcases addToCartLines_origin s0.cartItems product l' hl' with ⟨l, hl, _, e2, e3⟩ | rfl
      · rw [e2, e3]; exact ih h0 l hl
      · exact ⟨rfl, rfl⟩
    | removeFromCart productId =>
      intro h l hl
      have h0 : s0.cartCheckoutOpen = true := h
      exact ih h0 l (List.mem_of_mem_filter hl)
    | openCartCheckout =>
      intro h
      simp only [step] at h ⊢
      obtain ⟨e1, _, _, e4⟩ := openCheckout_frame s0
      rw [e1]
      rcases e4 h with h0 | h0
      · exact ih h0
      · exact h0
    | cartCheckoutPayment clock backend =>
      intro h
      simp only [step] at h ⊢
      obtain ⟨e1, e2, _⟩ := checkout_frame authUser clock backend s0
      rcases e1 with e1 | e1
      · rw [e1]; intro l hl; cases hl
      · rw [e1]
        rcases e2 with e2 | e2
        · rw [e2] at h; cases h
        · rw [e2] at h; exact ih h

theorem reachable_subscription_flag {jsonParse : String → Option IntentJson}
    {authUser : Option AuthUser} {products : List Product} {s : Dash} (P : Product)
    (hkeys : (products.map (fun p => p.product_id)).Nodup)
    (hP : P ∈ products) (hsub : P.subscription_only = true)
    (hs : Reachable jsonParse authUser products s) :
    ∀ l ∈ s.cartItems, l.product_id = Pid.num P.product_id →
      truthy l.requires_subscription = true := by
  induction hs with
  | init storage => intro l hl; simp [Dash.init] at hl
  | @step s0 a _ hoff ih =>
    cases a with
    | fetchStarted => exact ih
    | dataLoaded => exact ih
    | openCart => exact ih
    | setActivePanel panel => exact ih
    | editCartPayment data => exact ih
    | clearCartWarning => exact ih
    | closeReceipt => exact ih
    | closeCartBoxes => exact ih
    | backToCart => exact ih
    | productSubscribe => exact ih
    | runIntentEffect =>
      simp only [step]
      rcases (intentEffect_frame jsonParse authUser products s0).1 with ⟨h1, _⟩ | ⟨⟨items, h1⟩, _⟩
      · rw [h1]; exact ih
      · rw [h1]
        intro l' hl' hid
        obtain ⟨l, hl, e1, e2⟩ := mergeIntent_origin _ _ l' hl'
        rw [e2]
        rcases List.mem_append.1 hl with h | h
        · exact ih l h (e1 ▸ hid)
        · unfold hydratedItems at h
          obtain ⟨i, _, rfl⟩ := List.exists_of_mem_mapIdx h
          obtain ⟨M, hM, hMid, hrs⟩ := hydrateItem_matched products i _ P.product_id (e1 ▸ hid)
          have hMP : M = P := List.inj_on_of_nodup_map hkeys hM hP hMid
          rw [hrs, hMP]
          exact hsub
    | addToCart product =>
      intro l' hl' hid
      obtain ⟨hmem, hns⟩ := hoff
      rcases addToCartLines_origin s0.cartItems product l' hl' with ⟨l, hl, e1, _, e3⟩ | rfl
      · rw [e3]; exact ih l hl (e1 ▸ hid)
      · exfalso
        have hpid : product.product_id = P.product_id := by
          simpa [newCartLine] using hid
        have : product = P := List.inj_on_of_nodup_map hkeys hmem hP hpid
        rw [this, hsub] at hns
        cases hns
    | removeFromCart productId =>
      intro l hl
      exact ih l (List.mem_of_mem_filter hl)
    | openCartCheckout =>
      simp only [step]
      rw [(openCheckout_frame s0).1]
      exact ih
    | cartCheckoutPayment clock backend =>
      simp only [step]
      rcases (checkout_frame authUser clock backend s0).1 with e1 | e1
      · rw [e1]; intro l hl; cases hl
      · rw [e1]; exact ih

/-! ### The stored intent -/

theorem mapGet_of_mem {α κ : Type} [DecidableEq κ] {key : α → κ} {es : List α} {k : κ}
    (h : ∃ e ∈ es, key e = k) : ∃ p, mapGet key es k = some p := by
  cases hg : mapGet key es k with
  | some p => exact ⟨p, rfl⟩
  | none =>
    obtain ⟨e, he, hk⟩ := h
    exact absurd hk (mapGet_none hg e he)

theorem hydrateItem_by_id (products : List Product) (i : Nat) (item : IntentItem) (n : Int)
    (hid : item.product_id = some n) (h : ∃ p ∈ products, p.product_id = n) :
    (hydrateItem products i item).product_id = Pid.num n := by
  obtain ⟨q, hq⟩ := @mapGet_of_mem Product Int _ (fun p => p.product_id) products n h
  have hqn : q.product_id = n := (mapGet_some hq).2
  simp [hydrateItem, matchProduct, hid, hq, hqn]

/-- The stored intent is only ever removed, and a handled intent has left the
storage empty or holding the empty text. -/
theorem intentEffect_storage (jsonParse : String → Option IntentJson)
    (authUser : Option AuthUser) (products : List Product) (s : Dash) :
    ((pendingIntentEffect jsonParse authUser products s).storage = s.storage
      ∨ (pendingIntentEffect jsonParse authUser products s).storage = none)
    ∧ ((pendingIntentEffect jsonParse authUser products s).intentHandled = true →
        s.intentHandled = true
        ∨ (pendingIntentEffect jsonParse authUser products s).storage = none
        ∨ (pendingIntentEffect jsonParse authUser products s).storage = some "") := by
  by_cases hh : s.intentHandled = true
  · rw [intentEffect_handled _ _ _ _ hh]
    exact ⟨Or.inl rfl, fun _ => Or.inl hh⟩
  · have hnot : s.intentHandled = false := by simpa using hh
    by_cases hu : ∀ user, authUser = some user → user.id = 0
    · rw [intentEffect_signed_out _ _ _ _ hu]
      exact ⟨Or.inl rfl, fun h => Or.inl h⟩
    · push_neg at hu
      obtain ⟨user, rfl, hid⟩ := hu
      cases hst : s.storage with
      | none =>
        rw [intentEffect_absent _ _ _ _ hid hnot (Or.inl hst)]
        exact ⟨Or.inr hst, fun _ => Or.inr (Or.inl hst)⟩
      | some raw =>
        by_cases hne : raw = ""
        · subst hne
          rw [intentEffect_absent _ _ _ _ hid hnot (Or.inr hst)]
          exact ⟨Or.inl hst, fun _ => Or.inr (Or.inr hst)⟩
        · have hrem := (intentEffect_frame jsonParse (some user) products s).2 hnot
          by_cases hdone :
              (pendingIntentEffect jsonParse (some user) products s).intentHandled = true
          · have := hrem hdone raw hst hne
            exact ⟨Or.inr this, fun _ => Or.inr (Or.inl this)⟩
          · refine ⟨?_, fun h => absurd h hdone⟩
            cases hp : jsonParse raw with
            | none =>
              rw [intentEffect_discard _ _ _ _ raw hid hnot hst hne (Or.inl hp)]
              exact Or.inr rfl
            | some v =>
              cases v with
              | other =>
                rw [intentEffect_discard _ _ _ _ raw hid hnot hst hne (Or.inr (Or.inl hp))]
                exact Or.inr rfl
              | array items =>
                by_cases hitems : items = []
                · subst hitems
                  rw [intentEffect_discard _ _ _ _ raw hid hnot hst hne (Or.inr (Or.inr hp))]
                  exact Or.inr rfl
                · cases hload : s.loading with
                  | true =>
                    rw [intentEffect_wait _ _ _ _ raw items hid hnot hst hne hp hitems hload]
                    exact Or.inl hst
                  | false =>
                    rw [intentEffect_merge _ _ _ _ raw items hid hnot hst hne hp hitems hload]
                    exact Or.inr rfl

theorem reachable_storage {jsonParse : String → Option IntentJson}
    {authUser : Option AuthUser} {products : List Product} {s : Dash}
    (hs : Reachable jsonParse authUser products s) :
    s.intentHandled = true → s.storage = none ∨ s.storage = some "" := by
  induction hs with
  | init storage => intro h; simp [Dash.init] at h
  | @step s0 a _ hoff ih =>
    cases a with
    | runIntentEffect =>
      intro h
      simp only [step] at h ⊢
      obtain ⟨h1, h2⟩ := intentEffect_storage jsonParse authUser products s0
      rcases h2 h with h0 | h0 | h0
      · rcases h1 with h1 | h1
        · rw [h1]; exact ih h0
        · exact Or.inl h1
      · exact Or.inl h0
      · exact Or.inr h0
    | openCartCheckout =>
      simp only [step]
      rw [(openCheckout_frame s0).2.1, (openCheckout_frame s0).2.2.1]
      exact ih
    | cartCheckoutPayment clock backend =>
      simp only [step]
      rw [(checkout_frame authUser clock backend s0).2.2.1,
        (checkout_frame authUser clock backend s0).2.2.2.1]
      exact ih
    | _ => exact ih

/-! ### Events and sample states -/

theorem step_keeps_handled (jsonParse : String → Option IntentJson)
    (authUser : Option AuthUser) (products : List Product) (s : Dash) (a : Action)
    (h : s.intentHandled = true) :
    (step jsonParse authUser products s a).intentHandled = true := by
  cases a with
  | runIntentEffect => simp only [step]; rw [intentEffect_handled _ _ _ _ h]; exact h
  | openCartCheckout => simp only [step]; rw [(openCheckout_frame s).2.1]; exact h
  | cartCheckoutPayment clock backend =>
    simp only [step]
    rw [(checkout_frame authUser clock backend s).2.2.1]; exact h
  | _ => exact h

theorem sampleLoaded_reachable :
    Reachable sampleParse (some sampleUser) sampleCatalog sampleLoaded :=
  Reachable.step Action.dataLoaded (Reachable.init (some sampleIntentText)) trivial

theorem sampleReplayed_reachable :
    Reachable sampleParse (some sampleUser) sampleCatalog sampleReplayed :=
  Reachable.step Action.runIntentEffect sampleLoaded_reachable trivial

theorem sampleReady_reachable :
    Reachable sampleParse (some sampleUser) sampleCatalog sampleReady :=
  Reachable.step (Action.editCartPayment codPayment)
    (Reachable.step (Action.addToCart curd) sampleReplayed_reachable
      ⟨by decide, rfl⟩) trivial

/-! ### Sums, search and capacity -/

theorem foldl_add_eq_sum {α : Type} (f : α → Int) (l : List α) :
    l.foldl (fun sum item => sum + f item) 0 = (l.map f).sum := by
  have : ∀ (acc : Int), l.foldl (fun sum item => sum + f item) acc = acc + (l.map f).sum := by
    induction l with
    | nil => intro acc; simp
    | cons a as ih => intro acc; simp [ih, add_assoc]
  simpa using this 0

theorem capacityFill_le (count : Nat) (limit : Int) : capacityFill count limit ≤ 100 :=
  min_le_left _ _

theorem capacityFill_full (count : Nat) (limit : Int) (h : 0 < limit) :
    capacityFill count limit = 100 ↔ limit ≤ (count : Int) := by
  unfold capacityFill
  have hl : (0 : ℚ) < (limit : ℚ) := by exact_mod_cast h
  rw [min_eq_left_iff, div_mul_eq_mul_div, le_div_iff₀ hl]
  constructor
  · intro hle
    have h2 : (limit : ℚ) ≤ (count : ℚ) := by linarith
    exact_mod_cast h2
  · intro hle
    have h2 : (limit : ℚ) ≤ (count : ℚ) := by exact_mod_cast hle
    linarith

theorem subscriptionProductLimit_pos (plan : Plan) (N : Int)
    (h : plan.max_products = NumField.num N) (hN : 0 < N) :
    subscriptionProductLimit (some plan) = some N := by
  simp [subscriptionProductLimit, h, NumField.toNumber, hN]

theorem subscriptionProductLimit_none (plan : Option Plan)
    (h : plan = none ∨ ∃ p, plan = some p ∧
      (p.max_products = NumField.undefined ∨ p.max_products = NumField.null
        ∨ p.max_products = NumField.nonNumeric
        ∨ ∃ N, p.max_products = NumField.num N ∧ N ≤ 0)) :
    subscriptionProductLimit plan = none := by
  rcases h with rfl | ⟨p, rfl, h | h | h | ⟨N, h, hN⟩⟩
  · simp [subscriptionProductLimit, NumField.toNumber]
  · simp [subscriptionProductLimit, NumField.toNumber, h]
  · simp [subscriptionProductLimit, NumField.toNumber, h]
  · simp [subscriptionProductLimit, NumField.toNumber, h]
  · simp [subscriptionProductLimit, NumField.toNumber, h, not_lt.2 hN]

/-! ### Routing -/

theorem roleRoute_page_iff (authUser : Option AuthUser) (allowedRole : String) (p : Page) :
    RoleRoute authUser allowedRole (Element.page p) = Element.page p ↔
      ∃ user, authUser = some user ∧ user.role = allowedRole := by
  cases authUser with
  | none => simp [RoleRoute]
  | some user =>
    by_cases h : user.role = allowedRole
    · simp [RoleRoute, h]
    · simp [RoleRoute, h]

theorem routeElement_admin_path_user (user : AuthUser) (h : user.role = "user") :
    ∀ path ∈ adminPaths, routeElement (some user) path = Element.navigate "/user/dashboard" := by
  intro path hpath
  simp only [adminPaths, List.mem_cons, List.mem_singleton, List.not_mem_nil, or_false] at hpath
  rcases hpath with rfl | rfl | rfl | rfl | rfl | rfl <;>
    simp [routeElement, guardedRoutes, RoleRoute, ProtectedRoute, getDashboardPath, h]

theorem routeElement_user_path_admin (user : AuthUser) (h : user.role = "admin") :
    ∀ path ∈ userPaths, routeElement (some user) path = Element.navigate "/admin/dashboard" := by
  intro path hpath
  simp only [userPaths, List.mem_cons, List.mem_singleton, List.not_mem_nil, or_false] at hpath
  rcases hpath with rfl | rfl | rfl | rfl | rfl | rfl | rfl <;>
    simp [routeElement, guardedRoutes, RoleRoute, ProtectedRoute, getDashboardPath, h]

theorem routeElement_signed_out :
    ∀ path ∈ adminPaths ++ userPaths, routeElement none path = Element.navigate "/" := by
  decide

theorem guardedRoutes_admin_role :
    ∀ r ∈ guardedRoutes, r.2.2 ∈ adminPages → r.2.1 = "admin" := by
  decide

/-- No route shows an admin page to a user whose role is not `admin`. -/
theorem routeElement_no_admin_page (user : AuthUser) (h : user.role ≠ "admin") (path : String) :
    ∀ p ∈ adminPages, routeElement (some user) path ≠ Element.page p := by
  intro p hp heq
  unfold routeElement at heq
  split at heq
  · simp at heq
  · split at heq
    · simp at heq
    · split at heq
      · simp [ProtectedRoute] at heq
      · split at heq
        · rename_i allowedRole page hfind
          have hmem := List.mem_of_find?_eq_some hfind
          simp only [ProtectedRoute, RoleRoute] at heq
          split at heq
          · cases heq
          · rename_i hrole
            simp only [ne_eq, not_not] at hrole
            cases heq
            have := guardedRoutes_admin_role _ hmem hp
            simp only at this
            exact h (hrole.trans this)
        · simp at heq

theorem shownPage_no_admin_page (user : AuthUser) (h : user.role ≠ "admin") :
    ∀ (fuel : Nat) (path : String), ∀ p ∈ adminPages, shownPage (some user) fuel path ≠ some p := by
  intro fuel
  induction fuel with
  | zero => intro path p _ heq; simp [shownPage] at heq
  | succ n ih =>
    intro path p hp heq
    unfold shownPage at heq
    cases he : routeElement (some user) path with
    | page q =>
      simp only [he] at heq
      cases heq
      exact routeElement_no_admin_page user h path p hp he
    | navigate target =>
      simp only [he] at heq
      exact ih target p hp heq

/-! ### The unavailable sample and the payment form -/

theorem sampleUnavailable_reachable :
    Reachable unknownParse (some sampleUser) sampleCatalog sampleUnavailable :=
  Reachable.step Action.runIntentEffect
    (Reachable.step Action.dataLoaded (Reachable.init (some unknownIntentText)) trivial) trivial

theorem validate_cod (d : CartPaymentData) (h : d.payment_method = "cod") :
    validateCartPayment d = none := by
  simp [validateCartPayment, h]

theorem validate_card (d : CartPaymentData) (h : d.payment_method = "card") :
    validateCartPayment d =
      if d.card_number = "" ∨ d.expiry = "" ∨ d.cvv = "" then some "Enter complete card details"
      else none := by
  simp [validateCartPayment, h, or_assoc]

theorem validate_upi (d : CartPaymentData) (h : d.payment_method = "upi") :
    validateCartPayment d =
      if includes d.upi_id "@" = true then none else some "Enter a valid UPI ID" := by
  simp [validateCartPayment, h]

theorem validate_netbanking (d : CartPaymentData) (h : d.payment_method = "netbanking") :
    validateCartPayment d =
      if d.bank_name = "" then some "Bank name is required for net banking" else none := by
  simp [validateCartPayment, h]

theorem validate_message_ne (d : CartPaymentData) (message : String)
    (h : validateCartPayment d = some message) : message ≠ "" := by
  unfold validateCartPayment at h
  split at h
  · cases h
  · split at h
    · split at h
      · cases h; decide
      · cases h
    · split at h
      · split at h
        · cases h
        · cases h; decide
      · split at h
        · cases h; decide
        · cases h

theorem checkout_sends (user : AuthUser) (clock : Clock)
    (backend : Payload → Except CheckoutError CheckoutResponse) (s : Dash)
    (hv : validateCartPayment s.cartPaymentData = none)
    (hav : availableCartItems s.cartItems ≠ []) :
    (handleCartCheckoutPayment (some user) clock backend s).2
      = some (checkoutPayload user s.cartPaymentData (availableCartItems s.cartItems)) := by
  cases hb : backend (checkoutPayload user s.cartPaymentData (availableCartItems s.cartItems)) with
  | ok response => rw [checkout_success user clock backend s response hv hav hb]
  | error data =>
    cases hitems : data.subscription_only_items with
    | none => rw [checkout_failed user clock backend s data hv hav hb (Or.inl hitems)]
    | some items =>
      cases items with
      | nil => rw [checkout_failed user clock backend s data hv hav hb (Or.inr hitems)]
      | cons first rest =>
        rw [checkout_blocked user clock backend s data first rest hv hav hb hitems]

/-! ### Pages of the table -/

theorem slice_nat {α : Type} (xs : List α) (a b : Nat) (hab : a ≤ b) :
    slice xs (a : Int) (b : Int) = (xs.drop a).take (b - a) := by
  unfold slice
  have ha : ¬ ((a : Int) < 0) := by omega
  have hb : ¬ ((b : Int) < 0) := by omega
  simp only [ha, hb, if_false]
  by_cases han : xs.length ≤ a
  · have h1 : min (a : Int) (xs.length : Int) = xs.length := by omega
    have h2 : min (b : Int) (xs.length : Int) = xs.length := by omega
    rw [h1, h2]
    simp [List.drop_of_length_le han]
  · have h1 : min (a : Int) (xs.length : Int) = a := by omega
    rw [h1]
    by_cases hbn : b ≤ xs.length
    · have h2 : min (b : Int) (xs.length : Int) = b := by omega
      rw [h2]
      have : ((b : Int) - (a : Int)).toNat = b - a := by omega
      rw [this]; simp
    · have h2 : min (b : Int) (xs.length : Int) = xs.length := by omega
      rw [h2]
      have : ((xs.length : Int) - (a : Int)).toNat = xs.length - a := by omega
      rw [this]
      simp only [Int.toNat_ofNat]
      rw [List.take_of_length_le (by simp), List.take_of_length_le (by simp; omega)]

theorem displayedData_page {α : Type} (filtered : List α) (p : Nat) (hp : 1 ≤ p) :
    displayedData filtered (p : Int) = (filtered.drop ((p - 1) * 10)).take 10 := by
  unfold displayedData itemsPerPage
  have h1 : ((p : Int) - 1) * ((10 : Nat) : Int) = (((p - 1) * 10 : Nat) : Int) := by
    push_cast [Nat.cast_sub hp]; ring
  have h2 : ((p : Int) - 1) * ((10 : Nat) : Int) + ((10 : Nat) : Int)
      = (((p - 1) * 10 + 10 : Nat) : Int) := by
    push_cast [Nat.cast_sub hp]; ring
  show slice filtered (((p : Int) - 1) * ((10 : Nat) : Int))
      (((p : Int) - 1) * ((10 : Nat) : Int) + ((10 : Nat) : Int)) = _
  rw [h2, h1, slice_nat _ _ _ (by omega)]
  simp

theorem totalPages_eq {α : Type} (filtered : List α) :
    totalPages filtered = (filtered.length + 9) / 10 := by
  unfold totalPages itemsPerPage
  by_cases h0 : filtered.length = 0
  · simp [h0]
  · have hk : (filtered.length + 9) / 10 ≠ 0 := by omega
    rw [Nat.ceil_eq_iff hk]
    have hq : ((10 : Nat) : ℚ) = 10 := by norm_num
    rw [hq]
    constructor
    · rw [lt_div_iff₀ (by norm_num)]
      have : ((filtered.length + 9) / 10 - 1) * 10 < filtered.length := by omega
      exact_mod_cast this
    · rw [div_le_iff₀ (by norm_num)]
      have : filtered.length ≤ (filtered.length + 9) / 10 * 10 := by omega
      exact_mod_cast this

theorem pages_concat_take {α : Type} (filtered : List α) (k : Nat) :
    (List.range k).flatMap (fun i => displayedData filtered ((i + 1 : Nat) : Int))
      = filtered.take (k * 10) := by
  induction k with
  | zero => simp
  | succ k ih =>
    rw [List.range_succ, List.flatMap_append, ih]
    simp only [List.flatMap_cons, List.flatMap_nil, List.append_nil]
    rw [displayedData_page filtered (k + 1) (by omega)]
    simp only [Nat.add_sub_cancel]
    rw [show (k + 1) * 10 = k * 10 + 10 by ring, List.take_add]

/-! ### Maps held as entry lists -/

theorem assocGet_none_iff {β : Type} (entries : List (Int × β)) (k : Int) :
    assocGet entries k = none ↔ k ∉ entries.map Prod.fst := by
  induction entries with
  | nil => simp [assocGet]
  | cons kv rest ih =>
    obtain ⟨k', v⟩ := kv
    by_cases h : k' = k
    · simp [assocGet, h]
    · simp [assocGet, h, ih, Ne.symm h]

theorem assocGet_some_mem {β : Type} (entries : List (Int × β)) (k : Int) (v : β)
    (h : assocGet entries k = some v) : (k, v) ∈ entries := by
  induction entries with
  | nil => simp [assocGet] at h
  | cons kv rest ih =>
    obtain ⟨k', v'⟩ := kv
    by_cases hk : k' = k
    · simp [assocGet, hk] at h
      simp [hk, h]
    · simp [assocGet, hk] at h
      exact List.mem_cons_of_mem _ (ih h)

theorem assocSet_of_not_mem {β : Type} (entries : List (Int × β)) (k : Int) (v : β)
    (h : k ∉ entries.map Prod.fst) : assocSet entries k v = entries ++ [(k, v)] := by
  induction entries with
  | nil => rfl
  | cons kv rest ih =>
    obtain ⟨k', v'⟩ := kv
    simp only [List.map_cons, List.mem_cons, not_or] at h
    simp [assocSet, Ne.symm h.1, ih h.2]

theorem assocSet_of_mem {β : Type} (entries : List (Int × β)) (k : Int) (v : β)
    (h : k ∈ entries.map Prod.fst) :
    ∃ pre v0 post, entries = pre ++ (k, v0) :: post ∧ k ∉ pre.map Prod.fst
      ∧ assocSet entries k v = pre ++ (k, v) :: post := by
  induction entries with
  | nil => simp at h
  | cons kv rest ih =>
    obtain ⟨k', v'⟩ := kv
    by_cases hk : k' = k
    · subst hk
      exact ⟨[], v', rest, rfl, by simp, by simp [assocSet]⟩
    · have : k ∈ rest.map Prod.fst := by
        simp only [List.map_cons, List.mem_cons] at h
        rcases h with h | h
        · exact absurd h.symm hk
        · exact h
      obtain ⟨pre, v0, post, h1, h2, h3⟩ := ih this
      refine ⟨(k', v') :: pre, v0, post, by rw [h1]; rfl, ?_, ?_⟩
      · simp only [List.map_cons, List.mem_cons, not_or]
        exact ⟨Ne.symm hk, h2⟩
      · simp [assocSet, hk, h3]

/-- The keys after `set`, and where each entry comes from, for a map with distinct keys. -/
theorem assocSet_spec {β : Type} (entries : List (Int × β)) (k : Int) (v : β)
    (hnd : (entries.map Prod.fst).Nodup) :
    ((assocSet entries k v).map Prod.fst).Nodup
    ∧ (∀ k', k' ∈ (assocSet entries k v).map Prod.fst ↔ k' = k ∨ k' ∈ entries.map Prod.fst)
    ∧ (∀ k' v', (k', v') ∈ assocSet entries k v ↔
        (k' = k ∧ v' = v) ∨ ((k', v') ∈ entries ∧ k' ≠ k)) := by
  by_cases h : k ∈ entries.map Prod.fst
  · obtain ⟨pre, v0, post, h1, h2, h3⟩ := assocSet_of_mem entries k v h
    rw [h3]
    subst h1
    have hkeys : (pre ++ (k, v) :: post).map Prod.fst = (pre ++ (k, v0) :: post).map Prod.fst := by
      simp
    have hpost : k ∉ post.map Prod.fst := by
      simp only [List.map_append, List.map_cons] at hnd
      have := (List.nodup_append.1 hnd).2.1
      exact (List.nodup_cons.1 this).1
    refine ⟨by rw [hkeys]; exact hnd, ?_, ?_⟩
    · intro k'
      rw [hkeys]
      constructor
      · exact fun hk' => Or.inr hk'
      · rintro (rfl | hk')
        · simp
        · exact hk'
    · intro k' v'
      simp only [List.mem_append, List.mem_cons, Prod.mk.injEq]
      constructor
      · rintro (hp | ⟨rfl, rfl⟩ | hp)
        · right
          refine ⟨Or.inl hp, ?_⟩
          rintro rfl
          exact h2 (List.mem_map_of_mem Prod.fst hp)
        · exact Or.inl ⟨rfl, rfl⟩
        · right
          refine ⟨Or.inr (Or.inr hp), ?_⟩
          rintro rfl
          exact hpost (List.mem_map_of_mem Prod.fst hp)
      · rintro (⟨rfl, rfl⟩ | ⟨hp | ⟨rfl, _⟩ | hp, hne⟩)
        · exact Or.inr (Or.inl ⟨rfl, rfl⟩)
        · exact Or.inl hp
        · exact absurd rfl hne
        · exact Or.inr (Or.inr hp)
  · rw [assocSet_of_not_mem entries k v h]
    refine ⟨?_, ?_, ?_⟩
    · rw [List.map_append, List.nodup_append]
      refine ⟨hnd, by simp, ?_⟩
      intro a ha hb
      simp only [List.map_cons, List.map_nil, List.mem_singleton] at hb
      subst hb
      exact h ha
    · intro k'
      simp only [List.map_append, List.map_cons, List.map_nil, List.mem_append,
        List.mem_singleton]
      tauto
    · intro k' v'
      simp only [List.mem_append, List.mem_singleton, Prod.mk.injEq]
      constructor
      · rintro (hp | ⟨rfl, rfl⟩)
        · right
          refine ⟨hp, ?_⟩
          rintro rfl
          exact h (List.mem_map_of_mem Prod.fst hp)
        · exact Or.inl ⟨rfl, rfl⟩
      · rintro (⟨rfl, rfl⟩ | ⟨hp, _⟩)
        · exact Or.inr ⟨rfl, rfl⟩
        · exact Or.inl hp

theorem assoc_unique {β : Type} (entries : List (Int × β)) (k : Int) (v w : β)
    (hnd : (entries.map Prod.fst).Nodup) (hv : (k, v) ∈ entries) (hw : (k, w) ∈ entries) :
    v = w := by
  induction entries with
  | nil => cases hv
  | cons kv rest ih =>
    simp only [List.map_cons, List.nodup_cons] at hnd
    rcases List.mem_cons.1 hv with h1 | h1 <;> rcases List.mem_cons.1 hw with h2 | h2
    · exact (Prod.mk.inj (h1.trans h2.symm)).2
    · exact absurd (by rw [← h1]; exact List.mem_map.2 ⟨(k, w), h2, rfl⟩) hnd.1
    · exact absurd (by rw [← h2]; exact List.mem_map.2 ⟨(k, v), h1, rfl⟩) hnd.1
    · exact ih hnd.2 h1 h2

/-! ### The fold of the payments -/

theorem laterThan_true {a b : Option Int} (h : laterThan a b = true) :
    ∃ x y, a = some x ∧ b = some y ∧ y < x := by
  cases a with
  | none => simp [laterThan] at h
  | some x =>
    cases b with
    | none => simp [laterThan] at h
    | some y => exact ⟨x, y, rfl, rfl, by simpa [laterThan] using h⟩

theorem laterThan_false {x y : Int} (h : laterThan (some x) (some y) = false) : x ≤ y := by
  simpa [laterThan] using h

theorem foldPayment_skip (subscriptions : List Plan) (grouped : List (Int × PlanEntry))
    (x : Payment) (h : ∀ k, x.subscription.toNumber = some k → k = 0) :
    foldPayment subscriptions grouped x = grouped := by
  unfold foldPayment
  cases hx : x.subscription.toNumber with
  | none => rfl
  | some k => simp [h k hx]

theorem foldPayment_new (subscriptions : List Plan) (grouped : List (Int × PlanEntry))
    (x : Payment) (k : Int) (hx : x.subscription.toNumber = some k) (hk : k ≠ 0)
    (hget : assocGet grouped k = none) :
    foldPayment subscriptions grouped x
      = assocSet grouped k (paymentEntry subscriptions k x) := by
  simp [foldPayment, hx, hk, hget]

theorem foldPayment_later (subscriptions : List Plan) (grouped : List (Int × PlanEntry))
    (x : Payment) (k : Int) (existing : PlanEntry) (hx : x.subscription.toNumber = some k)
    (hk : k ≠ 0) (hget : assocGet grouped k = some existing)
    (hlate : laterThan (paymentTime x) existing.activity_at = true) :
    foldPayment subscriptions grouped x
      = assocSet grouped k (paymentEntry subscriptions k x) := by
  simp [foldPayment, hx, hk, hget, hlate]

theorem foldPayment_kept (subscriptions : List Plan) (grouped : List (Int × PlanEntry))
    (x : Payment) (k : Int) (existing : PlanEntry) (hx : x.subscription.toNumber = some k)
    (hk : k ≠ 0) (hget : assocGet grouped k = some existing)
    (hlate : laterThan (paymentTime x) existing.activity_at = false) :
    foldPayment subscriptions grouped x = grouped := by
  simp [foldPayment, hx, hk, hget, hlate]

/-- The fold of `subscribedPlans` over the payments: the keys are distinct and are the
non-zero subscription ids of the payments; each entry is built from a payment of its id
that is later than every earlier payment of the id and that no later one is later than. -/
theorem foldPayment_invariant (subscriptions : List Plan) (payments : List Payment) :
    ((payments.foldl (foldPayment subscriptions) []).map Prod.fst).Nodup
    ∧ (∀ k, k ∈ (payments.foldl (foldPayment subscriptions) []).map Prod.fst ↔
        k ≠ 0 ∧ ∃ p ∈ payments, p.subscription.toNumber = some k)
    ∧ (∀ k e, (k, e) ∈ payments.foldl (foldPayment subscriptions) [] →
        ∃ pre p post, payments = pre ++ p :: post ∧ p.subscription.toNumber = some k
          ∧ e = paymentEntry subscriptions k p
          ∧ (∀ q ∈ pre, q.subscription.toNumber = some k →
              ∀ tq tp, paymentTime q = some tq → paymentTime p = some tp → tq < tp)
          ∧ (∀ q ∈ post, q.subscription.toNumber = some k →
              ∀ tq tp, paymentTime q = some tq → paymentTime p = some tp → tq ≤ tp)) := by
  induction payments using List.reverseRecOn with
  | nil => simp
  | append_singleton ps x ih =>
    obtain ⟨ih1, ih2, ih3⟩ := ih
    rw [List.foldl_append, List.foldl_cons, List.foldl_nil]
    generalize ps.foldl (foldPayment subscriptions) [] = g at ih1 ih2 ih3 ⊢
    -- an entry of `g` stays valid when `x` is appended, if `x` is not later than it
    have keep : ∀ k e, (k, e) ∈ g →
        (x.subscription.toNumber = some k →
          ∀ tx te, paymentTime x = some tx → e.activity_at = some te → tx ≤ te) →
        ∃ pre p post, ps ++ [x] = pre ++ p :: post ∧ p.subscription.toNumber = some k
          ∧ e = paymentEntry subscriptions k p
          ∧ (∀ q ∈ pre, q.subscription.toNumber = some k →
              ∀ tq tp, paymentTime q = some tq → paymentTime p = some tp → tq < tp)
          ∧ (∀ q ∈ post, q.subscription.toNumber = some k →
              ∀ tq tp, paymentTime q = some tq → paymentTime p = some tp → tq ≤ tp) := by
      intro k e hke hx
      obtain ⟨pre, p, post, h1, h2, h3, h4, h5⟩ := ih3 k e hke
      refine ⟨pre, p, post ++ [x], by rw [h1]; simp, h2, h3, h4, ?_⟩
      intro q hq hqk tq tp htq htp
      rcases List.mem_append.1 hq with hq | hq
      · exact h5 q hq hqk tq tp htq htp
      · have : q = x := by simpa using hq
        subst this
        exact hx hqk tq tp htq (by rw [h3]; exact htp)
    by_cases hskip : ∀ k, x.subscription.toNumber = some k → k = 0
    · rw [foldPayment_skip subscriptions g x hskip]
      refine ⟨ih1, ?_, ?_⟩
      · intro k
        rw [ih2 k]
        constructor
        · rintro ⟨hk, p, hp, hpk⟩
          exact ⟨hk, p, List.mem_append_left _ hp, hpk⟩
        · rintro ⟨hk, p, hp, hpk⟩
          rcases List.mem_append.1 hp with hp | hp
          · exact ⟨hk, p, hp, hpk⟩
          · have : p = x := by simpa using hp
            subst this
            exact absurd (hskip k hpk) hk
      · intro k e hke
        refine keep k e hke ?_
        intro hxk
        have hk0 : k ≠ 0 := ((ih2 k).1 (List.mem_map_of_mem Prod.fst hke)).1
        exact absurd (hskip k hxk) hk0
    · push_neg at hskip
      obtain ⟨k0, hx, hk0⟩ := hskip
      have hmemx : ∀ k, (k ≠ 0 ∧ ∃ p ∈ ps ++ [x], p.subscription.toNumber = some k) ↔
          k = k0 ∨ (k ≠ 0 ∧ ∃ p ∈ ps, p.subscription.toNumber = some k) := by
        intro k
        constructor
        · rintro ⟨hk, p, hp, hpk⟩
          rcases List.mem_append.1 hp with hp | hp
          · exact Or.inr ⟨hk, p, hp, hpk⟩
          · have : p = x := by simpa using hp
            subst this
            rw [hx] at hpk
            exact Or.inl (Option.some.inj hpk).symm
        · rintro (rfl | ⟨hk, p, hp, hpk⟩)
          · exact ⟨hk0, x, by simp, hx⟩
          · exact ⟨hk, p, List.mem_append_left _ hp, hpk⟩
      -- what `set(k0, payload)` leaves, given that `x` is later than every earlier
      -- payment of `k0`
      have afterSet :
          (∀ q ∈ ps, q.subscription.toNumber = some k0 →
            ∀ tq tx, paymentTime q = some tq → paymentTime x = some tx → tq < tx) →
          ((assocSet g k0 (paymentEntry subscriptions k0 x)).map Prod.fst).Nodup
          ∧ (∀ k, k ∈ (assocSet g k0 (paymentEntry subscriptions k0 x)).map Prod.fst ↔
              k ≠ 0 ∧ ∃ p ∈ ps ++ [x], p.subscription.toNumber = some k)
          ∧ (∀ k e, (k, e) ∈ assocSet g k0 (paymentEntry subscriptions k0 x) →
              ∃ pre p post, ps ++ [x] = pre ++ p :: post ∧ p.subscription.toNumber = some k
                ∧ e = paymentEntry subscriptions k p
                ∧ (∀ q ∈ pre, q.subscription.toNumber = some k →
                    ∀ tq tp, paymentTime q = some tq → paymentTime p = some tp → tq < tp)
                ∧ (∀ q ∈ post, q.subscription.toNumber = some k →
                    ∀ tq tp, paymentTime q = some tq → paymentTime p = some tp → tq ≤ tp)) := by
        intro hbeats
        obtain ⟨s1, s2, s3⟩ := assocSet_spec g k0 (paymentEntry subscriptions k0 x) ih1
        refine ⟨s1, ?_, ?_⟩
        · intro k
          rw [s2 k, ih2 k, hmemx k]
        · intro k e hke
          rcases (s3 k e).1 hke with ⟨rfl, rfl⟩ | ⟨hold, hne⟩
          · exact ⟨ps, x, [], rfl, hx, rfl, hbeats, by simp⟩
          · refine keep k e hold ?_
            intro hxk
            rw [hx] at hxk
            exact absurd (Option.some.inj hxk).symm hne
      cases hget : assocGet g k0 with
      | none =>
        rw [foldPayment_new subscriptions g x k0 hx hk0 hget]
        apply afterSet
        intro q hq hqk
        have hkmem : k0 ∈ g.map Prod.fst := (ih2 k0).2 ⟨hk0, q, hq, hqk⟩
        exact absurd hkmem ((assocGet_none_iff g k0).1 hget)
      | some e0 =>
        have he0 := assocGet_some_mem g k0 e0 hget
        obtain ⟨pre, p, post, hps, hp, hee, h4, h5⟩ := ih3 k0 e0 he0
        by_cases hlate : laterThan (paymentTime x) e0.activity_at = true
        · rw [foldPayment_later subscriptions g x k0 e0 hx hk0 hget hlate]
          apply afterSet
          obtain ⟨tx', te, h1, h2, h3⟩ := laterThan_true hlate
          have hte : paymentTime p = some te := by rw [hee] at h2; exact h2
          intro q hq hqk tq tx htq htx
          have htx' : tx = tx' := by rw [h1] at htx; exact (Option.some.inj htx).symm
          subst hps
          rcases List.mem_append.1 hq with hq | hq
          · have := h4 q hq hqk tq te htq hte
            omega
          · rcases List.mem_cons.1 hq with rfl | hq
            · rw [hte] at htq
              have : te = tq := Option.some.inj htq
              omega
            · have := h5 q hq hqk tq te htq hte
              omega
        · have hlate' : laterThan (paymentTime x) e0.activity_at = false := by
            simpa using hlate
          rw [foldPayment_kept subscriptions g x k0 e0 hx hk0 hget hlate']
          refine ⟨ih1, ?_, ?_⟩
          · intro k
            rw [ih2 k, hmemx k]
            constructor
            · exact fun h => Or.inr h
            · rintro (rfl | h)
              · exact (ih2 k).1 (List.mem_map_of_mem Prod.fst he0)
              · exact h
          · intro k e hke
            refine keep k e hke ?_
            intro hxk tx te htx hte
            rw [hx] at hxk
            have hkk : k0 = k := Option.some.inj hxk
            subst hkk
            have hee' : e = e0 := assoc_unique g k0 e e0 ih1 hke he0
            subst hee'
            rw [htx, hte] at hlate'
            exact laterThan_false hlate'

/-! ### Sorting and the plan history -/

theorem jsSort_perm {α : Type} (compare : α → α → Int) (xs : List α) :
    List.Perm (jsSort compare xs) xs :=
  List.perm_insertionSort _ xs

theorem mem_jsSort {α : Type} (compare : α → α → Int) (xs : List α) (a : α) :
    a ∈ jsSort compare xs ↔ a ∈ xs :=
  (jsSort_perm compare xs).mem_iff

/-- A comparator that is total and transitive leaves the array sorted. -/
theorem jsSort_sorted {α : Type} (compare : α → α → Int)
    (htotal : ∀ a b, compare a b ≤ 0 ∨ compare b a ≤ 0)
    (htrans : ∀ a b d, compare a b ≤ 0 → compare b d ≤ 0 → compare a d ≤ 0) (xs : List α) :
    List.Sorted (fun a b => compare a b ≤ 0) (jsSort compare xs) := by
  haveI : IsTotal α (fun a b => compare a b ≤ 0) := ⟨htotal⟩
  haveI : IsTrans α (fun a b => compare a b ≤ 0) := ⟨htrans⟩
  exact List.sorted_insertionSort _ xs

theorem paymentEntry_id (subscriptions : List Plan) (k : Int) (p : Payment) :
    (paymentEntry subscriptions k p).subscription_id = k := rfl

/-- The map `grouped` after the overlay of the active subscription. -/
theorem groupedPlans_spec (subscriptions : List Plan) (payments : List Payment)
    (active : Option ActiveSubscription) :
    ((groupedPlans subscriptions payments active).map Prod.fst).Nodup
    ∧ (∀ k, k ∈ (groupedPlans subscriptions payments active).map Prod.fst ↔
        (k ≠ 0 ∧ ∃ p ∈ payments, p.subscription.toNumber = some k)
          ∨ ∃ a, active = some a ∧ a.subscription_id = k)
    ∧ (∀ k e, (k, e) ∈ groupedPlans subscriptions payments active → e.subscription_id = k)
    ∧ (∀ k e, (k, e) ∈ groupedPlans subscriptions payments active →
        (∀ a, active = some a → a.subscription_id ≠ k) →
        (k, e) ∈ payments.foldl (foldPayment subscriptions) [])
    ∧ (∀ a, active = some a → ∀ e,
        (a.subscription_id, e) ∈ groupedPlans subscriptions payments active ↔
          e = activeEntry subscriptions a) := by
  obtain ⟨i1, i2, i3⟩ := foldPayment_invariant subscriptions payments
  have hid : ∀ k e, (k, e) ∈ payments.foldl (foldPayment subscriptions) [] →
      e.subscription_id = k := by
    intro k e hke
    obtain ⟨_, p, _, _, _, he, _⟩ := i3 k e hke
    rw [he]; rfl
  cases active with
  | none =>
    simp only [groupedPlans]
    refine ⟨i1, ?_, hid, fun k e h _ => h, fun a h => by cases h⟩
    intro k
    rw [i2 k]
    constructor
    · exact fun h => Or.inl h
    · rintro (h | ⟨a, h, _⟩)
      · exact h
      · cases h
  | some sub =>
    simp only [groupedPlans]
    obtain ⟨s1, s2, s3⟩ :=
      assocSet_spec (payments.foldl (foldPayment subscriptions) []) sub.subscription_id
        (activeEntry subscriptions sub) i1
    refine ⟨s1, ?_, ?_, ?_, ?_⟩
    · intro k
      rw [s2 k, i2 k]
      constructor
      · rintro (rfl | h)
        · exact Or.inr ⟨sub, rfl, rfl⟩
        · exact Or.inl h
      · rintro (h | ⟨a, ha, rfl⟩)
        · exact Or.inr h
        · cases ha; exact Or.inl rfl
    · intro k e hke
      rcases (s3 k e).1 hke with ⟨rfl, rfl⟩ | ⟨hold, _⟩
      · rfl
      · exact hid k e hold
    · intro k e hke hna
      rcases (s3 k e).1 hke with ⟨rfl, _⟩ | ⟨hold, _⟩
      · exact absurd rfl (hna sub rfl)
      · exact hold
    · intro a ha e
      cases ha
      rw [s3]
      constructor
      · rintro (⟨_, h⟩ | ⟨_, h⟩)
        · exact h
        · exact absurd rfl h
      · exact fun h => Or.inl ⟨rfl, h⟩

theorem mem_subscribedPlans (subscriptions : List Plan) (payments : List Payment)
    (active : Option ActiveSubscription) (e : PlanEntry) :
    e ∈ subscribedPlans subscriptions payments active ↔
      (e.subscription_id, e) ∈ groupedPlans subscriptions payments active := by
  unfold subscribedPlans
  rw [mem_jsSort, List.mem_map]
  constructor
  · rintro ⟨⟨k, e'⟩, hke, rfl⟩
    have := (groupedPlans_spec subscriptions payments active).2.2.1 k e' hke
    simp only at this ⊢
    rw [this]; exact hke
  · exact fun h => ⟨(e.subscription_id, e), h, rfl⟩

theorem subscribedPlans_ids_perm (subscriptions : List Plan) (payments : List Payment)
    (active : Option ActiveSubscription) :
    List.Perm ((subscribedPlans subscriptions payments active).map (fun e => e.subscription_id))
      ((groupedPlans subscriptions payments active).map Prod.fst) := by
  unfold subscribedPlans
  refine ((jsSort_perm _ _).map _).trans ?_
  rw [List.map_map]
  apply List.Perm.of_eq
  apply List.map_congr_left
  intro ke hke
  obtain ⟨k, e⟩ := ke
  exact (groupedPlans_spec subscriptions payments active).2.2.1 k e hke

/-! ### Category grouping -/

theorem groupStep_none (product : Product) : groupStep none product = none := rfl

theorem groupFold_none (products : List Product) :
    products.foldl groupStep none = none := by
  induction products with
  | nil => rfl
  | cons p ps ih => simpa [List.foldl_cons, groupStep_none] using ih

theorem groupStep_existing (own : List (String × List Product)) (product : Product)
    (h : categoryOf product ∈ own.map Prod.fst) :
    groupStep (some own) product =
      some (own.map (fun entry =>
        if entry.1 = categoryOf product then (entry.1, entry.2 ++ [product]) else entry)) := by
  have : own.any (fun entry => decide (entry.1 = categoryOf product)) = true := by
    rw [List.any_eq_true]
    obtain ⟨entry, he, hk⟩ := List.mem_map.1 h
    exact ⟨entry, he, by simpa using hk⟩
  simp [groupStep, this]

theorem groupStep_inherited (own : List (String × List Product)) (product : Product)
    (h : categoryOf product ∉ own.map Prod.fst) (hin : categoryOf product ∈ inheritedKeys) :
    groupStep (some own) product = none := by
  have : own.any (fun entry => decide (entry.1 = categoryOf product)) = false := by
    rw [List.any_eq_false]
    intro entry he hk
    exact h (List.mem_map.2 ⟨entry, he, by simpa using hk⟩)
  simp [groupStep, this, hin]

theorem groupStep_fresh (own : List (String × List Product)) (product : Product)
    (h : categoryOf product ∉ own.map Prod.fst) (hin : categoryOf product ∉ inheritedKeys) :
    groupStep (some own) product = some (own ++ [(categoryOf product, [product])]) := by
  have : own.any (fun entry => decide (entry.1 = categoryOf product)) = false := by
    rw [List.any_eq_false]
    intro entry he hk
    exact h (List.mem_map.2 ⟨entry, he, by simpa using hk⟩)
  simp [groupStep, this, hin]

/-- Pushing onto the group of a name keeps the names and adds the product to the
concatenation of the groups. -/
theorem push_spec (own : List (String × List Product)) (name : String) (product : Product)
    (hnd : (own.map Prod.fst).Nodup) (h : name ∈ own.map Prod.fst) :
    (own.map (fun entry =>
        if entry.1 = name then (entry.1, entry.2 ++ [product]) else entry)).map Prod.fst
      = own.map Prod.fst
    ∧ List.Perm
        ((own.map (fun entry =>
          if entry.1 = name then (entry.1, entry.2 ++ [product]) else entry)).flatMap Prod.snd)
        (own.flatMap Prod.snd ++ [product]) := by
  induction own with
  | nil => simp at h
  | cons e rest ih =>
    simp only [List.map_cons, List.nodup_cons] at hnd
    by_cases he : e.1 = name
    · have hrest : ∀ entry ∈ rest, entry.1 ≠ name := by
        intro entry hen hk
        apply hnd.1
        rw [he, ← hk]
        exact List.mem_map_of_mem Prod.fst hen
      have hmap : rest.map (fun entry =>
          if entry.1 = name then (entry.1, entry.2 ++ [product]) else entry) = rest := by
        conv_rhs => rw [← List.map_id rest]
        apply List.map_congr_left
        intro entry hen
        simp [hrest entry hen]
      simp only [List.map_cons, he, if_true, hmap]
      refine ⟨trivial, ?_⟩
      simp only [List.flatMap_cons, List.append_assoc]
      exact List.Perm.append_left _ List.perm_append_comm
    · have hmem : name ∈ rest.map Prod.fst := by
        simp only [List.map_cons, List.mem_cons] at h
        rcases h with h | h
        · exact absurd h.symm he
        · exact h
      obtain ⟨i1, i2⟩ := ih hnd.2 hmem
      simp only [List.map_cons, he, if_false]
      refine ⟨by rw [i1], ?_⟩
      simp only [List.flatMap_cons, List.append_assoc]
      exact List.Perm.append_left _ i2

/-- One step of the reducer on a product whose group name is not inherited. -/
theorem groupStep_spec (own : List (String × List Product)) (product : Product)
    (h1 : (own.map Prod.fst).Nodup)
    (h2 : ∀ entry ∈ own, ∀ q ∈ entry.2, categoryOf q = entry.1)
    (h4 : ∀ entry ∈ own, entry.2 ≠ [])
    (hp : categoryOf product ∉ inheritedKeys) :
    ∃ next, groupStep (some own) product = some next
      ∧ (next.map Prod.fst).Nodup
      ∧ (∀ k, k ∈ next.map Prod.fst ↔ k ∈ own.map Prod.fst ∨ k = categoryOf product)
      ∧ (∀ entry ∈ next, ∀ q ∈ entry.2, categoryOf q = entry.1)
      ∧ (∀ entry ∈ next, entry.2 ≠ [])
      ∧ List.Perm (next.flatMap Prod.snd) (own.flatMap Prod.snd ++ [product]) := by
  by_cases hmem : categoryOf product ∈ own.map Prod.fst
  · obtain ⟨p1, p2⟩ := push_spec own (categoryOf product) product h1 hmem
    refine ⟨_, groupStep_existing own product hmem, by rw [p1]; exact h1, ?_, ?_, ?_, p2⟩
    · intro k
      rw [p1]
      constructor
      · exact fun h => Or.inl h
      · rintro (h | rfl)
        · exact h
        · exact hmem
    · intro entry hen q hq
      obtain ⟨old, ho, rfl⟩ := List.mem_map.1 hen
      by_cases hk : old.1 = categoryOf product
      · simp only [hk, if_true] at hq ⊢
        rcases List.mem_append.1 hq with hq | hq
        · rw [← hk]; exact h2 old ho q hq
        · have : q = product := by simpa using hq
          rw [this]
      · simp only [hk, if_false] at hq ⊢
        exact h2 old ho q hq
    · intro entry hen
      obtain ⟨old, ho, rfl⟩ := List.mem_map.1 hen
      by_cases hk : old.1 = categoryOf product
      · simp [hk]
      · simp only [hk, if_false]
        exact h4 old ho
  · refine ⟨_, groupStep_fresh own product hmem hp, ?_, ?_, ?_, ?_, ?_⟩
    · rw [List.map_append, List.nodup_append]
      refine ⟨h1, by simp, ?_⟩
      intro a ha hb
      simp only [List.map_cons, List.map_nil, List.mem_singleton] at hb
      subst hb
      exact hmem ha
    · intro k
      simp
    · intro entry hen q hq
      rcases List.mem_append.1 hen with hen | hen
      · exact h2 entry hen q hq
      · have : entry = (categoryOf product, [product]) := by simpa using hen
        subst this
        have : q = product := by simpa using hq
        rw [this]
    · intro entry hen
      rcases List.mem_append.1 hen with hen | hen
      · exact h4 entry hen
      · have : entry = (categoryOf product, [product]) := by simpa using hen
        subst this
        simp
    · simp [List.flatMap_append]

/-- The whole reduction, when no group name is inherited. -/
theorem groupFold_spec (products : List Product) (own : List (String × List Product))
    (h1 : (own.map Prod.fst).Nodup)
    (h2 : ∀ entry ∈ own, ∀ q ∈ entry.2, categoryOf q = entry.1)
    (h4 : ∀ entry ∈ own, entry.2 ≠ [])
    (hp : ∀ p ∈ products, categoryOf p ∉ inheritedKeys) :
    ∃ final, products.foldl groupStep (some own) = some final
      ∧ (final.map Prod.fst).Nodup
      ∧ (∀ entry ∈ final, ∀ q ∈ entry.2, categoryOf q = entry.1)
      ∧ (∀ entry ∈ final, entry.2 ≠ [])
      ∧ List.Perm (final.flatMap Prod.snd) (own.flatMap Prod.snd ++ products) := by
  induction products generalizing own with
  | nil => exact ⟨own, rfl, h1, h2, h4, by simp⟩
  | cons p ps ih =>
    obtain ⟨next, hn, n1, _, n2, n4, n5⟩ :=
      groupStep_spec own p h1 h2 h4 (hp p (List.mem_cons_self _ _))
    obtain ⟨final, hf, f1, f2, f4, f5⟩ :=
      ih next n1 n2 n4 (fun q hq => hp q (List.mem_cons_of_mem _ hq))
    refine ⟨final, by rw [List.foldl_cons, hn, hf], f1, f2, f4, ?_⟩
    refine f5.trans ?_
    refine (List.Perm.append_right ps n5).trans ?_
    simp

/-- The reduction throws as soon as one group name is inherited. -/
theorem groupFold_throws (products : List Product) (own : List (String × List Product))
    (h1 : (own.map Prod.fst).Nodup)
    (h2 : ∀ entry ∈ own, ∀ q ∈ entry.2, categoryOf q = entry.1)
    (h4 : ∀ entry ∈ own, entry.2 ≠ [])
    (hk : ∀ k ∈ own.map Prod.fst, k ∉ inheritedKeys)
    (hex : ∃ p ∈ products, categoryOf p ∈ inheritedKeys) :
    products.foldl groupStep (some own) = none := by
  induction products generalizing own with
  | nil => obtain ⟨p, hp, _⟩ := hex; cases hp
  | cons p ps ih =>
    rw [List.foldl_cons]
    by_cases hin : categoryOf p ∈ inheritedKeys
    · rw [groupStep_inherited own p (fun hmem => hk _ hmem hin) hin, groupFold_none]
    · obtain ⟨next, hn, n1, nk, n2, n4, _⟩ := groupStep_spec own p h1 h2 h4 hin
      rw [hn]
      apply ih next n1 n2 n4
      · intro k hkn
        rcases (nk k).1 hkn with h | rfl
        · exact hk k h
        · exact hin
      · obtain ⟨q, hq, hqin⟩ := hex
        rcases List.mem_cons.1 hq with rfl | hq
        · exact absurd hqin hin
        · exact ⟨q, hq, hqin⟩

theorem objectEntries_perm {β : Type} (own : List (String × β)) :
    List.Perm (objectEntries own) own := by
  unfold objectEntries
  refine (List.Perm.append_right _ (List.perm_insertionSort _ _)).trans ?_
  exact List.filter_append_perm _ own

/-- The memo throws exactly when a group name is inherited from `Object.prototype`. -/
theorem productsByCategory_throws (localeCompare : String → String → Int)
    (products : List Product) :
    productsByCategory localeCompare products = none
      ↔ ∃ p ∈ products, categoryOf p ∈ inheritedKeys := by
  constructor
  · intro h
    by_contra hno
    have hp : ∀ p ∈ products, categoryOf p ∉ inheritedKeys :=
      fun p hp hin => hno ⟨p, hp, hin⟩
    obtain ⟨final, hf, _⟩ := groupFold_spec products [] (by simp) (by simp) (by simp) hp
    simp [productsByCategory, hf] at h
  · intro h
    have := groupFold_throws products [] (by simp) (by simp) (by simp) (by simp) h
    simp [productsByCategory, this]

/-- Without an inherited group name the memo is a partition of the catalog by
`categoryOf`, with groups and products in the order of `localeCompare`. -/
theorem productsByCategory_partition (localeCompare : String → String → Int)
    (products : List Product)
    (htotal : ∀ a b, localeCompare a b ≤ 0 ∨ localeCompare b a ≤ 0)
    (htrans : ∀ a b d, localeCompare a b ≤ 0 → localeCompare b d ≤ 0 → localeCompare a d ≤ 0)
    (hp : ∀ p ∈ products, categoryOf p ∉ inheritedKeys) :
    ∃ groups, productsByCategory localeCompare products = some groups
      ∧ (groups.map (fun g => g.category)).Nodup
      ∧ (∀ g ∈ groups, g.products ≠ [] ∧ ∀ q ∈ g.products, categoryOf q = g.category)
      ∧ List.Perm (groups.flatMap (fun g => g.products)) products
      ∧ List.Sorted (fun a b => localeCompare a.category b.category ≤ 0) groups
      ∧ ∀ g ∈ groups, List.Sorted (fun a b => localeCompare a.name b.name ≤ 0) g.products := by
  obtain ⟨final, hf, f1, f2, f4, f5⟩ :=
    groupFold_spec products [] (by simp) (by simp) (by simp) hp
  have hsorted := jsSort_sorted (fun first second : String × List Product =>
      localeCompare first.1 second.1) (fun a b => htotal a.1 b.1)
      (fun a b d => htrans a.1 b.1 d.1) (objectEntries final)
  have hperm : List.Perm
      (jsSort (fun first second : String × List Product => localeCompare first.1 second.1)
        (objectEntries final)) final :=
    (jsSort_perm _ _).trans (objectEntries_perm final)
  have hval : productsByCategory localeCompare products = some
      ((jsSort (fun first second : String × List Product => localeCompare first.1 second.1)
          (objectEntries final)).map
        (fun entry =>
          { category := entry.1
            products :=
              jsSort (fun first second => localeCompare first.name second.name) entry.2 })) := by
    simp only [productsByCategory, hf]
  refine ⟨_, hval, ?_, ?_, ?_, ?_, ?_⟩
  · rw [List.map_map]
    exact (hperm.map _).nodup_iff.2 f1
  · intro g hg
    obtain ⟨entry, he, rfl⟩ := List.mem_map.1 hg
    have he' : entry ∈ final := hperm.mem_iff.1 he
    refine ⟨?_, ?_⟩
    · intro hnil
      apply f4 entry he'
      have := (jsSort_perm (fun first second : Product =>
        localeCompare first.name second.name) entry.2).symm
      simp only at hnil
      rw [hnil] at this
      exact List.perm_nil.1 this
    · intro q hq
      exact f2 entry he' q ((mem_jsSort _ _ _).1 hq)
  · rw [List.flatMap_map]
    refine List.Perm.trans ?_ (by simpa using f5)
    refine List.Perm.trans ?_ (List.Perm.flatMap_right Prod.snd hperm)
    exact List.Perm.flatMap_left _ (fun entry _ => jsSort_perm _ _)
  · rw [List.Sorted, List.pairwise_map]
    exact hsorted
  · intro g hg
    obtain ⟨entry, _, rfl⟩ := List.mem_map.1 hg
    exact jsSort_sorted (fun first second : Product => localeCompare first.name second.name)
      (fun a b => htotal a.name b.name) (fun a b d => htrans a.name b.name d.name) entry.2

/-! ### The mini-cart of the landing page -/

theorem assocGet_assocSet_same {β : Type} (entries : List (Int × β)) (k : Int) (v : β) :
    assocGet (assocSet entries k v) k = some v := by
  induction entries with
  | nil => simp [assocSet, assocGet]
  | cons e rest ih =>
    obtain ⟨k0, v0⟩ := e
    by_cases h : k0 = k
    · simp [assocSet, assocGet, h]
    · simp [assocSet, assocGet, h, ih]

theorem assocGet_assocSet_other {β : Type} (entries : List (Int × β)) (k : Int) (v : β)
    (k1 : Int) (hk : k1 ≠ k) :
    assocGet (assocSet entries k v) k1 = assocGet entries k1 := by
  induction entries with
  | nil => simp [assocSet, assocGet, Ne.symm hk]
  | cons e rest ih =>
    obtain ⟨k0, v0⟩ := e
    by_cases h : k0 = k
    · subst h
      simp [assocSet, assocGet, Ne.symm hk]
    · by_cases h1 : k0 = k1
      · subst h1
        simp [assocSet, assocGet, h]
      · simp [assocSet, assocGet, h, h1, ih]

theorem assocGet_assocErase_same {β : Type} (entries : List (Int × β)) (k : Int) :
    assocGet (assocErase entries k) k = none := by
  rw [assocGet_none_iff]
  intro h
  obtain ⟨e, he, hk⟩ := List.mem_map.1 h
  have := (List.mem_filter.1 he).2
  simp at this
  exact this hk

theorem assocGet_assocErase_other {β : Type} (entries : List (Int × β)) (k k1 : Int)
    (hk : k1 ≠ k) : assocGet (assocErase entries k) k1 = assocGet entries k1 := by
  have hf : ∀ xs : List (Int × β),
      assocErase xs k = xs.filter (fun entry => !decide (entry.1 = k)) := by
    intro xs
    simp [assocErase]
  rw [hf]
  induction entries with
  | nil => rfl
  | cons e rest ih =>
    obtain ⟨k0, v0⟩ := e
    by_cases h : k0 = k
    · subst h
      simp [List.filter_cons, assocGet, Ne.symm hk, ih]
    · by_cases h1 : k0 = k1
      · subst h1
        simp [List.filter_cons, assocGet, h]
      · simp [List.filter_cons, assocGet, h, h1, ih]

theorem assocErase_nodup {β : Type} (entries : List (Int × β)) (k : Int)
    (hnd : (entries.map Prod.fst).Nodup) : ((assocErase entries k).map Prod.fst).Nodup :=
  List.Nodup.sublist (List.Sublist.map Prod.fst (List.filter_sublist entries)) hnd

/-! ### One line per product -/

theorem addToCartLines_ids (cart : List CartLine) (P : Product) :
    (addToCartLines cart P).map (fun l => l.product_id)
      = if Pid.num P.product_id ∈ cart.map (fun l => l.product_id)
        then cart.map (fun l => l.product_id)
        else cart.map (fun l => l.product_id) ++ [Pid.num P.product_id] := by
  by_cases h : ∃ l ∈ cart, l.product_id = Pid.num P.product_id
  · have hmem : Pid.num P.product_id ∈ cart.map (fun l => l.product_id) := by
      obtain ⟨l, hl, hk⟩ := h
      exact List.mem_map.2 ⟨l, hl, hk⟩
    rw [addToCartLines_of_mem cart P h, if_pos hmem, List.map_map]
    apply List.map_congr_left
    intro l _
    by_cases hk : l.product_id = Pid.num P.product_id
    · simp [hk]
    · simp [hk]
  · have hmem : Pid.num P.product_id ∉ cart.map (fun l => l.product_id) := by
      intro hm
      obtain ⟨l, hl, hk⟩ := List.mem_map.1 hm
      exact h ⟨l, hl, hk⟩
    rw [addToCartLines_of_not_mem cart P h, if_neg hmem, List.map_append]
    rfl

theorem addToCartLines_nodup (cart : List CartLine) (P : Product)
    (h : (cart.map (fun l => l.product_id)).Nodup) :
    ((addToCartLines cart P).map (fun l => l.product_id)).Nodup := by
  rw [addToCartLines_ids]
  split
  · exact h
  · next hmem =>
    rw [List.nodup_append]
    refine ⟨h, by simp, ?_⟩
    intro a ha hb
    simp only [List.mem_singleton] at hb
    subst hb
    exact hmem ha

theorem removeFromCartLines_nodup (cart : List CartLine) (k : Pid)
    (h : (cart.map (fun l => l.product_id)).Nodup) :
    ((removeFromCartLines cart k).map (fun l => l.product_id)).Nodup :=
  List.Nodup.sublist (List.Sublist.map _ (List.filter_sublist cart)) h

theorem mergeOne_ids (cart : List CartLine) (x : CartLine) :
    (mergeOne cart x).map (fun l => l.product_id)
      = if x.product_id ∈ cart.map (fun l => l.product_id)
        then cart.map (fun l => l.product_id)
        else cart.map (fun l => l.product_id) ++ [x.product_id] := by
  induction cart with
  | nil => simp [mergeOne_nil]
  | cons l ls ih =>
    rw [mergeOne_cons]
    by_cases hk : l.product_id = x.product_id
    · simp [hk]
    · rw [if_neg hk, List.map_cons, ih]
      have hne : ¬ x.product_id = l.product_id := fun h => hk h.symm
      by_cases hm : x.product_id ∈ ls.map (fun l => l.product_id)
      · simp [hm]
      · simp [hm, hne]

theorem mergeOne_nodup (cart : List CartLine) (x : CartLine)
    (h : (cart.map (fun l => l.product_id)).Nodup) :
    ((mergeOne cart x).map (fun l => l.product_id)).Nodup := by
  rw [mergeOne_ids]
  split
  · exact h
  · next hmem =>
    rw [List.nodup_append]
    refine ⟨h, by simp, ?_⟩
    intro a ha hb
    simp only [List.mem_singleton] at hb
    subst hb
    exact hmem ha

theorem mergeIntent_nodup (cart hydrated : List CartLine)
    (h : (cart.map (fun l => l.product_id)).Nodup) :
    ((mergeIntent cart hydrated).map (fun l => l.product_id)).Nodup := by
  induction hydrated generalizing cart with
  | nil => exact h
  | cons x xs ih => exact ih (mergeOne cart x) (mergeOne_nodup cart x h)

theorem intentEffect_nodup (jsonParse : String → Option IntentJson)
    (authUser : Option AuthUser) (products : List Product) (s : Dash)
    (h : (s.cartItems.map (fun l => l.product_id)).Nodup) :
    ((pendingIntentEffect jsonParse authUser products s).cartItems.map
      (fun l => l.product_id)).Nodup := by
  rcases (intentEffect_frame jsonParse authUser products s).1 with ⟨hc, _⟩ | ⟨⟨items, hc⟩, _⟩
  · rw [hc]; exact h
  · rw [hc]; exact mergeIntent_nodup _ _ h

/-! ### Replaying a snapshot of the landing page -/

theorem mergeIntent_of_nodup (cart hydrated : List CartLine)
    (h : ((cart ++ hydrated).map (fun l => l.product_id)).Nodup) :
    mergeIntent cart hydrated = cart ++ hydrated := by
  induction hydrated generalizing cart with
  | nil => simp [mergeIntent]
  | cons x xs ih =>
    have hx : ∀ l ∈ cart, l.product_id ≠ x.product_id := by
      intro l hl hk
      rw [List.map_append, List.nodup_append] at h
      exact h.2.2 (List.mem_map.2 ⟨l, hl, rfl⟩)
        (List.mem_map.2 ⟨x, List.mem_cons_self _ _, hk.symm⟩)
    have hstep : mergeIntent cart (x :: xs) = mergeIntent (mergeOne cart x) xs := rfl
    rw [hstep, mergeOne_of_not_mem cart x hx, ih (cart ++ [x]) (by simpa using h)]
    simp

theorem mapIdx_eq_map {α β : Type} (f : Nat → α → β) (g : α → β) (l : List α)
    (h : ∀ i, ∀ x ∈ l, f i x = g x) : l.mapIdx f = l.map g := by
  apply List.ext_getElem?
  intro i
  rw [List.getElem?_mapIdx, List.getElem?_map]
  cases hx : l[i]? with
  | none => rfl
  | some x =>
    simp only [Option.map_some']
    rw [h i x (List.getElem?_mem hx)]

/-- An intent item whose id is in the catalog becomes a line of that product. -/
theorem hydrateItem_resolved (products : List Product) (i : Nat) (item : IntentItem) (n : Int)
    (hid : item.product_id = some n) (h : ∃ p ∈ products, p.product_id = n) :
    ∃ M ∈ products, M.product_id = n
      ∧ hydrateItem products i item
        = { product_id := Pid.num n, name := M.name, price := M.price,
            quantity := max 1 (numOr item.qty 1), unavailable := false,
            requires_subscription := some M.subscription_only } := by
  obtain ⟨q, hq⟩ := @mapGet_of_mem Product Int _ (fun p => p.product_id) products n h
  have hqn : q.product_id = n := (mapGet_some hq).2
  exact ⟨q, (mapGet_some hq).1, hqn, by simp [hydrateItem, matchProduct, hid, hq, hqn]⟩

theorem cartEntries_ids_nodup (featuredProducts : List FeaturedProduct)
    (miniCart : List (Int × Int)) (h : (featuredProducts.map (fun item => item.id)).Nodup) :
    ((cartEntries featuredProducts miniCart).map (fun e => e.id)).Nodup := by
  unfold cartEntries
  refine List.Nodup.sublist (List.Sublist.map _ (List.filter_sublist _)) ?_
  rw [List.map_map]
  exact h

theorem cartEntries_qty_pos (featuredProducts : List FeaturedProduct)
    (miniCart : List (Int × Int)) :
    ∀ e ∈ cartEntries featuredProducts miniCart, 0 < e.qty := by
  intro e he
  have := (List.mem_filter.1 he).2
  simpa using this

/-- The lines hydrated from the snapshot of a list of entries, when the catalog
has a product for every entry. -/
theorem hydrated_snapshot (products : List Product) (entries : List CartEntry)
    (hpos : ∀ e ∈ entries, 0 < e.qty)
    (hcat : ∀ e ∈ entries, ∃ p ∈ products, p.product_id = e.id) :
    hydratedItems products ((checkoutItems entries).map readIntentItem)
      = entries.map (fun e =>
          hydrateItem products 0
            (readIntentItem
              { product_id := e.id, name := e.title, qty := e.qty, priceValue := e.priceValue }))
    ∧ ∀ e ∈ entries, ∃ M ∈ products, M.product_id = e.id
        ∧ hydrateItem products 0
            (readIntentItem
              { product_id := e.id, name := e.title, qty := e.qty, priceValue := e.priceValue })
          = { product_id := Pid.num e.id, name := M.name, price := M.price, quantity := e.qty,
              unavailable := false, requires_subscription := some M.subscription_only } := by
  have hline : ∀ i, ∀ e ∈ entries, ∃ M ∈ products, M.product_id = e.id
      ∧ hydrateItem products i
          (readIntentItem
            { product_id := e.id, name := e.title, qty := e.qty, priceValue := e.priceValue })
        = { product_id := Pid.num e.id, name := M.name, price := M.price, quantity := e.qty,
            unavailable := false, requires_subscription := some M.subscription_only } := by
    intro i e he
    obtain ⟨M, hM, hid, hval⟩ := hydrateItem_resolved products i
      (readIntentItem
        { product_id := e.id, name := e.title, qty := e.qty, priceValue := e.priceValue })
      e.id rfl (hcat e he)
    refine ⟨M, hM, hid, ?_⟩
    rw [hval]
    have hq : max 1 (numOr (some e.qty) 1) = e.qty := by
      rw [max_one_numOr]
      have := hpos e he
      omega
    simp only [readIntentItem, hq]
  refine ⟨?_, hline 0⟩
  unfold hydratedItems checkoutItems
  rw [List.map_map, ← List.map_map]
  rw [mapIdx_eq_map (hydrateItem products) (hydrateItem products 0)]
  · rw [List.map_map, List.map_map]
    rfl
  · intro i x hx
    obtain ⟨e, he, rfl⟩ := List.mem_map.1 hx
    obtain ⟨e0, he0, rfl⟩ := List.mem_map.1 he
    obtain ⟨M, _, _, h1⟩ := hline i e0 he0
    obtain ⟨M0, _, _, h0⟩ := hline 0 e0 he0
    have hi := hydrateItem_by_id products i
      (readIntentItem
        { product_id := e0.id, name := e0.title, qty := e0.qty, priceValue := e0.priceValue })
      e0.id rfl (hcat e0 he0)
    simp only [hydrateItem, readIntentItem] at h1 h0 ⊢
    cases hm : matchProduct products
      { product_id := some e0.id, name := some e0.title, qty := some e0.qty,
        priceValue := some e0.priceValue } with
    | none =>
      simp only [hydrateItem, readIntentItem, hm] at hi
      cases hi
    | some M1 => rfl

/-! ### The open form and the card number -/

theorem sampleOpen_reachable :
    Reachable sampleParse (some sampleUser) sampleCatalog sampleOpen :=
  Reachable.step Action.openCartCheckout
    (Reachable.step (Action.addToCart curd)
      (Reachable.step (Action.addToCart productX)
        (Reachable.step (Action.addToCart productX)
          (Reachable.step Action.dataLoaded (Reachable.init none) trivial)
          ⟨by decide, rfl⟩)
        ⟨by decide, rfl⟩)
      ⟨by decide, rfl⟩)
    trivial

theorem cartTotal_of_available (cart : List CartLine)
    (h : ∀ l ∈ cart, l.unavailable = false ∧ truthy l.requires_subscription = false) :
    availableCartItems cart = cart
    ∧ cartTotal cart = (cart.map (fun l => l.price * l.quantity)).sum := by
  have h1 : availableCartItems cart = cart := by
    unfold availableCartItems
    rw [List.filter_eq_self]
    intro l hl
    simp [(h l hl).1, (h l hl).2]
  have h2 : cart.filter (fun item => !item.unavailable) = cart := by
    rw [List.filter_eq_self]
    intro l hl
    simp [(h l hl).1]
  refine ⟨h1, ?_⟩
  unfold cartTotal
  rw [h2]
  exact foldl_add_eq_sum (fun l : CartLine => l.price * l.quantity) cart

theorem card_tail (digits : List Char) :
    digits.drop (digits.length - 4) = digits.drop (digits.length - min 4 digits.length)
    ∧ (digits.drop (digits.length - 4)).length = min 4 digits.length
    ∧ ((digits.drop (digits.length - 4)).isEmpty = true ↔ digits = [])
    ∧ ∀ pre tail, digits = pre ++ tail → tail.length = 4 →
        digits.drop (digits.length - 4) = tail := by
  refine ⟨?_, ?_, ?_, ?_⟩
  · congr 1
    omega
  · rw [List.length_drop]
    omega
  · rw [List.isEmpty_iff, List.drop_eq_nil_iff]
    constructor
    · intro h
      apply List.eq_nil_of_length_eq_zero
      omega
    · intro h
      simp [h]
  · intro pre tail hd ht
    subst hd
    rw [List.length_append, ht, Nat.add_sub_cancel, List.drop_left]

/-! ### Management pages -/

theorem parseStored_throws (jsonParse : String → Option Json) (raw : String) (fallback : Json)
    (hne : raw ≠ "") (h : jsonParse raw = none) :
    parseStored jsonParse (some raw) fallback = none := by
  simp [parseStored, hne, h]

theorem collectionRows_bare (count : Option Nat) (records : List Record) :
    collectionRows (CollectionData.envelope count records)
      = collectionRows (CollectionData.bare records) := rfl

theorem statCount_envelope (records : List Record) :
    statCount (CollectionData.envelope none records) = records.length := rfl

theorem statCount_bare (records : List Record) :
    statCount (CollectionData.bare records) = 0 := rfl

theorem handleSubmit_saved (page : CrudPage) (jsonParse : String → Option Json)
    (save : SaveKind → Except (Option ErrorData) Unit) (getAll : Except String CollectionData)
    (s : CrudState) (hreq : requiredFieldsAlert page s = none)
    (hbody : bodyThrows page jsonParse s = false)
    (hsave : save (if jsTruthy s.editingId then SaveKind.update s.editingId else SaveKind.create)
      = Except.ok ()) :
    handleSubmit page jsonParse save getAll s
      = SubmitOutcome.resolved
          (fetchRows page getAll
            { s with
              alerts := s.alerts ++ [if jsTruthy s.editingId then page.updated else page.created]
              showModal := false })
          (some (if jsTruthy s.editingId then SaveKind.update s.editingId
            else SaveKind.create)) := by
  simp [handleSubmit, hreq, hbody, hsave]

theorem handleSubmit_cases (page : CrudPage) (jsonParse : String → Option Json)
    (save : SaveKind → Except (Option ErrorData) Unit) (getAll : Except String CollectionData)
    (s : CrudState) :
    (∃ message, handleSubmit page jsonParse save getAll s
        = SubmitOutcome.resolved { s with alerts := s.alerts ++ [message] } none)
    ∨ (save (if jsTruthy s.editingId then SaveKind.update s.editingId else SaveKind.create)
          = Except.ok ()
        ∧ handleSubmit page jsonParse save getAll s
          = SubmitOutcome.resolved
              (fetchRows page getAll
                { s with
                  alerts := s.alerts
                    ++ [if jsTruthy s.editingId then page.updated else page.created]
                  showModal := false })
              (some (if jsTruthy s.editingId then SaveKind.update s.editingId
                else SaveKind.create)))
    ∨ (∃ data, save (if jsTruthy s.editingId then SaveKind.update s.editingId
            else SaveKind.create) = Except.error data
        ∧ handleSubmit page jsonParse save getAll s
          = SubmitOutcome.resolved { s with alerts := s.alerts ++ [saveErrorAlert page data] }
              (some (if jsTruthy s.editingId then SaveKind.update s.editingId
                else SaveKind.create))) := by
  cases hreq : requiredFieldsAlert page s with
  | some message => exact Or.inl ⟨message, by simp [handleSubmit, hreq]⟩
  | none =>
    cases hbody : bodyThrows page jsonParse s with
    | true => exact Or.inl ⟨saveErrorAlert page none, by simp [handleSubmit, hreq, hbody]⟩
    | false =>
      cases hsave : save (if jsTruthy s.editingId then SaveKind.update s.editingId
          else SaveKind.create) with
      | ok u =>
        cases u
        exact Or.inr (Or.inl ⟨rfl, handleSubmit_saved page jsonParse save getAll s hreq hbody
          hsave⟩)
      | error data =>
        exact Or.inr (Or.inr ⟨data, rfl, by simp [handleSubmit, hreq, hbody, hsave]⟩)

theorem fetchRows_spec (page : CrudPage) (getAll : Except String CollectionData)
    (s : CrudState) :
    (fetchRows page getAll s).fetches = s.fetches + 1
    ∧ (fetchRows page getAll s).showModal = s.showModal
    ∧ (∀ data, getAll = Except.ok data → (fetchRows page getAll s).rows = collectionRows data)
    ∧ (∀ reason, getAll = Except.error reason → (fetchRows page getAll s).rows = s.rows) := by
  cases getAll with
  | ok data =>
    refine ⟨rfl, rfl, ?_, ?_⟩
    · intro d hd; cases hd; rfl
    · intro r hr; cases hr
  | error reason =>
    refine ⟨rfl, rfl, ?_, ?_⟩
    · intro d hd; cases hd
    · intro r hr; rfl

/-! ### Search and lower-casing -/

theorem flatMap_infix {α β : Type} (f : α → List β) (xs hay : List α) (h : xs <:+: hay) :
    xs.flatMap f <:+: hay.flatMap f := by
  obtain ⟨pre, post, hcat⟩ := h
  exact ⟨pre.flatMap f, post.flatMap f, by rw [← hcat, List.flatMap_append, List.flatMap_append]⟩

theorem toLowerCase_flatMap (s : String) :
    (toLowerCase s).data = s.data.flatMap (fun ch => [ch.toLower]) := by
  simp only [toLowerCase]
  induction s.data with
  | nil => rfl
  | cons ch rest ih => simp [List.flatMap_cons, ih]

/-! ### Quantities of the merge -/

theorem mergeOne_nonneg (cart : List CartLine) (x : CartLine)
    (hcart : ∀ l ∈ cart, 0 ≤ l.quantity) (hx : 0 ≤ x.quantity) :
    ∀ l ∈ mergeOne cart x, 0 ≤ l.quantity := by
  by_cases h : ∃ l ∈ cart, l.product_id = x.product_id
  · obtain ⟨pre, l0, post, hc, _, _, hm⟩ := mergeOne_of_mem cart x h
    rw [hm]
    intro l hl
    have hl0 : 0 ≤ l0.quantity := hcart l0 (by rw [hc]; simp)
    rcases List.mem_append.1 hl with hl | hl
    · exact hcart l (by rw [hc]; exact List.mem_append_left _ hl)
    · rcases List.mem_cons.1 hl with rfl | hl
      · show 0 ≤ l0.quantity + x.quantity
        omega
      · exact hcart l (by rw [hc]; exact List.mem_append_right _ (List.mem_cons_of_mem _ hl))
  · have h' : ∀ l ∈ cart, l.product_id ≠ x.product_id := fun l hl hk => h ⟨l, hl, hk⟩
    rw [mergeOne_of_not_mem cart x h']
    intro l hl
    rcases List.mem_append.1 hl with hl | hl
    · exact hcart l hl
    · have : l = x := by simpa using hl
      rw [this]; exact hx

theorem mergeIntent_nonneg (cart hs : List CartLine)
    (hcart : ∀ l ∈ cart, 0 ≤ l.quantity) (hpos : ∀ x ∈ hs, 0 ≤ x.quantity) :
    ∀ l ∈ mergeIntent cart hs, 0 ≤ l.quantity := by
  induction hs generalizing cart with
  | nil => exact hcart
  | cons x xs ih =>
    exact ih (mergeOne cart x)
      (mergeOne_nonneg cart x hcart (hpos x (List.mem_cons_self _ _)))
      (fun y hy => hpos y (List.mem_cons_of_mem _ hy))

theorem quantity_le_cartQuantity (cart : List CartLine) (hcart : ∀ l ∈ cart, 0 ≤ l.quantity) :
    ∀ l ∈ cart, l.quantity ≤ cartQuantity cart := by
  intro l hl
  rw [cartQuantity_eq_sum]
  apply List.single_le_sum
  · intro q hq
    obtain ⟨m, hm, rfl⟩ := List.mem_map.1 hq
    exact hcart m hm
  · exact List.mem_map.2 ⟨l, hl, rfl⟩

theorem sum_take_le (qs : List Int) (hq : ∀ q ∈ qs, 0 ≤ q) (j : Nat) :
    (qs.take j).sum ≤ qs.sum := by
  conv_rhs => rw [← List.take_append_drop j qs]
  rw [List.sum_append]
  have : 0 ≤ (qs.drop j).sum :=
    List.sum_nonneg (fun q hq' => hq q (List.mem_of_mem_drop hq'))
  omega

/-! # Claims -/

/-- Claim C1 (subscription-only guard).  Over a catalog whose product ids are
unique, let `P` be a catalog product with `subscription_only = true` and `s` any
dashboard state reachable by the events of the page (among them add-to-cart for
products that are not subscription-only, the pending-intent replay, and remove).
Whatever the payment form, the clock and the backend are, if
`handleCartCheckoutPayment` sends a request, then no entry of its `items` list
carries the `product_id` of `P`. -/
theorem subscription_only_never_sent (jsonParse : String → Option IntentJson)
    (authUser : Option AuthUser) (products : List Product) (P : Product) (s : Dash)
    (clock : Clock) (backend : Payload → Except CheckoutError CheckoutResponse) (pl : Payload)
    (hkeys : (products.map (fun p => p.product_id)).Nodup)
    (hP : P ∈ products) (hsub : P.subscription_only = true)
    (hs : Reachable jsonParse authUser products s)
    (hsent : (handleCartCheckoutPayment authUser clock backend s).2 = some pl) :
    ∀ it ∈ pl.items, it.product_id ≠ Pid.num P.product_id := by
  obtain ⟨user, _, _, rfl⟩ := (checkout_frame authUser clock backend s).2.2.2.2.2.2 pl hsent
  intro it hit hid
  simp only [checkoutPayload, List.mem_map] at hit
  obtain ⟨l, hl, rfl⟩ := hit
  obtain ⟨hmem, hflags⟩ := List.mem_filter.1 hl
  have := reachable_subscription_flag P hkeys hP hsub hs l hmem hid
  simp [this] at hflags

/-- Witness of C1: with the subscription-only line of "Daily Milk" in the cart, the
request carries the lines of "X" and "Curd" only. -/
theorem subscription_only_never_sent_witness :
    (handleCartCheckoutPayment (some sampleUser) sampleClock sampleBackend sampleReady).2
        = some
            { customer_id := 7
              items := [{ product_id := Pid.num 1, quantity := 2 },
                        { product_id := Pid.num 2, quantity := 1 }]
              payment_method := "cod", card_number := none, expiry := none, cvv := none,
              upi_id := none, bank_name := none }
    ∧ ∀ it ∈ ([{ product_id := Pid.num 1, quantity := 2 },
               { product_id := Pid.num 2, quantity := 1 }] : List PayloadItem),
        it.product_id ≠ Pid.num dailyMilk.product_id :=
  ⟨by decide,
    subscription_only_never_sent sampleParse (some sampleUser) sampleCatalog dailyMilk sampleReady
      sampleClock sampleBackend
      { customer_id := 7
        items := [{ product_id := Pid.num 1, quantity := 2 },
                  { product_id := Pid.num 2, quantity := 1 }]
        payment_method := "cod", card_number := none, expiry := none, cvv := none,
        upi_id := none, bank_name := none }
      (by decide) (by decide) rfl sampleReady_reachable (by decide)⟩

/-- Claim C2 (cart merge).  For a cart with at most one line per `product_id`,
`handleAddToCart(P)` leaves exactly one line for `P`: when a line for `P` exists
the cart keeps its length, that line gets quantity + 1 and every other line is
unchanged; otherwise one line with quantity 1 and `unavailable = false` is
appended.  Adding the same product twice to an empty cart gives one line with
quantity 2. -/
theorem handleAddToCart_merges (s : Dash) (P : Product)
    (hcart : (s.cartItems.map (fun l => l.product_id)).Nodup) :
    (((handleAddToCart s P).cartItems.filter
        (fun l => decide (l.product_id = Pid.num P.product_id))).length = 1)
    ∧ ((∃ l ∈ s.cartItems, l.product_id = Pid.num P.product_id) →
        (handleAddToCart s P).cartItems.length = s.cartItems.length ∧
        ∀ i : Nat, (handleAddToCart s P).cartItems[i]? =
          (s.cartItems[i]?).map (fun l =>
            if l.product_id = Pid.num P.product_id
            then { l with quantity := l.quantity + 1 } else l))
    ∧ ((¬ ∃ l ∈ s.cartItems, l.product_id = Pid.num P.product_id) →
        (handleAddToCart s P).cartItems =
          s.cartItems ++
            [{ product_id := Pid.num P.product_id, name := P.name, price := P.price,
               quantity := 1, unavailable := false, requires_subscription := none }])
    ∧ (handleAddToCart (handleAddToCart { s with cartItems := [] } P) P).cartItems =
        [{ product_id := Pid.num P.product_id, name := P.name, price := P.price,
           quantity := 2, unavailable := false, requires_subscription := none }] := by
  refine ⟨?_, ?_, ?_, ?_⟩
  · show ((addToCartLines s.cartItems P).filter _).length = 1
    by_cases h : ∃ l ∈ s.cartItems, l.product_id = Pid.num P.product_id
    · rw [addToCartLines_of_mem _ _ h, filter_id_map_incr]
      exact filter_id_length_of_nodup _ _ hcart h
    · rw [addToCartLines_of_not_mem _ _ h, List.filter_append]
      have : s.cartItems.filter (fun l => decide (l.product_id = Pid.num P.product_id)) = [] := by
        rw [List.filter_eq_nil_iff]
        intro m hm hmk
        exact h ⟨m, hm, by simpa using hmk⟩
      simp [this, newCartLine]
  · intro h
    show (addToCartLines s.cartItems P).length = _ ∧ ∀ i : Nat, (addToCartLines s.cartItems P)[i]? = _
    rw [addToCartLines_of_mem _ _ h]
    exact ⟨List.length_map _ _, fun i => List.getElem?_map _ _ _⟩
  · intro h
    show addToCartLines s.cartItems P = _
    rw [addToCartLines_of_not_mem _ _ h]; rfl
  · show addToCartLines (addToCartLines [] P) P = _
    simp [addToCartLines, newCartLine]

/-- Witness of C2: adding "X" to a cart that holds "X" twice and "Curd" once. -/
theorem handleAddToCart_merges_witness :
    ((handleAddToCart sampleOpen productX).cartItems.filter
        (fun l => decide (l.product_id = Pid.num productX.product_id))).length = 1 :=
  (handleAddToCart_merges sampleOpen productX (by decide)).1

/-- Counterexample to C3 as stated: the field "ΑΣ" holds the substring "Σ", and
the search term "Σ" is a case variant of it (it is the same text); but the
field lower-cases to "ας", with the final sigma, and the term to "σ", so the
record is not in `filteredData`. -/
theorem final_sigma_drops_record :
    "Σ".data <:+: (JVal.str "ΑΣ").toStr.data
    ∧ sigmaLower "ΑΣ" = "ας"
    ∧ sigmaLower "Σ" = "σ"
    ∧ ([("name", JVal.str "ΑΣ")] : Record)
        ∉ filteredData sigmaLower [[("name", JVal.str "ΑΣ")]] "Σ" := by
  decide

/-- Claim C3, amended (search filter).  Whatever `toLowerCase` does: a record is
in `filteredData` exactly when it is in the data and the lower-cased search term
is a substring of the lower-cased text `String(v)` of one of its field values
`v`; and `filteredData` is a sublist of the data, so the records keep their
relative order.  A term that is a case variant of a substring `T` of a field
text keeps the record whenever lower-casing acts character by character on that
field text and its substrings, as it does on ASCII text. -/
theorem search_filter (lowerCase : String → String) (data : List Record) (S : String) :
    (∀ R : Record, R ∈ filteredData lowerCase data S ↔
        R ∈ data ∧ ∃ v ∈ objectValues R, (lowerCase S).data <:+: (lowerCase v.toStr).data)
    ∧ (∀ R ∈ data, ∀ v ∈ objectValues R, ∀ (T : String) (f : Char → List Char),
        T.data <:+: v.toStr.data → lowerCase S = lowerCase T →
        (∀ s : String, s.data <:+: v.toStr.data → (lowerCase s).data = s.data.flatMap f) →
        R ∈ filteredData lowerCase data S)
    ∧ List.Sublist (filteredData lowerCase data S) data := by
  have key : ∀ R : Record, R ∈ filteredData lowerCase data S ↔
      R ∈ data ∧ ∃ v ∈ objectValues R,
        (lowerCase S).data <:+: (lowerCase v.toStr).data := by
    intro R
    simp [filteredData, matchesSearch, includes, List.mem_filter]
  refine ⟨key, ?_, List.filter_sublist _⟩
  intro R hR v hv T f hT hST hf
  rw [key]
  refine ⟨hR, v, hv, ?_⟩
  rw [hST, hf T hT, hf v.toStr List.infix_rfl]
  exact flatMap_infix f _ _ hT

/-- Witness of C3: with the lower-casing of ASCII letters, the term "cREAM"
keeps the record named "Full Cream Milk". -/
theorem search_filter_witness :
    ([("name", JVal.str "Full Cream Milk"), ("price", JVal.num 52)] : Record)
      ∈ filteredData toLowerCase
          [[("name", JVal.str "Full Cream Milk"), ("price", JVal.num 52)],
           [("name", JVal.str "Curd"), ("price", JVal.num 68)]] "cREAM" :=
  (search_filter toLowerCase
    [[("name", JVal.str "Full Cream Milk"), ("price", JVal.num 52)],
     [("name", JVal.str "Curd"), ("price", JVal.num 68)]] "cREAM").2.1
    [("name", JVal.str "Full Cream Milk"), ("price", JVal.num 52)] (by decide)
    (JVal.str "Full Cream Milk") (by decide) "Cream" (fun ch => [ch.toLower]) (by decide)
    (by decide) (fun s _ => toLowerCase_flatMap s)

/-- Counterexample to claim C4 as stated: an intent item whose requested name is the
empty text, over an empty catalog, is kept as an unavailable line, but its name
is "Unknown Product" and not the requested name. -/
theorem replay_empty_name_counterexample :
    hydratedItems []
        [{ product_id := none, name := some "", qty := some 2, priceValue := some 40 }]
      = [{ product_id := Pid.str "missing--0", name := "Unknown Product", price := 40,
           quantity := 2, unavailable := true, requires_subscription := some false }]
    ∧ ("Unknown Product" : String) ≠ "" := by
  decide

/-- Claim C4 (pending-intent replay), amended.  The hydrated list has one line per
intent item.  The line of an item has quantity `max(1, qty)` (1 when `qty` is
missing).  If some catalog product has the id of the item or its normalized
name, the line carries the id and the name of such a product (of one with the id
of the item, if there is one) and `unavailable = false`.  Otherwise the line has
`unavailable = true`, and its name is the requested name when that is not empty,
and "Unknown Product" when the requested name is empty or missing. -/
theorem hydratedItems_replay (products : List Product) (intentItems : List IntentItem) :
    (hydratedItems products intentItems).length = intentItems.length
    ∧ ∀ (i : Nat) (item : IntentItem), intentItems[i]? = some item →
        ∃ line, (hydratedItems products intentItems)[i]? = some line
          ∧ (∀ q : Int, item.qty = some q → line.quantity = max 1 q)
          ∧ (item.qty = none → line.quantity = 1)
          ∧ (∀ n : Int, item.product_id = some n → (∃ p ∈ products, p.product_id = n) →
              line.product_id = Pid.num n)
          ∧ ((∃ p ∈ products, item.product_id = some p.product_id ∨
                normalizeName p.name = normalizeName (orStr item.name "")) →
              ∃ p ∈ products,
                (item.product_id = some p.product_id ∨
                  normalizeName p.name = normalizeName (orStr item.name ""))
                ∧ line.product_id = Pid.num p.product_id ∧ line.name = p.name
                ∧ line.unavailable = false)
          ∧ ((¬ ∃ p ∈ products, item.product_id = some p.product_id ∨
                normalizeName p.name = normalizeName (orStr item.name "")) →
              line.unavailable = true
                ∧ (∀ n : String, item.name = some n → n ≠ "" → line.name = n)
                ∧ ((item.name = none ∨ item.name = some "") → line.name = "Unknown Product")) := by
  refine ⟨by simp [hydratedItems], ?_⟩
  intro i item hi
  refine ⟨hydrateItem products i item, by simp [hydratedItems, hi], ?_, ?_, ?_, ?_, ?_⟩
  · intro q hq
    unfold hydrateItem
    cases matchProduct products item <;> simp [hq, max_one_numOr]
  · intro hq
    unfold hydrateItem
    cases matchProduct products item <;> simp [hq, numOr]
  · intro n hn hex
    exact hydrateItem_by_id products i item n hn hex
  · intro _
    cases hm : matchProduct products item with
    | none =>
      rename_i hex
      obtain ⟨p, hp, hor⟩ := hex
      exact absurd hor (matchProduct_none hm p hp)
    | some p =>
      obtain ⟨hp, hor⟩ := matchProduct_some hm
      exact ⟨p, hp, hor, by simp [hydrateItem, hm]⟩
  · intro hno
    cases hm : matchProduct products item with
    | some p =>
      obtain ⟨hp, hor⟩ := matchProduct_some hm
      exact absurd ⟨p, hp, hor⟩ hno
    | none =>
      refine ⟨by simp [hydrateItem, hm], ?_, ?_⟩
      · intro n hn hne
        simp [hydrateItem, hm, hn, orStr, hne]
      · intro hn
        rcases hn with hn | hn <;> simp [hydrateItem, hm, hn, orStr]

/-- Witness of C4: the stored list `[{name: "X", qty: 2}]` over a catalog with a
product named "X" gives a line for that product with quantity 2; a name that
differs in case and white space resolves to the same product, and a quantity of
0 becomes 1. -/
theorem hydratedItems_replay_witness :
    hydratedItems sampleCatalog
        [{ product_id := none, name := some "X", qty := some 2, priceValue := none }]
      = [{ product_id := Pid.num 1, name := "X", price := 52, quantity := 2,
           unavailable := false, requires_subscription := some false }]
    ∧ hydratedItems sampleCatalog
        [{ product_id := none, name := some "  daily \t MILK ", qty := some 0,
           priceValue := none }]
      = [{ product_id := Pid.num 3, name := "Daily Milk", price := 35, quantity := 1,
           unavailable := false, requires_subscription := some true }]
    ∧ ∃ line,
        (hydratedItems sampleCatalog
          [{ product_id := none, name := some "X", qty := some 2, priceValue := none }])[0]?
          = some line
        ∧ line.quantity = 2 := by
  refine ⟨by decide, by decide, ?_⟩
  obtain ⟨line, h1, h2, _⟩ :=
    (hydratedItems_replay sampleCatalog
      [{ product_id := none, name := some "X", qty := some 2, priceValue := none }]).2 0
      { product_id := none, name := some "X", qty := some 2, priceValue := none } rfl
  exact ⟨line, h1, h2 2 rfl⟩

/-- Claim C5 (the intent merge does not replace).  The numbers of the code are
doubles; the statement is for carts and intents whose quantities are not
negative and whose total is at most 2^53, the range in which the sums of the
code are exact.  After the merge of a hydrated intent list into such a cart,
every line of the cart is still at its position, with the same product, name and
price and at least its quantity.  The incoming lines are taken in order: a line
whose `product_id` is in the cart at that moment adds its quantity to the first
line with that id, any other line is appended.  The total quantity of the cart
grows by the sum of the incoming quantities, and at every moment of the merge
every quantity and the total stay between 0 and 2^53. -/
theorem intent_merge_keeps_cart (products : List Product) (previous : List CartLine)
    (intentItems : List IntentItem)
    (hnonneg : ∀ l ∈ previous, 0 ≤ l.quantity)
    (hsafe : cartQuantity previous
        + ((hydratedItems products intentItems).map (fun x => x.quantity)).sum
      ≤ 9007199254740992) :
    (∀ (i : Nat) (l : CartLine), previous[i]? = some l →
        ∃ l', (mergeIntent previous (hydratedItems products intentItems))[i]? = some l'
          ∧ l'.product_id = l.product_id ∧ l'.name = l.name ∧ l'.price = l.price
          ∧ l.quantity ≤ l'.quantity)
    ∧ (∀ (j : Nat) (x : CartLine), (hydratedItems products intentItems)[j]? = some x →
        ((∃ l ∈ mergeIntent previous ((hydratedItems products intentItems).take j),
              l.product_id = x.product_id) →
            ∃ pre l post,
              mergeIntent previous ((hydratedItems products intentItems).take j)
                = pre ++ l :: post
              ∧ (∀ m ∈ pre, m.product_id ≠ x.product_id) ∧ l.product_id = x.product_id
              ∧ mergeIntent previous ((hydratedItems products intentItems).take (j + 1))
                = pre ++ { l with quantity := l.quantity + x.quantity,
                                  unavailable := l.unavailable || x.unavailable } :: post)
        ∧ ((∀ l ∈ mergeIntent previous ((hydratedItems products intentItems).take j),
              l.product_id ≠ x.product_id) →
            mergeIntent previous ((hydratedItems products intentItems).take (j + 1))
              = mergeIntent previous ((hydratedItems products intentItems).take j) ++ [x]))
    ∧ cartQuantity (mergeIntent previous (hydratedItems products intentItems))
        = cartQuantity previous
          + ((hydratedItems products intentItems).map (fun x => x.quantity)).sum
    ∧ (∀ (j : Nat),
        cartQuantity (mergeIntent previous ((hydratedItems products intentItems).take j))
          ≤ 9007199254740992
        ∧ ∀ l ∈ mergeIntent previous ((hydratedItems products intentItems).take j),
            0 ≤ l.quantity ∧ l.quantity ≤ 9007199254740992) := by
  have hpos : ∀ x ∈ hydratedItems products intentItems, 0 ≤ x.quantity :=
    fun x hx => le_trans (by decide) (hydratedItems_quantity_pos products intentItems x hx)
  refine ⟨?_, ?_, cartQuantity_mergeIntent _ _, ?_⟩
  · exact mergeIntent_keeps previous _ hpos
  · intro j x hj
    rw [mergeIntent_take_succ previous _ j x hj]
    exact ⟨fun h => mergeOne_of_mem _ x h, fun h => mergeOne_of_not_mem _ x h⟩
  · intro j
    have hposj : ∀ x ∈ (hydratedItems products intentItems).take j, 0 ≤ x.quantity :=
      fun x hx => hpos x (List.mem_of_mem_take hx)
    have hmerged := mergeIntent_nonneg previous _ hnonneg hposj
    have htotal : cartQuantity
        (mergeIntent previous ((hydratedItems products intentItems).take j))
        ≤ 9007199254740992 := by
      rw [cartQuantity_mergeIntent, List.map_take]
      have := sum_take_le ((hydratedItems products intentItems).map (fun x => x.quantity))
        (by
          intro q hq
          obtain ⟨x, hx, rfl⟩ := List.mem_map.1 hq
          exact hpos x hx) j
      omega
    refine ⟨htotal, ?_⟩
    intro l hl
    have := quantity_le_cartQuantity _ hmerged l hl
    exact ⟨hmerged l hl, by omega⟩

/-- Witness of C5: a cart with one line of "X" keeps that line in front when the
sample intent is merged, and the total quantity grows from 1 to 4. -/
theorem intent_merge_keeps_cart_witness :
    (∃ l', (mergeIntent
            [{ product_id := Pid.num 1, name := "X", price := 52, quantity := 1,
               unavailable := false, requires_subscription := none }]
            (hydratedItems sampleCatalog sampleIntent))[0]? = some l'
      ∧ l'.product_id = Pid.num 1 ∧ l'.name = "X" ∧ l'.price = 52 ∧ 1 ≤ l'.quantity)
    ∧ cartQuantity (mergeIntent
            [{ product_id := Pid.num 1, name := "X", price := 52, quantity := 1,
               unavailable := false, requires_subscription := none }]
            (hydratedItems sampleCatalog sampleIntent)) = 4 :=
  ⟨(intent_merge_keeps_cart sampleCatalog
      [{ product_id := Pid.num 1, name := "X", price := 52, quantity := 1,
         unavailable := false, requires_subscription := none }] sampleIntent
      (by decide) (by decide)).1 0
      { product_id := Pid.num 1, name := "X", price := 52, quantity := 1,
        unavailable := false, requires_subscription := none } rfl,
    ((intent_merge_keeps_cart sampleCatalog
      [{ product_id := Pid.num 1, name := "X", price := 52, quantity := 1,
         unavailable := false, requires_subscription := none }] sampleIntent
      (by decide) (by decide)).2.2.1).trans (by decide)⟩

/-- Counterexample to claim C6 as stated: with the empty text stored under the key,
one run of the effect reads the storage and marks the intent handled, and the
stored value is still there. -/
theorem intent_empty_text_left_in_storage :
    (Dash.init (some "")).storage = some ""
    ∧ (Dash.init (some "")).intentHandled = false
    ∧ (pendingIntentEffect sampleParse (some sampleUser) sampleCatalog
        (Dash.init (some ""))).storageReads = 1
    ∧ (pendingIntentEffect sampleParse (some sampleUser) sampleCatalog
        (Dash.init (some ""))).intentHandled = true
    ∧ (pendingIntentEffect sampleParse (some sampleUser) sampleCatalog
        (Dash.init (some ""))).storage = some "" := by
  decide

/-- Claim C6 (the intent is consumed once), amended.  Once `intentHandled` is true
the effect changes nothing (no read of the storage, no change of the cart) and
no event makes `intentHandled` false again.  A run of the effect that finds a
stored value other than the empty text and marks the intent handled has removed
the key: this is what happens, for a signed-in user, on malformed JSON, on a
value that is not an array and on an empty array (the cart is unchanged), and on
a non-empty array once the data has loaded (the cart is the merge).  So in every
reachable state with `intentHandled` true the storage is empty or holds the
empty text. -/
theorem intent_consumed_once (jsonParse : String → Option IntentJson)
    (authUser : Option AuthUser) (products : List Product) (s : Dash) :
    (s.intentHandled = true →
        pendingIntentEffect jsonParse authUser products s = s
        ∧ ∀ a : Action, (step jsonParse authUser products s a).intentHandled = true)
    ∧ (s.intentHandled = false →
        (pendingIntentEffect jsonParse authUser products s).intentHandled = true →
        ∀ raw, s.storage = some raw → raw ≠ "" →
          (pendingIntentEffect jsonParse authUser products s).storage = none)
    ∧ (∀ (user : AuthUser) (raw : String), authUser = some user → user.id ≠ 0 →
        s.intentHandled = false → s.storage = some raw → raw ≠ "" →
        ((jsonParse raw = none ∨ jsonParse raw = some IntentJson.other
            ∨ jsonParse raw = some (IntentJson.array [])) →
          (pendingIntentEffect jsonParse authUser products s).intentHandled = true
          ∧ (pendingIntentEffect jsonParse authUser products s).storage = none
          ∧ (pendingIntentEffect jsonParse authUser products s).cartItems = s.cartItems)
        ∧ (∀ items, jsonParse raw = some (IntentJson.array items) → items ≠ [] →
            s.loading = false →
          (pendingIntentEffect jsonParse authUser products s).intentHandled = true
          ∧ (pendingIntentEffect jsonParse authUser products s).storage = none
          ∧ (pendingIntentEffect jsonParse authUser products s).cartItems
              = mergeIntent s.cartItems (hydratedItems products items)))
    ∧ (Reachable jsonParse authUser products s → s.intentHandled = true →
        s.storage = none ∨ s.storage = some "") := by
  refine ⟨?_, (intentEffect_frame jsonParse authUser products s).2, ?_,
    fun hs => reachable_storage hs⟩
  · intro h
    exact ⟨intentEffect_handled _ _ _ _ h, fun a => step_keeps_handled _ _ _ s a h⟩
  · intro user raw hu hid hnot hst hne
    subst hu
    refine ⟨?_, ?_⟩
    · intro hp
      rw [intentEffect_discard jsonParse user products s raw hid hnot hst hne hp]
      exact ⟨rfl, rfl, rfl⟩
    · intro items hp hitems hload
      rw [intentEffect_merge jsonParse user products s raw items hid hnot hst hne hp hitems hload]
      exact ⟨rfl, rfl, rfl⟩

/-- Witness of C6: a stored text that is not JSON is removed. -/
theorem intent_consumed_once_witness :
    (pendingIntentEffect sampleParse (some sampleUser) sampleCatalog
      (Dash.init (some "not json"))).storage = none :=
  (intent_consumed_once sampleParse (some sampleUser) sampleCatalog
    (Dash.init (some "not json"))).2.1 rfl (by decide) "not json" rfl (by decide)

/-- Claim C7 (receipt totals).  When `handleCartCheckoutPayment` sends a request
and the backend confirms it, the request carries the available cart lines, and
the receipt has one line per line sent with `lineTotal = unitPrice × quantity`,
`subtotal` the sum of price × quantity over the lines sent, `tax = 0` and
`total = subtotal`. -/
theorem receipt_totals (authUser : Option AuthUser) (clock : Clock)
    (backend : Payload → Except CheckoutError CheckoutResponse) (s : Dash) (pl : Payload)
    (response : CheckoutResponse)
    (hsent : (handleCartCheckoutPayment authUser clock backend s).2 = some pl)
    (hok : backend pl = Except.ok response) :
    pl.items = (availableCartItems s.cartItems).map
        (fun l => { product_id := l.product_id, quantity := l.quantity })
    ∧ ∃ r, (handleCartCheckoutPayment authUser clock backend s).1.successReceipt = some r
      ∧ r.subtotal = ((availableCartItems s.cartItems).map (fun l => l.price * l.quantity)).sum
      ∧ r.items = (availableCartItems s.cartItems).map
          (fun l => { name := l.name, quantity := l.quantity, unitPrice := l.price,
                      lineTotal := l.price * l.quantity })
      ∧ (∀ it ∈ r.items, it.lineTotal = it.unitPrice * it.quantity)
      ∧ r.tax = 0 ∧ r.total = r.subtotal := by
  obtain ⟨user, rfl, hv, rfl⟩ := (checkout_frame authUser clock backend s).2.2.2.2.2.2 pl hsent
  have hav : availableCartItems s.cartItems ≠ [] := by
    intro h
    rw [checkout_nothing_available _ clock backend s hv h] at hsent
    cases hsent
  rw [checkout_success user clock backend s response hv hav hok]
  refine ⟨rfl, _, rfl, ?_, rfl, ?_, rfl, rfl⟩
  · exact foldl_add_eq_sum (fun l : CartLine => l.price * l.quantity) _
  · intro it hit
    simp only [cartReceipt, List.mem_map] at hit
    obtain ⟨l, _, rfl⟩ := hit
    rfl

/-- Witness of C7: lines (price 52, quantity 2) and (price 68, quantity 1) give
subtotal 172 and total 172. -/
theorem receipt_totals_witness :
    ∃ r, (handleCartCheckoutPayment (some sampleUser) sampleClock sampleBackend
            sampleReady).1.successReceipt = some r
      ∧ r.items = [{ name := "X", quantity := 2, unitPrice := 52, lineTotal := 104 },
                   { name := "Curd", quantity := 1, unitPrice := 68, lineTotal := 68 }]
      ∧ r.subtotal = 172 ∧ r.tax = 0 ∧ r.total = 172 := by
  obtain ⟨_, r, h1, h2, h3, _, h5, h6⟩ :=
    receipt_totals (some sampleUser) sampleClock sampleBackend sampleReady
      { customer_id := 7
        items := [{ product_id := Pid.num 1, quantity := 2 },
                  { product_id := Pid.num 2, quantity := 1 }]
        payment_method := "cod", card_number := none, expiry := none, cvv := none,
        upi_id := none, bank_name := none }
      { order_id := some 41, order_reference := none, paid_at := none,
        payment_reference := none }
      (by decide) rfl
  refine ⟨r, h1, ?_, ?_, h5, ?_⟩
  · rw [h3]; decide
  · rw [h2]; decide
  · rw [h6, h2]; decide

/-- Claim C8 (basket capacity display).  With `B` the number of basket items whose
`is_active` is not `false`: if the active plan has `max_products = N` with
`N > 0`, the label is `B / N products in plan basket` and the bar is filled to
`min(100, B / N × 100)` percent, which is at most 100 and equal to 100 exactly
when `B ≥ N`; if the plan is missing, or `max_products` is missing, `null`, not
numeric or not positive, the limit is `null`, the label says that no limit was
found and no bar is rendered. -/
theorem capacity_display (sub : ActiveSubscription) (subscriptions : List Plan)
    (basket : List BasketItem) :
    (∀ (plan : Plan) (N : Int), activePlan (some sub) subscriptions = some plan →
        plan.max_products = NumField.num N → 0 < N →
        ∃ v, capacityView (some sub) subscriptions basket = some v
          ∧ v.label = toString (basket.filter (fun item => item.is_active ≠ some false)).length
              ++ " / " ++ toString N ++ " products in plan basket"
          ∧ v.fill = some (min 100
              (((basket.filter (fun item => item.is_active ≠ some false)).length : ℚ)
                / (N : ℚ) * 100))
          ∧ ∀ w, v.fill = some w →
              w ≤ 100 ∧
              (w = 100 ↔
                N ≤ ((basket.filter (fun item => item.is_active ≠ some false)).length : Int)))
    ∧ ((activePlan (some sub) subscriptions = none
          ∨ ∃ plan, activePlan (some sub) subscriptions = some plan ∧
              (plan.max_products = NumField.undefined ∨ plan.max_products = NumField.null
                ∨ plan.max_products = NumField.nonNumeric
                ∨ ∃ N, plan.max_products = NumField.num N ∧ N ≤ 0)) →
        subscriptionProductLimit (activePlan (some sub) subscriptions) = none
        ∧ ∃ v, capacityView (some sub) subscriptions basket = some v
            ∧ v.label = "No limit found for this plan" ∧ v.fill = none) := by
  refine ⟨?_, ?_⟩
  · intro plan N hplan hmax hN
    have hlim := subscriptionProductLimit_pos plan N hmax hN
    refine ⟨{ label :=
                toString (subscriptionBasketCount basket) ++ " / " ++ toString N
                  ++ " products in plan basket"
              fill := some (capacityFill (subscriptionBasketCount basket) N) },
      by simp only [capacityView, hplan, hlim], rfl, rfl, ?_⟩
    intro w hw
    simp only [Option.some.injEq] at hw
    subst hw
    exact ⟨capacityFill_le _ N, capacityFill_full _ N hN⟩
  · intro h
    have hlim := subscriptionProductLimit_none _ h
    exact ⟨hlim, { label := "No limit found for this plan", fill := none },
      by simp only [capacityView, hlim], rfl, rfl⟩

/-- Witness of C8: five active items against a limit of four fill the bar. -/
theorem capacity_display_witness :
    ∃ v, capacityView (some sampleSubscription) [samplePlan] sampleBasket = some v
      ∧ v.label = "5 / 4 products in plan basket" ∧ v.fill = some 100 := by
  obtain ⟨v, h1, h2, h3, h4⟩ :=
    (capacity_display sampleSubscription [samplePlan] sampleBasket).1 samplePlan 4
      (by decide) rfl (by decide)
  refine ⟨v, h1, ?_, ?_⟩
  · rw [h2]; decide
  · rw [h3]
    exact congrArg some (((h4 _ h3).2).2 (by decide))

/-- Claim C9 (role redirect).  `RoleRoute` renders its page exactly when a user is
signed in and the role of the user is the allowed role.  A signed-in user with
role `user` who opens an admin path is redirected to `/user/dashboard`, ends on
the user dashboard, and is never shown an admin page; a signed-in admin on a
user path is redirected to `/admin/dashboard`; a visitor who is not signed in is
redirected to `/`. -/
theorem role_redirect :
    (∀ (authUser : Option AuthUser) (allowedRole : String) (p : Page),
        RoleRoute authUser allowedRole (Element.page p) = Element.page p ↔
          ∃ user, authUser = some user ∧ user.role = allowedRole)
    ∧ (∀ user : AuthUser, user.role = "user" → ∀ path ∈ adminPaths,
        routeElement (some user) path = Element.navigate "/user/dashboard"
        ∧ shownPage (some user) 2 path = some Page.userDashboard
        ∧ ∀ (fuel : Nat), ∀ p ∈ adminPages, shownPage (some user) fuel path ≠ some p)
    ∧ (∀ user : AuthUser, user.role = "admin" → ∀ path ∈ userPaths,
        routeElement (some user) path = Element.navigate "/admin/dashboard")
    ∧ (∀ path ∈ adminPaths ++ userPaths, routeElement none path = Element.navigate "/") := by
  refine ⟨roleRoute_page_iff, ?_, routeElement_user_path_admin, routeElement_signed_out⟩
  intro user hrole path hpath
  have hnav := routeElement_admin_path_user user hrole path hpath
  refine ⟨hnav, ?_, fun fuel => shownPage_no_admin_page user (by rw [hrole]; decide) fuel path⟩
  have hdash : routeElement (some user) "/user/dashboard" = Element.page Page.userDashboard := by
    simp [routeElement, guardedRoutes, RoleRoute, ProtectedRoute, hrole]
  simp [shownPage, hnav, hdash]

/-- Witness of C9: a customer who opens `/products`. -/
theorem role_redirect_witness :
    routeElement (some sampleUser) "/products" = Element.navigate "/user/dashboard"
    ∧ shownPage (some sampleUser) 2 "/products" = some Page.userDashboard
    ∧ ∀ (fuel : Nat), ∀ p ∈ adminPages, shownPage (some sampleUser) fuel "/products" ≠ some p :=
  role_redirect.2.1 sampleUser rfl "/products" (by decide)

/-- Claim C10 (opening checkout is refused for flagged lines).  In every reachable
dashboard state: if some cart line is flagged `requires_subscription` or
`unavailable`, the checkout form is closed after `handleOpenCartCheckout` and a
cart warning is set; if the cart is not empty and no line is flagged, the form is
open afterwards and the error is cleared; if the cart is empty, the error is set
and the form is left as it was. -/
theorem open_checkout_refused (jsonParse : String → Option IntentJson)
    (authUser : Option AuthUser) (products : List Product) (s : Dash)
    (hs : Reachable jsonParse authUser products s) :
    ((∃ l ∈ s.cartItems, truthy l.requires_subscription = true ∨ l.unavailable = true) →
        (handleOpenCartCheckout s).cartCheckoutOpen = false
        ∧ (handleOpenCartCheckout s).cartWarning ≠ "")
    ∧ (s.cartItems ≠ [] →
        (∀ l ∈ s.cartItems, truthy l.requires_subscription = false ∧ l.unavailable = false) →
        (handleOpenCartCheckout s).cartCheckoutOpen = true
        ∧ (handleOpenCartCheckout s).error = "")
    ∧ (s.cartItems = [] →
        (handleOpenCartCheckout s).error = "Add products to cart before checkout"
        ∧ (handleOpenCartCheckout s).cartCheckoutOpen = s.cartCheckoutOpen) := by
  refine ⟨?_, ?_, ?_⟩
  · rintro ⟨l, hl, hflag⟩
    by_cases hsub : ∃ m ∈ s.cartItems, truthy m.requires_subscription = true
    · rw [openCheckout_subscription s hsub]
      exact ⟨rfl, by simp⟩
    · have hsub' : ∀ m ∈ s.cartItems, truthy m.requires_subscription = false := by
        intro m hm
        cases hrs : truthy m.requires_subscription
        · rfl
        · exact absurd ⟨m, hm, hrs⟩ hsub
      have hun : l.unavailable = true := by
        rcases hflag with h | h
        · rw [hsub' l hl] at h; cases h
        · exact h
      rw [openCheckout_unavailable s hsub' ⟨l, hl, hun⟩]
      refine ⟨?_, by simp⟩
      show s.cartCheckoutOpen = false
      cases hopen : s.cartCheckoutOpen
      · rfl
      · have := (reachable_form_safe hs hopen l hl).1
        rw [hun] at this; cases this
  · intro hne hall
    rw [openCheckout_opens s hne (fun l hl => (hall l hl).1) (fun l hl => (hall l hl).2)]
    exact ⟨rfl, rfl⟩
  · intro hempty
    rw [openCheckout_empty s hempty]
    exact ⟨rfl, rfl⟩

/-- Witness of C10: the cart with the subscription-only line of "Daily Milk". -/
theorem open_checkout_refused_witness :
    (handleOpenCartCheckout sampleReady).cartCheckoutOpen = false
      ∧ (handleOpenCartCheckout sampleReady).cartWarning ≠ "" :=
  (open_checkout_refused sampleParse (some sampleUser) sampleCatalog sampleReady
    sampleReady_reachable).1
    ⟨{ product_id := Pid.num 3, name := "Daily Milk", price := 35, quantity := 1,
       unavailable := false, requires_subscription := some true },
      by decide, Or.inl (by decide)⟩

/-- Counterexample to C11 as stated: the reachable state `sampleUnavailable` has
a cart whose only line is flagged unavailable; `handleOpenCartCheckout` shows
the warning about unavailable items and leaves the active panel empty, it does
not become "subscription". -/
theorem open_checkout_unavailable_keeps_panel :
    Reachable unknownParse (some sampleUser) sampleCatalog sampleUnavailable
    ∧ sampleUnavailable.cartItems
        = [{ product_id := Pid.str "missing-paneer-0", name := "Paneer", price := 0,
             quantity := 1, unavailable := true, requires_subscription := some false }]
    ∧ sampleUnavailable.activePanel = ""
    ∧ (handleOpenCartCheckout sampleUnavailable).activePanel = ""
    ∧ (handleOpenCartCheckout sampleUnavailable).cartWarning
        = "Remove unavailable items before checkout." :=
  ⟨sampleUnavailable_reachable, by decide, by decide, by decide, by decide⟩

/-- Claim C11, amended (refused checkout and the subscription panel).  For every
cart in which some line is flagged `requires_subscription`,
`handleOpenCartCheckout` sets the active panel to "subscription"; for every
cart with no such line in which some line is flagged `unavailable`, it leaves
the active panel as it was and shows the warning about unavailable items; and
the handler sends no checkout request, whatever the cart. -/
theorem open_checkout_focus (authUser : Option AuthUser) (s : Dash) :
    ((∃ l ∈ s.cartItems, truthy l.requires_subscription = true) →
        (handleOpenCartCheckout s).activePanel = "subscription")
    ∧ ((∀ l ∈ s.cartItems, truthy l.requires_subscription = false) →
        (∃ l ∈ s.cartItems, l.unavailable = true) →
        (handleOpenCartCheckout s).activePanel = s.activePanel
        ∧ (handleOpenCartCheckout s).cartWarning = "Remove unavailable items before checkout.")
    ∧ requestSent authUser s Action.openCartCheckout = none := by
  refine ⟨?_, ?_, rfl⟩
  · intro h
    rw [openCheckout_subscription s h]
  · intro hsub hun
    rw [openCheckout_unavailable s hsub hun]
    exact ⟨rfl, rfl⟩

/-- Witness of C11: the cart of `sampleReady` holds the subscription-only line
"Daily Milk", and opening checkout focuses the subscription panel. -/
theorem open_checkout_focus_witness :
    (∃ l ∈ sampleReady.cartItems, truthy l.requires_subscription = true)
    ∧ (handleOpenCartCheckout sampleReady).activePanel = "subscription" :=
  ⟨⟨{ product_id := Pid.num 3, name := "Daily Milk", price := 35, quantity := 1,
       unavailable := false, requires_subscription := some true },
      by decide, by decide⟩,
    (open_checkout_focus (some sampleUser) sampleReady).1
      ⟨{ product_id := Pid.num 3, name := "Daily Milk", price := 35, quantity := 1,
         unavailable := false, requires_subscription := some true },
        by decide, by decide⟩⟩

/-- Claim C12 (checkout payment validation).  Whenever
`handleCartCheckoutPayment` sends a request, the check of the chosen method has
passed: for a card the number, the expiry and the cvv are not empty, for upi the
id contains "@", for net banking the bank name is not empty; cash on delivery
always passes the check (and the request is sent as soon as a user is signed in
and a line is available).  When the check fails an error message is set, no
request is sent and the cart is unchanged. -/
theorem checkout_validation (authUser : Option AuthUser) (clock : Clock)
    (backend : Payload → Except CheckoutError CheckoutResponse) (s : Dash) :
    (∀ pl, (handleCartCheckoutPayment authUser clock backend s).2 = some pl →
        (s.cartPaymentData.payment_method = "card" →
          s.cartPaymentData.card_number ≠ "" ∧ s.cartPaymentData.expiry ≠ ""
            ∧ s.cartPaymentData.cvv ≠ "")
        ∧ (s.cartPaymentData.payment_method = "upi" →
            includes s.cartPaymentData.upi_id "@" = true)
        ∧ (s.cartPaymentData.payment_method = "netbanking" →
            s.cartPaymentData.bank_name ≠ ""))
    ∧ (s.cartPaymentData.payment_method = "cod" →
        validateCartPayment s.cartPaymentData = none
        ∧ ∀ user, authUser = some user → availableCartItems s.cartItems ≠ [] →
            (handleCartCheckoutPayment authUser clock backend s).2
              = some (checkoutPayload user s.cartPaymentData (availableCartItems s.cartItems)))
    ∧ ((s.cartPaymentData.payment_method = "card"
          ∧ (s.cartPaymentData.card_number = "" ∨ s.cartPaymentData.expiry = ""
              ∨ s.cartPaymentData.cvv = "")
        ∨ s.cartPaymentData.payment_method = "upi"
          ∧ includes s.cartPaymentData.upi_id "@" = false
        ∨ s.cartPaymentData.payment_method = "netbanking"
          ∧ s.cartPaymentData.bank_name = "") →
        (handleCartCheckoutPayment authUser clock backend s).1.error ≠ ""
        ∧ (handleCartCheckoutPayment authUser clock backend s).2 = none
        ∧ (handleCartCheckoutPayment authUser clock backend s).1.cartItems = s.cartItems) := by
  refine ⟨?_, ?_, ?_⟩
  · intro pl hsent
    obtain ⟨user, _, hv, _⟩ := (checkout_frame authUser clock backend s).2.2.2.2.2.2 pl hsent
    refine ⟨?_, ?_, ?_⟩
    · intro hm
      rw [validate_card _ hm] at hv
      by_contra hcon
      have : s.cartPaymentData.card_number = "" ∨ s.cartPaymentData.expiry = ""
          ∨ s.cartPaymentData.cvv = "" := by
        by_contra hnone
        push_neg at hnone
        exact hcon ⟨hnone.1, hnone.2.1, hnone.2.2⟩
      simp [this] at hv
    · intro hm
      rw [validate_upi _ hm] at hv
      by_contra hcon
      simp [hcon] at hv
    · intro hm
      rw [validate_netbanking _ hm] at hv
      intro hcon
      simp [hcon] at hv
  · intro hm
    refine ⟨validate_cod _ hm, ?_⟩
    intro user hu hav
    subst hu
    exact checkout_sends user clock backend s (validate_cod _ hm) hav
  · intro hfail
    have hv : ∃ message, validateCartPayment s.cartPaymentData = some message := by
      rcases hfail with ⟨hm, hf⟩ | ⟨hm, hf⟩ | ⟨hm, hf⟩
      · exact ⟨_, by rw [validate_card _ hm, if_pos hf]⟩
      · exact ⟨_, by rw [validate_upi _ hm, if_neg (by simp [hf])]⟩
      · exact ⟨_, by rw [validate_netbanking _ hm, if_pos hf]⟩
    obtain ⟨message, hv⟩ := hv
    rw [checkout_invalid authUser clock backend s message hv]
    exact ⟨validate_message_ne _ message hv, rfl, rfl⟩

/-- Witness of C12: a card form without an expiry date sets an error, sends no
request and keeps the cart. -/
theorem checkout_validation_witness :
    (incompleteCard.payment_method = "card" ∧ incompleteCard.expiry = "")
    ∧ (handleCartCheckoutPayment (some sampleUser) sampleClock sampleBackend
        { sampleReady with cartPaymentData := incompleteCard }).1.error ≠ ""
    ∧ (handleCartCheckoutPayment (some sampleUser) sampleClock sampleBackend
        { sampleReady with cartPaymentData := incompleteCard }).2 = none
    ∧ (handleCartCheckoutPayment (some sampleUser) sampleClock sampleBackend
        { sampleReady with cartPaymentData := incompleteCard }).1.cartItems
        = sampleReady.cartItems :=
  ⟨by decide,
    (checkout_validation (some sampleUser) sampleClock sampleBackend
      { sampleReady with cartPaymentData := incompleteCard }).2.2
      (Or.inl ⟨by decide, Or.inr (Or.inl (by decide))⟩)⟩

/-- Claim C13 (checkout outcome on the cart).  For every cart from which
`handleCartCheckoutPayment` sends a request: when the request succeeds the cart
becomes empty, the payment form is reset to its template and the cart and
checkout panels are closed; when the request fails the cart lines are exactly
as they were before the attempt. -/
theorem checkout_outcome_on_cart (authUser : Option AuthUser) (clock : Clock)
    (backend : Payload → Except CheckoutError CheckoutResponse) (s : Dash) (pl : Payload)
    (hsent : (handleCartCheckoutPayment authUser clock backend s).2 = some pl) :
    (∀ response, backend pl = Except.ok response →
        (handleCartCheckoutPayment authUser clock backend s).1.cartItems = []
        ∧ (handleCartCheckoutPayment authUser clock backend s).1.cartPaymentData
            = cartPaymentTemplate
        ∧ (handleCartCheckoutPayment authUser clock backend s).1.cartOpen = false
        ∧ (handleCartCheckoutPayment authUser clock backend s).1.cartCheckoutOpen = false)
    ∧ (∀ data, backend pl = Except.error data →
        (handleCartCheckoutPayment authUser clock backend s).1.cartItems = s.cartItems) := by
  obtain ⟨user, rfl, hv, rfl⟩ := (checkout_frame authUser clock backend s).2.2.2.2.2.2 pl hsent
  have hav : availableCartItems s.cartItems ≠ [] := by
    intro h
    rw [checkout_nothing_available _ clock backend s hv h] at hsent
    cases hsent
  refine ⟨?_, ?_⟩
  · intro response hok
    rw [checkout_success user clock backend s response hv hav hok]
    exact ⟨rfl, rfl, rfl, rfl⟩
  · intro data herr
    cases hitems : data.subscription_only_items with
    | none => rw [checkout_failed user clock backend s data hv hav herr (Or.inl hitems)]
    | some items =>
      cases items with
      | nil => rw [checkout_failed user clock backend s data hv hav herr (Or.inr hitems)]
      | cons first rest =>
        rw [checkout_blocked user clock backend s data first rest hv hav herr hitems]

/-- Witness of C13: the cart of `sampleReady` holds three lines, two of them are
sent, and after the confirmed order the cart is empty, the form is the template
and both panels are closed. -/
theorem checkout_outcome_on_cart_witness :
    sampleReady.cartItems.length = 3
    ∧ (handleCartCheckoutPayment (some sampleUser) sampleClock sampleBackend
        sampleReady).1.cartItems = []
    ∧ (handleCartCheckoutPayment (some sampleUser) sampleClock sampleBackend
        sampleReady).1.cartPaymentData = cartPaymentTemplate
    ∧ (handleCartCheckoutPayment (some sampleUser) sampleClock sampleBackend
        sampleReady).1.cartOpen = false
    ∧ (handleCartCheckoutPayment (some sampleUser) sampleClock sampleBackend
        sampleReady).1.cartCheckoutOpen = false :=
  ⟨by decide,
    (checkout_outcome_on_cart (some sampleUser) sampleClock sampleBackend sampleReady
        { customer_id := 7
          items := [{ product_id := Pid.num 1, quantity := 2 },
                    { product_id := Pid.num 2, quantity := 1 }]
          payment_method := "cod", card_number := none, expiry := none, cvv := none,
          upi_id := none, bank_name := none }
        (by decide)).1
      { order_id := some 41, order_reference := none, paid_at := none,
        payment_reference := none }
      rfl⟩

/-- Counterexample to C14 as stated: from `sampleReady` (active panel empty) a
request is sent; when the backend answers with a non-empty
`subscription_only_items` list the warning is shown and the active panel stays
empty, it does not become "subscription"; and when the answer carries an empty
`reason` next to an `error`, the error text is shown, not the reason. -/
theorem checkout_blocked_keeps_panel :
    sampleReady.activePanel = ""
    ∧ (handleCartCheckoutPayment (some sampleUser) sampleClock blockingBackend sampleReady).2
        = some
            { customer_id := 7
              items := [{ product_id := Pid.num 1, quantity := 2 },
                        { product_id := Pid.num 2, quantity := 1 }]
              payment_method := "cod", card_number := none, expiry := none, cvv := none,
              upi_id := none, bank_name := none }
    ∧ (handleCartCheckoutPayment (some sampleUser) sampleClock blockingBackend
        sampleReady).1.cartWarning
        = "Some items require subscription delivery. Remove them from cart and add to your plan basket."
    ∧ (handleCartCheckoutPayment (some sampleUser) sampleClock blockingBackend
        sampleReady).1.activePanel = ""
    ∧ (handleCartCheckoutPayment (some sampleUser) sampleClock emptyReasonBackend
        sampleReady).1.error = "Payment failed" := by
  decide

/-- Claim C14, amended (checkout failure special case).  For every failed
checkout whose error response carries a non-empty `subscription_only_items`
list, the dashboard shows the subscription warning, closes the checkout form,
leaves the active panel as it was and does not set the generic error message;
for every other failure the error shown is the reason of the response when it
is present and not empty, else its error when that is present and not empty,
else the fixed text "Cart checkout payment failed". -/
theorem checkout_failure_cases (authUser : Option AuthUser) (clock : Clock)
    (backend : Payload → Except CheckoutError CheckoutResponse) (s : Dash) (pl : Payload)
    (data : CheckoutError)
    (hsent : (handleCartCheckoutPayment authUser clock backend s).2 = some pl)
    (herr : backend pl = Except.error data) :
    (∀ first rest, data.subscription_only_items = some (first :: rest) →
        (handleCartCheckoutPayment authUser clock backend s).1.cartWarning
          = "Some items require subscription delivery. Remove them from cart and add to your plan basket."
        ∧ (handleCartCheckoutPayment authUser clock backend s).1.cartCheckoutOpen = false
        ∧ (handleCartCheckoutPayment authUser clock backend s).1.activePanel = s.activePanel
        ∧ (handleCartCheckoutPayment authUser clock backend s).1.error = "")
    ∧ ((data.subscription_only_items = none ∨ data.subscription_only_items = some []) →
        (handleCartCheckoutPayment authUser clock backend s).1.error
            = orStr data.reason (orStr data.error "Cart checkout payment failed")
        ∧ (∀ reason, data.reason = some reason → reason ≠ "" →
            (handleCartCheckoutPayment authUser clock backend s).1.error = reason)
        ∧ ((data.reason = none ∨ data.reason = some "") → ∀ e, data.error = some e → e ≠ "" →
            (handleCartCheckoutPayment authUser clock backend s).1.error = e)
        ∧ ((data.reason = none ∨ data.reason = some "") →
            (data.error = none ∨ data.error = some "") →
            (handleCartCheckoutPayment authUser clock backend s).1.error
              = "Cart checkout payment failed")) := by
  obtain ⟨user, rfl, hv, rfl⟩ := (checkout_frame authUser clock backend s).2.2.2.2.2.2 pl hsent
  have hav : availableCartItems s.cartItems ≠ [] := by
    intro h
    rw [checkout_nothing_available _ clock backend s hv h] at hsent
    cases hsent
  refine ⟨?_, ?_⟩
  · intro first rest hitems
    rw [checkout_blocked user clock backend s data first rest hv hav herr hitems]
    exact ⟨rfl, rfl, rfl, rfl⟩
  · intro hitems
    rw [checkout_failed user clock backend s data hv hav herr hitems]
    refine ⟨rfl, ?_, ?_, ?_⟩
    · intro reason hr hne
      simp [hr, orStr, hne]
    · intro hr e he hne
      rcases hr with hr | hr <;> simp [hr, he, orStr, hne]
    · intro hr he
      rcases hr with hr | hr <;> rcases he with he | he <;> simp [hr, he, orStr]

/-- Witness of C14: a backend that declines with the reason "Card declined"
makes that reason the error shown. -/
theorem checkout_failure_cases_witness :
    (handleCartCheckoutPayment (some sampleUser) sampleClock decliningBackend sampleReady).1.error
      = "Card declined" :=
  ((checkout_failure_cases (some sampleUser) sampleClock decliningBackend sampleReady
      { customer_id := 7
        items := [{ product_id := Pid.num 1, quantity := 2 },
                  { product_id := Pid.num 2, quantity := 1 }]
        payment_method := "cod", card_number := none, expiry := none, cvv := none,
        upi_id := none, bank_name := none }
      { subscription_only_items := none, reason := some "Card declined",
        error := some "Payment failed" }
      (by decide) rfl).2 (Or.inl rfl)).2.1 "Card declined" rfl (by decide)

/-- Claim C15 (logout always clears local identity).  For every prior session
state, `handleLogout` resolves with `authUser` cleared, both when
`authService.logout` resolves and when it rejects; it never rejects, so that no
rejection reaches the caller. -/
theorem logout_clears_identity (response : Except String Unit) (s : AppState) :
    handleLogout response s = Outcome.resolved { s with authUser := none }
    ∧ (∀ s', handleLogout response s = Outcome.resolved s' → s'.authUser = none)
    ∧ (∀ reason, handleLogout response s ≠ Outcome.rejected reason) := by
  cases response with
  | ok u => exact ⟨rfl, fun s' h => by cases h; rfl, fun reason h => by cases h⟩
  | error e => exact ⟨rfl, fun s' h => by cases h; rfl, fun reason h => by cases h⟩

/-- Witness of C15: a logout that fails on the network still clears the user,
whereas a failed login rejects. -/
theorem logout_clears_identity_witness :
    handleLogout (Except.error "Network Error")
        { authUser := some sampleUser, authLoading := false }
      = Outcome.resolved { authUser := none, authLoading := false }
    ∧ handleLogin (Except.error "Network Error")
        { authUser := none, authLoading := false }
      = Outcome.rejected "Network Error" :=
  ⟨(logout_clears_identity (Except.error "Network Error")
      { authUser := some sampleUser, authLoading := false }).1, rfl⟩

/-- Claim C16 (subscribed-plan history).  The entries of `subscribedPlans` have
pairwise distinct subscription ids, and an id has an entry exactly when it is a
non-zero id of some payment of `recent_payments` or the id of the active
subscription.  When every payment carries a `paid_at` or `created_at` instant,
the entry of an id that is not the active one is the payload of a payment of
that id whose instant is the latest among the payments of that id.  The entry
of the active subscription has status "active" and the start date of the active
subscription, and is the only entry of that id.  The list is ordered by activity
time, most recent first. -/
theorem subscribed_plans_history (subscriptions : List Plan) (payments : List Payment)
    (active : Option ActiveSubscription) :
    ((subscribedPlans subscriptions payments active).map (fun e => e.subscription_id)).Nodup
    ∧ (∀ k, k ∈ (subscribedPlans subscriptions payments active).map
            (fun e => e.subscription_id) ↔
        (k ≠ 0 ∧ ∃ p ∈ payments, p.subscription.toNumber = some k)
          ∨ ∃ a, active = some a ∧ a.subscription_id = k)
    ∧ (∀ e ∈ subscribedPlans subscriptions payments active,
        (∀ a, active = some a → a.subscription_id ≠ e.subscription_id) →
        (∀ q ∈ payments, paymentTime q ≠ none) →
        ∃ p ∈ payments, p.subscription.toNumber = some e.subscription_id
          ∧ e = paymentEntry subscriptions e.subscription_id p
          ∧ ∃ tp, paymentTime p = some tp
            ∧ ∀ q ∈ payments, q.subscription.toNumber = some e.subscription_id →
                ∃ tq, paymentTime q = some tq ∧ tq ≤ tp)
    ∧ (∀ a, active = some a →
        ∃ e ∈ subscribedPlans subscriptions payments active,
          e.subscription_id = a.subscription_id ∧ e.status = "active"
          ∧ e.activity_at = a.subscription_start_date
          ∧ ∀ e' ∈ subscribedPlans subscriptions payments active,
              e'.subscription_id = a.subscription_id → e' = e)
    ∧ List.Sorted (fun x y => activityTime y ≤ activityTime x)
        (subscribedPlans subscriptions payments active) := by
  obtain ⟨g1, g2, g3, g4, g5⟩ := groupedPlans_spec subscriptions payments active
  have hperm := subscribedPlans_ids_perm subscriptions payments active
  refine ⟨hperm.nodup_iff.2 g1, ?_, ?_, ?_, ?_⟩
  · intro k
    rw [hperm.mem_iff, g2 k]
  · intro e he hna hall
    rw [mem_subscribedPlans] at he
    have hfold := g4 _ e he hna
    obtain ⟨pre, p, post, hps, hp, hee, h4, h5⟩ :=
      (foldPayment_invariant subscriptions payments).2.2 _ e hfold
    have hpmem : p ∈ payments := by rw [hps]; simp
    obtain ⟨tp, htp⟩ := Option.ne_none_iff_exists'.1 (hall p hpmem)
    refine ⟨p, hpmem, hp, hee, tp, htp, ?_⟩
    intro q hq hqk
    obtain ⟨tq, htq⟩ := Option.ne_none_iff_exists'.1 (hall q hq)
    refine ⟨tq, htq, ?_⟩
    rw [hps] at hq
    rcases List.mem_append.1 hq with hq | hq
    · exact le_of_lt (h4 q hq hqk tq tp htq htp)
    · rcases List.mem_cons.1 hq with rfl | hq
      · rw [htp] at htq
        exact le_of_eq (Option.some.inj htq).symm
      · exact h5 q hq hqk tq tp htq htp
  · intro a ha
    refine ⟨activeEntry subscriptions a, ?_, rfl, rfl, rfl, ?_⟩
    · rw [mem_subscribedPlans]
      exact (g5 a ha _).2 rfl
    · intro e' he' hid
      rw [mem_subscribedPlans, hid] at he'
      exact (g5 a ha e').1 he'
  · unfold subscribedPlans
    have := jsSort_sorted (fun first second : PlanEntry => activityTime second - activityTime first)
      (fun a b => by simp only; omega) (fun a b d h1 h2 => by simp only at h1 h2 ⊢; omega)
      ((groupedPlans subscriptions payments active).map Prod.snd)
    refine List.Pairwise.imp ?_ this
    intro x y hxy
    simp only at hxy
    omega

/-- Witness of C16: in `recentPayments` the plan 7 is paid at the instants 100
and 300; its entry is the payload of a payment whose instant is the latest, and
the memo lists plan 7 (instant 300) before plan 9 (instant 200). -/
theorem subscribed_plans_history_witness :
    subscribedPlans [] recentPayments none
      = [{ subscription_id := 7, name := "Gold", amount := some 20, status := "failed",
           activity_at := some 300, availablePlan := none },
         { subscription_id := 9, name := "Plan #9", amount := some 30, status := "paid",
           activity_at := some 200, availablePlan := none }]
    ∧ (∀ q ∈ recentPayments, paymentTime q ≠ none)
    ∧ ∃ p ∈ recentPayments, p.subscription.toNumber = some 7
        ∧ ({ subscription_id := 7, name := "Gold", amount := some 20, status := "failed",
             activity_at := some 300, availablePlan := none } : PlanEntry)
            = paymentEntry [] 7 p
        ∧ ∃ tp, paymentTime p = some tp
          ∧ ∀ q ∈ recentPayments, q.subscription.toNumber = some 7 →
              ∃ tq, paymentTime q = some tq ∧ tq ≤ tp :=
  ⟨by decide, by decide,
    (subscribed_plans_history [] recentPayments none).2.2.1
      { subscription_id := 7, name := "Gold", amount := some 20, status := "failed",
        activity_at := some 300, availablePlan := none }
      (by decide) (fun a ha => by cases ha) (by decide)⟩

/-- Counterexample to C17 as stated: the two payments of `tiedPayments` belong
to plan 7 and carry the same instant 100; the entry kept by `subscribedPlans`
has the amount and status of the first payment, not of the later-processed
one. -/
theorem tie_keeps_first_payment :
    subscribedPlans [] tiedPayments none
      = [{ subscription_id := 7, name := "Gold", amount := some 10, status := "paid",
           activity_at := some 100, availablePlan := none }]
    ∧ (tiedPayments.map paymentTime) = [some 100, some 100]
    ∧ (tiedPayments.map (fun p => (paymentEntry [] 7 p).amount)) = [some 10, some 20] := by
  decide

/-- Claim C17, amended (tie rule in the subscribed-plan history).  The entry
that `subscribedPlans` keeps for an id that is not the active one is the
payload of a payment `p` of that id such that every payment of the id that is
earlier in `recent_payments` has a strictly earlier instant and every later one
an instant that is not later: among payments of one id with equal instants the
earlier-processed one is kept. -/
theorem tie_rule_in_history (subscriptions : List Plan) (payments : List Payment)
    (active : Option ActiveSubscription) (e : PlanEntry)
    (he : e ∈ subscribedPlans subscriptions payments active)
    (hna : ∀ a, active = some a → a.subscription_id ≠ e.subscription_id) :
    ∃ pre p post, payments = pre ++ p :: post
      ∧ p.subscription.toNumber = some e.subscription_id
      ∧ e = paymentEntry subscriptions e.subscription_id p
      ∧ (∀ q ∈ pre, q.subscription.toNumber = some e.subscription_id →
          ∀ tq tp, paymentTime q = some tq → paymentTime p = some tp → tq < tp)
      ∧ (∀ q ∈ post, q.subscription.toNumber = some e.subscription_id →
          ∀ tq tp, paymentTime q = some tq → paymentTime p = some tp → tq ≤ tp)
      ∧ (∀ q ∈ pre, q.subscription.toNumber = some e.subscription_id →
          ∀ t, paymentTime q = some t → paymentTime p ≠ some t) := by
  rw [mem_subscribedPlans] at he
  have hfold := (groupedPlans_spec subscriptions payments active).2.2.2.1 _ e he hna
  obtain ⟨pre, p, post, hps, hp, hee, h4, h5⟩ :=
    (foldPayment_invariant subscriptions payments).2.2 _ e hfold
  refine ⟨pre, p, post, hps, hp, hee, h4, h5, ?_⟩
  intro q hq hqk t htq htp
  exact lt_irrefl t (h4 q hq hqk t t htq htp)

/-- Witness of C17: the entry kept for `tiedPayments` is the payload of a
payment before which no payment of plan 7 has the same instant. -/
theorem tie_rule_in_history_witness :
    ({ subscription_id := 7, name := "Gold", amount := some 10, status := "paid",
       activity_at := some 100, availablePlan := none } : PlanEntry)
      ∈ subscribedPlans [] tiedPayments none
    ∧ ∃ pre p post, tiedPayments = pre ++ p :: post
      ∧ p.subscription.toNumber = some 7
      ∧ ({ subscription_id := 7, name := "Gold", amount := some 10, status := "paid",
           activity_at := some 100, availablePlan := none } : PlanEntry)
          = paymentEntry [] 7 p
      ∧ (∀ q ∈ pre, q.subscription.toNumber = some 7 →
          ∀ tq tp, paymentTime q = some tq → paymentTime p = some tp → tq < tp)
      ∧ (∀ q ∈ post, q.subscription.toNumber = some 7 →
          ∀ tq tp, paymentTime q = some tq → paymentTime p = some tp → tq ≤ tp)
      ∧ (∀ q ∈ pre, q.subscription.toNumber = some 7 →
          ∀ t, paymentTime q = some t → paymentTime p ≠ some t) :=
  ⟨by decide,
    tie_rule_in_history [] tiedPayments none
      { subscription_id := 7, name := "Gold", amount := some 10, status := "paid",
        activity_at := some 100, availablePlan := none }
      (by decide) (fun a ha => by cases ha)⟩

/-- Claim C18 (category grouping), evaluated where the code departs from it: on
a catalog that holds a product of the category "constructor" the reducer of
`productsByCategory` reads the inherited `Object.prototype.constructor` under
that name, calls `push` on it and throws, so that the memo yields no groups at
all; the products of the catalog are lost instead of partitioned. -/
theorem category_grouping_throws (localeCompare : String → String → Int) :
    categoryOf reservedCategory = "constructor"
    ∧ groupStep (some [("Dairy", [curd])]) reservedCategory = none
    ∧ productsByCategory localeCompare [curd, reservedCategory] = none :=
  ⟨by decide, by decide,
    (productsByCategory_throws localeCompare [curd, reservedCategory]).2
      ⟨reservedCategory, by decide, by decide⟩⟩

/-- Claim C19 (search change resets pagination).  For every table state and
every new search term, the change handler of the search input sets
`currentPage` to 1 and `searchTerm` to the new term. -/
theorem search_change_resets_page (s : TableState) (term : String) :
    (onSearchChange s term).currentPage = 1 ∧ (onSearchChange s term).searchTerm = term :=
  ⟨rfl, rfl⟩

/-- Witness of C19: typing "curd" on page 4 of a search for "milk" leads to page
1 of a search for "curd". -/
theorem search_change_resets_page_witness :
    (onSearchChange { searchTerm := "milk", currentPage := 4 } "curd").currentPage = 1
    ∧ (onSearchChange { searchTerm := "milk", currentPage := 4 } "curd").searchTerm = "curd" :=
  search_change_resets_page { searchTerm := "milk", currentPage := 4 } "curd"

/-- Claim C20 (fixed-size pagination).  For every filtered list of n records and
every current page p ≥ 1, `displayedData` is the list of the records at the
positions (p - 1) * 10 up to min (p * 10) n - 1 of the filtered list, so that a
page never shows more than 10 records; `totalPages` is the ceiling of n / 10;
and the pages 1 to `totalPages`, concatenated, give the filtered list. -/
theorem fixed_size_pagination {α : Type} (filtered : List α) (p : Nat) (hp : 1 ≤ p) :
    displayedData filtered (p : Int) = (filtered.drop ((p - 1) * 10)).take 10
    ∧ (∀ i : Nat, (displayedData filtered (p : Int))[i]? =
        if (p - 1) * 10 + i < min (p * 10) filtered.length then filtered[(p - 1) * 10 + i]?
        else none)
    ∧ (displayedData filtered (p : Int)).length
        = min (p * 10) filtered.length - (p - 1) * 10
    ∧ (displayedData filtered (p : Int)).length ≤ 10
    ∧ totalPages filtered = Nat.ceil ((filtered.length : ℚ) / 10)
    ∧ totalPages filtered = (filtered.length + 9) / 10
    ∧ (List.range (totalPages filtered)).flatMap
        (fun i => displayedData filtered ((i + 1 : Nat) : Int)) = filtered := by
  have hpage := displayedData_page filtered p hp
  refine ⟨hpage, ?_, ?_, ?_, ?_, totalPages_eq filtered, ?_⟩
  · intro i
    rw [hpage, List.getElem?_take]
    by_cases hi : i < 10
    · simp only [hi, if_true, List.getElem?_drop]
      by_cases hlt : (p - 1) * 10 + i < min (p * 10) filtered.length
      · rw [if_pos hlt]
      · rw [if_neg hlt]
        apply List.getElem?_eq_none
        omega
    · rw [if_neg hi, if_neg (by omega)]
  · rw [hpage]; simp; omega
  · rw [hpage]; simp
  · unfold totalPages itemsPerPage; norm_num
  · rw [pages_concat_take, totalPages_eq]
    apply List.take_of_length_le
    omega

/-- Witness of C20: page 2 of twelve records shows the records 11 and 12. -/
theorem fixed_size_pagination_witness :
    1 ≤ 2
    ∧ displayedData [1, 2, 3, 4, 5, 6, 7, 8, 9, 10, 11, 12] ((2 : Nat) : Int) = [11, 12] :=
  ⟨by decide,
    (fixed_size_pagination [1, 2, 3, 4, 5, 6, 7, 8, 9, 10, 11, 12] 2 (by decide)).1.trans
      (by decide)⟩

/-- Claim C21 (mini-cart quantities).  For every landing-page mini-cart whose
stored quantities are positive, every product id and every delta (in particular
+1 and -1), `changeCartQty` yields a mini-cart in which all stored quantities
are positive; the quantity of the product (`miniCart[id] || 0`) becomes
max (old + delta) 0, and when that is 0 the entry of the product is removed; the
entries of the other products are unchanged.  The mini-cart is an object, so
its keys are pairwise distinct, before and after. -/
theorem minicart_quantities (prev : List (Int × Int)) (productId delta : Int)
    (hnd : (prev.map Prod.fst).Nodup) (hpos : ∀ e ∈ prev, 0 < e.2) :
    ((changeCartQty prev productId delta).map Prod.fst).Nodup
    ∧ (∀ e ∈ changeCartQty prev productId delta, 0 < e.2)
    ∧ numOr (assocGet (changeCartQty prev productId delta) productId) 0
        = max (numOr (assocGet prev productId) 0 + delta) 0
    ∧ (max (numOr (assocGet prev productId) 0 + delta) 0 = 0 →
        productId ∉ (changeCartQty prev productId delta).map Prod.fst)
    ∧ (max (numOr (assocGet prev productId) 0 + delta) 0 ≠ 0 →
        assocGet (changeCartQty prev productId delta) productId
          = some (max (numOr (assocGet prev productId) 0 + delta) 0))
    ∧ (∀ k, k ≠ productId →
        assocGet (changeCartQty prev productId delta) k = assocGet prev k)
    ∧ (∀ e, e.1 ≠ productId → (e ∈ changeCartQty prev productId delta ↔ e ∈ prev)) := by
  by_cases h0 : max (numOr (assocGet prev productId) 0 + delta) 0 = 0
  · have hval : changeCartQty prev productId delta = assocErase prev productId := by
      simp [changeCartQty, h0]
    rw [hval, h0]
    refine ⟨assocErase_nodup prev productId hnd, ?_, ?_, ?_, ?_, ?_, ?_⟩
    · intro e he
      exact hpos e (List.mem_filter.1 he).1
    · rw [assocGet_assocErase_same]; rfl
    · intro _
      rw [← assocGet_none_iff]
      exact assocGet_assocErase_same prev productId
    · intro h; exact absurd rfl h
    · intro k hk
      exact assocGet_assocErase_other prev productId k hk
    · intro e he
      simp [assocErase, List.mem_filter, he]
  · have hval : changeCartQty prev productId delta
        = assocSet prev productId (max (numOr (assocGet prev productId) 0 + delta) 0) := by
      simp [changeCartQty, h0]
    obtain ⟨s1, _, s3⟩ :=
      assocSet_spec prev productId (max (numOr (assocGet prev productId) 0 + delta) 0) hnd
    rw [hval]
    refine ⟨s1, ?_, ?_, ?_, ?_, ?_, ?_⟩
    · intro e he
      rcases (s3 e.1 e.2).1 he with ⟨_, hv⟩ | ⟨hmem, _⟩
      · rw [hv]
        have : 0 ≤ max (numOr (assocGet prev productId) 0 + delta) 0 := le_max_right _ _
        omega
      · exact hpos e hmem
    · rw [assocGet_assocSet_same]
      simp [numOr, h0]
    · intro h; exact absurd h h0
    · intro _
      exact assocGet_assocSet_same prev productId _
    · intro k hk
      exact assocGet_assocSet_other prev productId _ k hk
    · intro e he
      rw [show e = (e.1, e.2) from rfl, s3 e.1 e.2]
      simp [he]

/-- Witness of C21: taking the only unit of product 3 out of `sampleMiniCart`
removes its entry and leaves the two units of product 1. -/
theorem minicart_quantities_witness :
    changeCartQty sampleMiniCart 3 (-1) = [(1, 2)]
    ∧ changeCartQty sampleMiniCart 1 1 = [(1, 3), (3, 1)]
    ∧ (∀ e ∈ changeCartQty sampleMiniCart 3 (-1), 0 < e.2)
    ∧ 3 ∉ (changeCartQty sampleMiniCart 3 (-1)).map Prod.fst :=
  ⟨by decide, by decide,
    (minicart_quantities sampleMiniCart 3 (-1) (by decide) (by decide)).2.1,
    (minicart_quantities sampleMiniCart 3 (-1) (by decide) (by decide)).2.2.2.1 (by decide)⟩

/-- Counterexample to C22 as stated: the plan form holds the features text
"daily, premium", which is not JSON; `handleSubmit` resolves, with the alert
"Failed to save subscription" shown and no request sent: the exception is
caught, it does not leave the handler. -/
theorem malformed_features_caught :
    field planPage.formData "features" = JVal.str "daily, premium"
    ∧ storedParse "daily, premium" = none
    ∧ handleSubmit CrudPage.subscriptions storedParse acceptingSave serverCategories planPage
      = SubmitOutcome.resolved
          { planPage with alerts := ["Failed to save subscription"] } none := by
  refine ⟨by decide, by simp [storedParse], ?_⟩
  simp [handleSubmit, requiredFieldsAlert, bodyThrows, planPage, field, List.lookup, jsTruthy,
    JVal.toStr, storedParse, saveErrorAlert, CrudPage.saveFailed]

/-- Claim C22, amended (malformed feature-list JSON is guarded).  In the submit
handler of the subscription-plan form, for every non-empty features text that
is not valid JSON, the parse throws inside the `try` of the handler and the
exception is caught: `handleSubmit` resolves with the alert "Failed to save
subscription" shown, no create or update request sent, no fetch made, and the
form and the rows as they were; `handleSubmit` rejects on no page and for no
input. -/
theorem malformed_features_guarded (jsonParse : String → Option Json)
    (save : SaveKind → Except (Option ErrorData) Unit) (getAll : Except String CollectionData)
    (s : CrudState) :
    (jsTruthy (field s.formData "features") = true →
        jsonParse (field s.formData "features").toStr = none →
        handleSubmit CrudPage.subscriptions jsonParse save getAll s
          = SubmitOutcome.resolved
              { s with alerts := s.alerts ++ ["Failed to save subscription"] } none)
    ∧ (∀ (page : CrudPage) (reason : String),
        handleSubmit page jsonParse save getAll s ≠ SubmitOutcome.rejected reason) := by
  refine ⟨?_, ?_⟩
  · intro ht hp
    simp [handleSubmit, requiredFieldsAlert, bodyThrows, ht, hp, saveErrorAlert,
      CrudPage.saveFailed]
  · intro page reason h
    rcases handleSubmit_cases page jsonParse save getAll s with ⟨m, hm⟩ | ⟨_, hm⟩ | ⟨d, _, hm⟩
    · rw [hm] at h; cases h
    · rw [hm] at h; cases h
    · rw [hm] at h; cases h

/-- Witness of C22: the features text "daily, premium" ends in the alert, with
the form still open. -/
theorem malformed_features_guarded_witness :
    handleSubmit CrudPage.subscriptions storedParse acceptingSave serverCategories planPage
      = SubmitOutcome.resolved
          { planPage with alerts := planPage.alerts ++ ["Failed to save subscription"] } none :=
  (malformed_features_guarded storedParse acceptingSave serverCategories planPage).1
    (by decide) (by simp [storedParse, planPage, field, List.lookup, JVal.toStr])

/-- Claim C23 (best-effort parsing of stored JSON), evaluated where the code
departs from it: with the text "undefined" stored, which is not JSON, the
pending-intent effect of the dashboard discards the value and goes on, but the
initializers of the preferences, of the support tickets and of the favorites
call `JSON.parse` without a `try` and throw. -/
theorem stored_json_unguarded :
    storedParse "undefined" = none
    ∧ sampleParse "undefined" = none
    ∧ initialPrefs storedParse (some "undefined") = none
    ∧ initialTickets storedParse (some "undefined") = none
    ∧ initialFavorites storedParse (some "undefined") = none
    ∧ pendingIntentEffect sampleParse (some sampleUser) sampleCatalog
        { Dash.init (some "undefined") with loading := false }
      = { Dash.init none with loading := false, intentHandled := true, storageReads := 1 } := by
  refine ⟨by simp [storedParse], by decide, ?_, ?_, ?_, by decide⟩
  · exact parseStored_throws storedParse "undefined" _ (by decide) (by simp [storedParse])
  · exact parseStored_throws storedParse "undefined" _ (by decide) (by simp [storedParse])
  · exact parseStored_throws storedParse "undefined" _ (by decide) (by simp [storedParse])

/-- Claim C24 (both response envelopes), evaluated where the code departs from
it.  For every list of records, a management page keeps the same rows for the
bare array and for the object with `results`; but the figure of the admin
dashboard is the number of records for the object and 0 for the bare array: with
one category on the server, the dashboard counts one category for the object
and none for the bare array. -/
theorem bare_array_counts_zero (records : List Record) (page : CrudPage) (s : CrudState) :
    (fetchRows page (Except.ok (CollectionData.bare records)) s).rows
      = (fetchRows page (Except.ok (CollectionData.envelope none records)) s).rows
    ∧ (fetchRows page (Except.ok (CollectionData.bare records)) s).rows = records
    ∧ statCount (CollectionData.envelope none records) = records.length
    ∧ statCount (CollectionData.bare records) = 0
    ∧ (fetchStats (Except.ok (CollectionData.bare []))
          (Except.ok (CollectionData.envelope none [categoryMilk]))
          (Except.ok (CollectionData.bare [])) (Except.ok (CollectionData.bare []))
          (Except.ok (CollectionData.bare [])) AdminDashboard.init).stats.categories = 1
    ∧ (fetchStats (Except.ok (CollectionData.bare []))
          (Except.ok (CollectionData.bare [categoryMilk]))
          (Except.ok (CollectionData.bare [])) (Except.ok (CollectionData.bare []))
          (Except.ok (CollectionData.bare [])) AdminDashboard.init).stats.categories = 0 := by
  refine ⟨rfl, rfl, rfl, rfl, ?_, ?_⟩
  · decide
  · decide

/-- Counterexample to C25 as stated: the page shows two categories while the
server holds three; after a successful delete of the first one the page has
made no further request and shows the local list without the deleted record,
not the collection of the server. -/
theorem delete_edits_local_list :
    categoryPage.rows = [categoryMilk, categoryCurd]
    ∧ categoryPage.fetches = 1
    ∧ (handleDelete CrudPage.categories (Except.ok ()) categoryMilk categoryPage).fetches = 1
    ∧ (handleDelete CrudPage.categories (Except.ok ()) categoryMilk categoryPage).rows
        = [categoryCurd]
    ∧ (fetchRows CrudPage.categories serverCategories categoryPage).rows
        = [categoryMilk, categoryCurd, categoryGhee] := by
  decide

/-- Claim C25, amended (re-fetch after every save).  On each management page,
every successful create or update is followed by a fetch of the full collection
(one more `getAll` request), and when that fetch succeeds the displayed list is
the fetched one; a successful delete is followed by no fetch: the displayed list
is the local list without the rows that carry the id of the deleted record, the
other rows unchanged and in order. -/
theorem refetch_after_save (page : CrudPage) (jsonParse : String → Option Json)
    (save : SaveKind → Except (Option ErrorData) Unit) (getAll : Except String CollectionData)
    (item : Record) (s : CrudState) :
    (∀ after kind, handleSubmit page jsonParse save getAll s
          = SubmitOutcome.resolved after (some kind) →
        save kind = Except.ok () →
        after.fetches = s.fetches + 1
        ∧ after.showModal = false
        ∧ (∀ data, getAll = Except.ok data → after.rows = collectionRows data))
    ∧ (handleDelete page (Except.ok ()) item s).fetches = s.fetches
    ∧ (handleDelete page (Except.ok ()) item s).rows
        = s.rows.filter (fun row => field row page.idKey ≠ field item page.idKey) := by
  refine ⟨?_, rfl, rfl⟩
  intro after kind hres hok
  rcases handleSubmit_cases page jsonParse save getAll s with ⟨m, hm⟩ | ⟨_, hm⟩ | ⟨d, hd, hm⟩
  · rw [hm] at hres
    cases hres
  · rw [hm] at hres
    injection hres with h1 h2
    subst h1
    obtain ⟨f1, f2, f3, _⟩ := fetchRows_spec page getAll
      { s with
        alerts := s.alerts ++ [if jsTruthy s.editingId then page.updated else page.created]
        showModal := false }
    exact ⟨f1, f2, f3⟩
  · rw [hm] at hres
    injection hres with h1 h2
    injection h2 with h3
    rw [h3, hok] at hd
    cases hd

/-- Witness of C25: a category created on `categoryPage` leads to a second
request for the collection, and the page then shows the three categories of the
server. -/
theorem refetch_after_save_witness :
    handleSubmit CrudPage.categories storedParse acceptingSave serverCategories categoryPage
      = SubmitOutcome.resolved
          { categoryPage with
            rows := [categoryMilk, categoryCurd, categoryGhee]
            alerts := ["Category created successfully"]
            showModal := false
            fetches := 2 }
          (some SaveKind.create)
    ∧ ({ categoryPage with
          rows := [categoryMilk, categoryCurd, categoryGhee]
          alerts := ["Category created successfully"]
          showModal := false
          fetches := 2 } : CrudState).fetches = categoryPage.fetches + 1 :=
  ⟨by decide,
    ((refetch_after_save CrudPage.categories storedParse acceptingSave serverCategories
      categoryMilk categoryPage).1 _ SaveKind.create (by decide) rfl).1⟩

/-- Counterexample to C26 as stated: for a failed save whose response carries
the detail "Not found.", the categories, customers and subscriptions pages show
their fixed text, not the detail; and for a response that carries only a field
error, the admins page shows its fixed text, not the field error. -/
theorem save_error_not_unwrapped :
    saveErrorAlert CrudPage.categories (some [("detail", ErrVal.text "Not found.")])
      = "Failed to save category"
    ∧ saveErrorAlert CrudPage.customers (some [("detail", ErrVal.text "Not found.")])
      = "Failed to save customer"
    ∧ saveErrorAlert CrudPage.subscriptions (some [("detail", ErrVal.text "Not found.")])
      = "Failed to save subscription"
    ∧ saveErrorAlert CrudPage.admins
        (some [("username", ErrVal.list ["This username is taken."])])
      = "Error: Failed to save admin"
    ∧ saveErrorAlert CrudPage.products
        (some [("sku", ErrVal.list ["This SKU is taken."])])
      = "Error: This SKU is taken."
    ∧ handleSubmit CrudPage.categories storedParse rejectingSave serverCategories categoryPage
      = SubmitOutcome.resolved { categoryPage with alerts := ["Failed to save category"] }
          (some SaveKind.create) := by
  decide

/-- Claim C26, amended (error unwrapping on save).  For every failed create or
update: on `ProductsPage` the message shown is "Error: " followed by the detail
of the response if it is present and not empty, otherwise by
`non_field_errors[0]` if present and not empty, otherwise by the first of the
flattened values of the response body if present and not empty, and by the
fixed text "Failed to save product" only when the response has none of these;
on `AdminsPage` it is "Error: " followed by the detail, otherwise by
`non_field_errors[0]`, otherwise by the fixed text "Failed to save admin"; on
the categories, customers and subscriptions pages it is the fixed text of the
page, whatever the response carries. -/
theorem save_error_message (body : ErrorData) :
    (∀ page, page = CrudPage.categories ∨ page = CrudPage.customers
        ∨ page = CrudPage.subscriptions →
        saveErrorAlert page (some body) = page.saveFailed
        ∧ saveErrorAlert page none = page.saveFailed)
    ∧ (∀ d, List.lookup "detail" body = some (ErrVal.text d) → d ≠ "" →
        saveErrorAlert CrudPage.products (some body) = "Error: " ++ d
        ∧ saveErrorAlert CrudPage.admins (some body) = "Error: " ++ d)
    ∧ ((List.lookup "detail" body = none ∨ List.lookup "detail" body = some (ErrVal.text "")) →
        (∀ m, (List.lookup "non_field_errors" body).bind ErrVal.first = some m → m ≠ "" →
          saveErrorAlert CrudPage.products (some body) = "Error: " ++ m
          ∧ saveErrorAlert CrudPage.admins (some body) = "Error: " ++ m)
        ∧ (((List.lookup "non_field_errors" body).bind ErrVal.first = none
              ∨ (List.lookup "non_field_errors" body).bind ErrVal.first = some "") →
            saveErrorAlert CrudPage.admins (some body) = "Error: Failed to save admin"
            ∧ (∀ v, (flatValues body).head? = some v → v ≠ "" →
                saveErrorAlert CrudPage.products (some body) = "Error: " ++ v)
            ∧ (((flatValues body).head? = none ∨ (flatValues body).head? = some "") →
                saveErrorAlert CrudPage.products (some body)
                  = "Error: Failed to save product")))
    ∧ saveErrorAlert CrudPage.products none = "Error: Failed to save product"
    ∧ saveErrorAlert CrudPage.admins none = "Error: Failed to save admin" := by
  refine ⟨?_, ?_, ?_, by decide, by decide⟩
  · intro page hp
    rcases hp with rfl | rfl | rfl <;> exact ⟨rfl, rfl⟩
  · intro d hd hne
    simp [saveErrorAlert, hd, ErrVal.truthy, ErrVal.render, firstTruthy, hne]
  · intro hdetail
    refine ⟨?_, ?_⟩
    · intro m hm hne
      rcases hdetail with hd | hd <;>
        simp [saveErrorAlert, hd, hm, ErrVal.truthy, firstTruthy, hne]
    · intro hnf
      refine ⟨?_, ?_, ?_⟩
      · rcases hdetail with hd | hd <;> rcases hnf with hn | hn <;>
          simp [saveErrorAlert, hd, hn, ErrVal.truthy, firstTruthy, CrudPage.saveFailed]
      · intro v hv hne
        rcases hdetail with hd | hd <;> rcases hnf with hn | hn <;>
          simp [saveErrorAlert, hd, hn, hv, ErrVal.truthy, firstTruthy, hne]
      · intro hflat
        rcases hdetail with hd | hd <;> rcases hnf with hn | hn <;>
          rcases hflat with hf | hf <;>
          simp [saveErrorAlert, hd, hn, hf, ErrVal.truthy, firstTruthy, CrudPage.saveFailed]

/-- Witness of C26: a response with the detail "Not found." is shown as
"Error: Not found." on the products and admins pages. -/
theorem save_error_message_witness :
    saveErrorAlert CrudPage.products (some [("detail", ErrVal.text "Not found.")])
      = "Error: Not found."
    ∧ saveErrorAlert CrudPage.admins (some [("detail", ErrVal.text "Not found.")])
      = "Error: Not found." :=
  (save_error_message [("detail", ErrVal.text "Not found.")]).2.1 "Not found." (by decide)
    (by decide)

/-- Claim C27 (cart lines stay unique per product).  If the dashboard cart has
at most one line per `product_id`, it still has after `handleAddToCart`, after
`handleRemoveFromCart`, after the merge of any list of hydrated lines (also one
that holds the same id several times) and after the pending-intent effect; and
`handleRemoveFromCart` with an id leaves no line with that id and keeps every
other line, unchanged and in order. -/
theorem cart_lines_unique (jsonParse : String → Option IntentJson)
    (authUser : Option AuthUser) (products : List Product) (s : Dash) (product : Product)
    (productId : Pid) (hydrated : List CartLine)
    (h : (s.cartItems.map (fun l => l.product_id)).Nodup) :
    ((handleAddToCart s product).cartItems.map (fun l => l.product_id)).Nodup
    ∧ ((handleRemoveFromCart s productId).cartItems.map (fun l => l.product_id)).Nodup
    ∧ ((mergeIntent s.cartItems hydrated).map (fun l => l.product_id)).Nodup
    ∧ ((pendingIntentEffect jsonParse authUser products s).cartItems.map
        (fun l => l.product_id)).Nodup
    ∧ (∀ l ∈ (handleRemoveFromCart s productId).cartItems, l.product_id ≠ productId)
    ∧ (handleRemoveFromCart s productId).cartItems
        = s.cartItems.filter (fun l => l.product_id ≠ productId)
    ∧ List.Sublist (handleRemoveFromCart s productId).cartItems s.cartItems
    ∧ (∀ l ∈ s.cartItems, l.product_id ≠ productId →
        l ∈ (handleRemoveFromCart s productId).cartItems) := by
  refine ⟨addToCartLines_nodup _ _ h, removeFromCartLines_nodup _ _ h,
    mergeIntent_nodup _ _ h, intentEffect_nodup _ _ _ _ h, ?_, rfl, ?_, ?_⟩
  · intro l hl
    have := (List.mem_filter.1 hl).2
    simpa using this
  · exact List.filter_sublist _
  · intro l hl hne
    exact List.mem_filter.2 ⟨hl, by simpa using hne⟩

/-- Witness of C27: the cart of `sampleOpen` holds product 1 and product 2; an
intent that names product 1 twice (by id and by name) and an unknown product
twice adds two lines for the unknown items and none for product 1. -/
theorem cart_lines_unique_witness :
    (sampleOpen.cartItems.map (fun l => l.product_id)) = [Pid.num 1, Pid.num 2]
    ∧ (mergeIntent sampleOpen.cartItems (hydratedItems sampleCatalog repeatedIntent)).map
        (fun l => (l.product_id, l.quantity))
      = [(Pid.num 1, 7), (Pid.num 2, 1), (Pid.str "missing-paneer-1", 1),
         (Pid.str "missing-paneer-3", 1)]
    ∧ ((mergeIntent sampleOpen.cartItems (hydratedItems sampleCatalog repeatedIntent)).map
        (fun l => l.product_id)).Nodup :=
  ⟨by decide, by decide,
    (cart_lines_unique sampleParse (some sampleUser) sampleCatalog sampleOpen productX
      (Pid.num 1) (hydratedItems sampleCatalog repeatedIntent) (by decide)).2.2.1⟩

/-- Claim C28 (the amount shown is the amount charged).  In every reachable
dashboard state in which the checkout form is open, no cart line is flagged
`unavailable` or `requires_subscription`; hence the lines
`handleCartCheckoutPayment` sends are all the cart lines, the amount on the pay
button (`cartStats.total`) is the sum of price × quantity over the lines sent,
and it is the subtotal and the total of the receipt of a confirmed order. -/
theorem shown_amount_is_charged (jsonParse : String → Option IntentJson)
    (authUser : Option AuthUser) (products : List Product) (s : Dash)
    (hs : Reachable jsonParse authUser products s) (hopen : s.cartCheckoutOpen = true) :
    (∀ l ∈ s.cartItems, l.unavailable = false ∧ truthy l.requires_subscription = false)
    ∧ availableCartItems s.cartItems = s.cartItems
    ∧ cartTotal s.cartItems
        = ((availableCartItems s.cartItems).map (fun l => l.price * l.quantity)).sum
    ∧ ∀ (clock : Clock) (backend : Payload → Except CheckoutError CheckoutResponse)
        (pl : Payload),
        (handleCartCheckoutPayment authUser clock backend s).2 = some pl →
        pl.items = s.cartItems.map
            (fun l => { product_id := l.product_id, quantity := l.quantity })
        ∧ ∀ response, backend pl = Except.ok response →
            ∃ r, (handleCartCheckoutPayment authUser clock backend s).1.successReceipt = some r
              ∧ r.subtotal = cartTotal s.cartItems ∧ r.total = cartTotal s.cartItems := by
  have hsafe := reachable_form_safe hs hopen
  obtain ⟨hav, htotal⟩ := cartTotal_of_available s.cartItems hsafe
  refine ⟨hsafe, hav, by rw [hav]; exact htotal, ?_⟩
  intro clock backend pl hsent
  obtain ⟨user, rfl, hv, rfl⟩ := (checkout_frame authUser clock backend s).2.2.2.2.2.2 pl hsent
  have hne : availableCartItems s.cartItems ≠ [] := by
    intro hnil
    rw [checkout_nothing_available _ clock backend s hv hnil] at hsent
    cases hsent
  refine ⟨by simp only [checkoutPayload, hav], ?_⟩
  intro response hok
  rw [checkout_success user clock backend s response hv hne hok]
  refine ⟨_, rfl, ?_, ?_⟩
  · simp only [cartReceipt, hav]
    rw [htotal]
    exact foldl_add_eq_sum (fun l : CartLine => l.price * l.quantity) _
  · simp only [cartReceipt, hav]
    rw [htotal]
    exact foldl_add_eq_sum (fun l : CartLine => l.price * l.quantity) _

/-- Witness of C28: in `sampleOpen` the form is open over two units at 52 and
one unit at 68; the pay button shows 172 and both lines are sent. -/
theorem shown_amount_is_charged_witness :
    sampleOpen.cartCheckoutOpen = true
    ∧ cartTotal sampleOpen.cartItems = 172
    ∧ availableCartItems sampleOpen.cartItems = sampleOpen.cartItems
    ∧ cartTotal sampleOpen.cartItems
        = ((availableCartItems sampleOpen.cartItems).map (fun l => l.price * l.quantity)).sum :=
  ⟨by decide, by decide,
    (shown_amount_is_charged sampleParse (some sampleUser) sampleCatalog sampleOpen
      sampleOpen_reachable (by decide)).2.1,
    (shown_amount_is_charged sampleParse (some sampleUser) sampleCatalog sampleOpen
      sampleOpen_reachable (by decide)).2.2.1⟩

/-- Claim C29 (landing-to-dashboard round trip).  For featured products with
pairwise distinct ids and every mini-cart, if the dashboard catalog holds a
product for the id of every entry of `cartEntries`, then the replay of the
checkout items of `handleMiniCartCheckout` into an empty dashboard cart yields
exactly one line per entry, in order, each with the id, name and price of a
catalog product of that id, the quantity of the entry and `unavailable = false`;
the item count of the dashboard cart equals `cartItemsCount`; and this is the
cart the pending-intent effect leaves when it reads the text that
`handleMiniCartCheckout` stored, for every `JSON.stringify` and `JSON.parse`
that agree on that text. -/
theorem landing_round_trip (featuredProducts : List FeaturedProduct)
    (miniCart : List (Int × Int)) (products : List Product)
    (hfeat : (featuredProducts.map (fun item => item.id)).Nodup)
    (hcat : ∀ e ∈ cartEntries featuredProducts miniCart, ∃ p ∈ products, p.product_id = e.id) :
    (mergeIntent []
        (hydratedItems products
          ((checkoutItems (cartEntries featuredProducts miniCart)).map readIntentItem))).map
        (fun l => (l.product_id, l.quantity, l.unavailable))
      = (cartEntries featuredProducts miniCart).map (fun e => (Pid.num e.id, e.qty, false))
    ∧ (mergeIntent []
        (hydratedItems products
          ((checkoutItems (cartEntries featuredProducts miniCart)).map readIntentItem))).length
      = (cartEntries featuredProducts miniCart).length
    ∧ (∀ l ∈ mergeIntent []
          (hydratedItems products
            ((checkoutItems (cartEntries featuredProducts miniCart)).map readIntentItem)),
        ∃ p ∈ products, l.product_id = Pid.num p.product_id ∧ l.name = p.name
          ∧ l.price = p.price)
    ∧ cartQuantity (mergeIntent []
        (hydratedItems products
          ((checkoutItems (cartEntries featuredProducts miniCart)).map readIntentItem)))
      = cartItemsCount featuredProducts miniCart
    ∧ (∀ (jsonStringify : List CheckoutItem → String) (jsonParse : String → Option IntentJson)
        (user : AuthUser) (s : Landing) (d : Dash),
        s.miniCart = miniCart → cartEntries featuredProducts miniCart ≠ [] →
        jsonStringify (checkoutItems (cartEntries featuredProducts miniCart)) ≠ "" →
        jsonParse (jsonStringify (checkoutItems (cartEntries featuredProducts miniCart)))
          = some (IntentJson.array
              ((checkoutItems (cartEntries featuredProducts miniCart)).map readIntentItem)) →
        user.id ≠ 0 → d.intentHandled = false → d.loading = false → d.cartItems = [] →
        d.storage = (handleMiniCartCheckout jsonStringify featuredProducts s).storage →
        (pendingIntentEffect jsonParse (some user) products d).cartItems
          = mergeIntent []
              (hydratedItems products
                ((checkoutItems (cartEntries featuredProducts miniCart)).map
                  readIntentItem))) := by
  obtain ⟨hhyd, hline⟩ := hydrated_snapshot products (cartEntries featuredProducts miniCart)
    (cartEntries_qty_pos featuredProducts miniCart) hcat
  have htriple : (hydratedItems products
        ((checkoutItems (cartEntries featuredProducts miniCart)).map readIntentItem)).map
        (fun l => (l.product_id, l.quantity, l.unavailable))
      = (cartEntries featuredProducts miniCart).map (fun e => (Pid.num e.id, e.qty, false)) := by
    rw [hhyd, List.map_map]
    apply List.map_congr_left
    intro e he
    obtain ⟨M, _, _, hval⟩ := hline e he
    simp only [Function.comp, hval]
  have hids : (hydratedItems products
        ((checkoutItems (cartEntries featuredProducts miniCart)).map readIntentItem)).map
        (fun l => l.product_id)
      = ((cartEntries featuredProducts miniCart).map (fun e => e.id)).map Pid.num := by
    have := congrArg (List.map (fun t : Pid × Int × Bool => t.1)) htriple
    simpa [List.map_map, Function.comp] using this
  have hmerge : mergeIntent []
        (hydratedItems products
          ((checkoutItems (cartEntries featuredProducts miniCart)).map readIntentItem))
      = hydratedItems products
          ((checkoutItems (cartEntries featuredProducts miniCart)).map readIntentItem) := by
    rw [mergeIntent_of_nodup]
    · rfl
    · rw [List.nil_append, hids]
      refine List.Nodup.map ?_ (cartEntries_ids_nodup featuredProducts miniCart hfeat)
      intro a b hab
      cases hab
      rfl
  rw [hmerge]
  refine ⟨htriple, ?_, ?_, ?_, ?_⟩
  · have := congrArg List.length htriple
    simpa using this
  · intro l hl
    rw [hhyd] at hl
    obtain ⟨e, he, rfl⟩ := List.mem_map.1 hl
    obtain ⟨M, hM, hid, hval⟩ := hline e he
    exact ⟨M, hM, by rw [hval, hid], by rw [hval], by rw [hval]⟩
  · rw [cartQuantity_eq_sum, cartItemsCount,
      foldl_add_eq_sum (fun e : CartEntry => e.qty) (cartEntries featuredProducts miniCart)]
    have := congrArg (List.map (fun t : Pid × Int × Bool => t.2.1)) htriple
    simp only [List.map_map, Function.comp] at this
    rw [show (fun l : CartLine => l.quantity) = (fun x : CartLine => x.quantity) from rfl]
    exact congrArg List.sum this
  · intro jsonStringify jsonParse user s d hmini hne htext hjson hid hnot hload hcart hst
    have hlen : ¬ (cartEntries featuredProducts miniCart).length = 0 := by
      intro h0
      exact hne (List.eq_nil_of_length_eq_zero h0)
    have hstored : d.storage
        = some (jsonStringify (checkoutItems (cartEntries featuredProducts miniCart))) := by
      rw [hst]
      simp only [handleMiniCartCheckout, hmini, hlen, if_false]
    have hitems : (checkoutItems (cartEntries featuredProducts miniCart)).map readIntentItem
        ≠ [] := by
      intro h
      apply hne
      have := congrArg List.length h
      simp only [checkoutItems, List.length_map, List.length_nil] at this
      exact List.eq_nil_of_length_eq_zero this
    rw [intentEffect_merge jsonParse user products d _ _ hid hnot hstored htext hjson hitems
      hload]
    simp only [hcart]
    exact hmerge

/-- Witness of C29: two units of product 1 and one unit of product 3, picked on
the landing page, become two dashboard lines with these quantities. -/
theorem landing_round_trip_witness :
    cartEntries fallbackFeaturedProducts sampleMiniCart
      = [{ id := 1, title := "Farm Fresh Milk", priceValue := 52, qty := 2 },
         { id := 3, title := "Curd & Dairy Packs", priceValue := 35, qty := 1 }]
    ∧ (mergeIntent []
        (hydratedItems sampleCatalog
          ((checkoutItems (cartEntries fallbackFeaturedProducts sampleMiniCart)).map
            readIntentItem))).map
        (fun l => (l.product_id, l.quantity, l.unavailable))
      = (cartEntries fallbackFeaturedProducts sampleMiniCart).map
          (fun e => (Pid.num e.id, e.qty, false))
    ∧ (pendingIntentEffect snapshotParse (some sampleUser) sampleCatalog
        { Dash.init
            (handleMiniCartCheckout sampleStringify fallbackFeaturedProducts
              { miniCart := sampleMiniCart, authNotice := "", showLoginModal := false,
                modalTab := "login", storage := none }).storage with
          loading := false }).cartItems
      = [{ product_id := Pid.num 1, name := "X", price := 52, quantity := 2,
           unavailable := false, requires_subscription := some false },
         { product_id := Pid.num 3, name := "Daily Milk", price := 35, quantity := 1,
           unavailable := false, requires_subscription := some true }] :=
  ⟨by decide,
    (landing_round_trip fallbackFeaturedProducts sampleMiniCart sampleCatalog (by decide)
      (by decide)).1,
    ((landing_round_trip fallbackFeaturedProducts sampleMiniCart sampleCatalog (by decide)
      (by decide)).2.2.2.2 sampleStringify snapshotParse sampleUser
        { miniCart := sampleMiniCart, authNotice := "", showLoginModal := false,
          modalTab := "login", storage := none }
        { Dash.init
            (handleMiniCartCheckout sampleStringify fallbackFeaturedProducts
              { miniCart := sampleMiniCart, authNotice := "", showLoginModal := false,
                modalTab := "login", storage := none }).storage with
          loading := false }
        rfl (by decide) (by decide) (by decide) (by decide) rfl rfl rfl rfl).trans
      (by decide)⟩

/-- Claim C30 (receipts never expose the full card number).  For every card
number, `formatPaymentDetail` of a card payment is "Card payment" when the
number holds no digit and otherwise "Card ending " followed by exactly the last
min 4 d digits of its d digits; so a number with at least four digits shows its
last four digits only, two numbers with the same last four digits give the
same detail, and the receipt of a card payment carries this detail. -/
theorem card_detail_last_four (source : CartPaymentData) :
    (source.card_number.data.filter Char.isDigit = [] →
        formatPaymentDetail "card" source = "Card payment")
    ∧ (source.card_number.data.filter Char.isDigit ≠ [] →
        formatPaymentDetail "card" source
          = "Card ending " ++ String.mk
              ((source.card_number.data.filter Char.isDigit).drop
                ((source.card_number.data.filter Char.isDigit).length
                  - min 4 (source.card_number.data.filter Char.isDigit).length))
        ∧ ((source.card_number.data.filter Char.isDigit).drop
              ((source.card_number.data.filter Char.isDigit).length
                - min 4 (source.card_number.data.filter Char.isDigit).length)).length
            = min 4 (source.card_number.data.filter Char.isDigit).length)
    ∧ (∀ pre tail, source.card_number.data.filter Char.isDigit = pre ++ tail →
        tail.length = 4 →
        formatPaymentDetail "card" source = "Card ending " ++ String.mk tail)
    ∧ (∀ (other : CartPaymentData) (pre pre2 tail : List Char),
        source.card_number.data.filter Char.isDigit = pre ++ tail →
        other.card_number.data.filter Char.isDigit = pre2 ++ tail →
        tail.length = 4 →
        formatPaymentDetail "card" other = formatPaymentDetail "card" source)
    ∧ (∀ (user : AuthUser) (clock : Clock) (items : List CartLine)
        (response : CheckoutResponse), source.payment_method = "card" →
        (cartReceipt user clock source items response).paymentDetail
          = formatPaymentDetail "card" source) := by
  have hfour : ∀ (d : CartPaymentData) (pre tail : List Char),
      d.card_number.data.filter Char.isDigit = pre ++ tail → tail.length = 4 →
      formatPaymentDetail "card" d = "Card ending " ++ String.mk tail := by
    intro d pre tail hd ht
    obtain ⟨_, _, h3, h4⟩ := card_tail (d.card_number.data.filter Char.isDigit)
    have hne : ¬ (d.card_number.data.filter Char.isDigit) = [] := by
      intro h
      rw [h] at hd
      have := congrArg List.length hd
      simp at this
      omega
    have hemp : ((d.card_number.data.filter Char.isDigit).drop
        ((d.card_number.data.filter Char.isDigit).length - 4)).isEmpty = false := by
      cases hb : ((d.card_number.data.filter Char.isDigit).drop
          ((d.card_number.data.filter Char.isDigit).length - 4)).isEmpty with
      | false => rfl
      | true => exact absurd (h3.1 hb) hne
    simp only [formatPaymentDetail, if_true, hemp, Bool.false_eq_true, if_false]
    rw [h4 pre tail hd ht]
  obtain ⟨h1, h2, h3, _⟩ := card_tail (source.card_number.data.filter Char.isDigit)
  refine ⟨?_, ?_, hfour source, ?_, ?_⟩
  · intro hnil
    simp [formatPaymentDetail, hnil]
  · intro hne
    have hemp : ((source.card_number.data.filter Char.isDigit).drop
        ((source.card_number.data.filter Char.isDigit).length - 4)).isEmpty = false := by
      cases hb : ((source.card_number.data.filter Char.isDigit).drop
          ((source.card_number.data.filter Char.isDigit).length - 4)).isEmpty with
      | false => rfl
      | true => exact absurd (h3.1 hb) hne
    refine ⟨?_, by rw [← h1]; exact h2⟩
    simp only [formatPaymentDetail, if_true, hemp, Bool.false_eq_true, if_false]
    rw [h1]
  · intro other pre pre2 tail hs ho ht
    rw [hfour source pre tail hs ht, hfour other pre2 tail ho ht]
  · intro user clock items response hm
    simp only [cartReceipt, hm]

/-- Witness of C30: the number 4111 1111 1111 1234 is shown as "Card ending
1234". -/
theorem card_detail_last_four_witness :
    groupedCard.card_number.data.filter Char.isDigit
      = "411111111111".data ++ "1234".data
    ∧ formatPaymentDetail "card" groupedCard = "Card ending 1234" :=
  ⟨by decide,
    (card_detail_last_four groupedCard).2.2.1 "411111111111".data "1234".data (by decide)
      (by decide)⟩

end MilkMan
